import Mathlib

/-!
# Door-lock security system (two ATmega16 nodes)

Shallow embedding of the session protocol of `CONTROL_ECU/control_main.c` (back node)
and `HMI_ECU/hmi_main.c` (front node).

* Bytes (`uint8`) are natural numbers; the code modelled here only copies and compares them,
  except for the keypad adjustment `+ '0'`, which is applied to values below 10.
* The 7-slot arrays (`PASSWORD_LENGTH`) are lists; slot `i` is read with `List.getD _ i 0`
  and written with `List.set`.
* The UART receive side of a node is the list `rx` of the bytes that will arrive, in order.
  A blocking read on an exhausted list never returns: the model answers `none`.
* Every call of the back node with an outside effect (UART send, motor, buzzer, delay,
  EEPROM write) is appended to its `trace`, oldest call first; the bytes the front node
  sends are appended to its `tx`.
* The back node's `UART_receiveString` is a parameter of its routines: `CONTROL_ECU/uart.c`
  is not among the sources.
-/

namespace SecuritySystem

/-! ## `system_modes.h` -/

def PASSWORD_LENGTH : Nat := 7
def MAX_PASSWORD_TRIES : Nat := 3
def SYNC_HANDSHAKE : Nat := 0xED
/-- The character `'#'`. -/
def UART_EOS : Nat := 35

def MODE_FIRST_BOOT : Nat := 0xFF
def MODE_NORMAL_BOOT_LOCKED : Nat := 0x00
def MODE_NORMAL_BOOT_MAIN : Nat := 0x02
def MODE_ALARM_MODE : Nat := 0x03

def OPEN_DOOR_REQUEST : Nat := 0x04
def CHANGE_PASS_REQUEST : Nat := 0x05

def ERROR : Nat := 0x00
def SUCCESS : Nat := 0x01

/-! ## Back node: `CONTROL_ECU/control_main.c` -/

/-- The macro `EEPROM_PASSWORD_ADDRESS` (`0x0320`). -/
def EEPROM_PASSWORD_ADDRESS : Nat := 0x0320

/-- The argument type of `DcMotor_Rotate` (its header is not among the sources; the three
enumerators are the ones `control_main.c` uses). -/
inductive DcMotor_State
  | STOP
  | CW
  | ACW
  deriving DecidableEq, Repr

/-- Calls of the back node that act on the outside world. `delay_sec n` records the call of
the blocking delay with argument `n` (seconds); the timer interrupt that ends the delay is
outside this sequential model. `EEPROM_writeString a str size` records the call with the
contents of the array passed. -/
inductive Event
  | UART_sendByte (a_data : Nat)
  | DcMotor_Rotate (state : DcMotor_State)
  | delay_sec (a_sec : Nat)
  | Buzzer_ON
  | Buzzer_OFF
  | EEPROM_writeString (a_addr : Nat) (str : List Nat) (size : Nat)
  deriving DecidableEq, Repr

/-- The globals of `control_main.c`, the bytes still to arrive at the UART, and the calls
performed so far. -/
structure Control where
  g_password : List Nat
  g_pass_buffer1 : List Nat
  g_pass_buffer2 : List Nat
  HMI_status : Nat
  rx : List Nat
  trace : List Event
  deriving DecidableEq, Repr

/-- The routine `UART_receiveString` as the back node sees it (`CONTROL_ECU/uart.h` declares it, the
back node's `uart.c` is not among the sources): from the prior contents of the destination
array and the pending bytes it yields the new contents of the array and the bytes left, or
never returns. The back node's routines take it as a parameter. -/
abbrev ReceiveString := List Nat → List Nat → Option (List Nat × List Nat)

/-- The routine `UART_receiveByte`: blocking read of one byte. -/
def UART_receiveByte : List Nat → Option (Nat × List Nat)
  | [] => none
  | b :: rest => some (b, rest)

/-- The loop `while (UART_receiveByte() != SYNC_HANDSHAKE);`: the bytes left after the
first sync byte. -/
def awaitSync : List Nat → Option (List Nat)
  | [] => none
  | b :: rest => if b ≠ SYNC_HANDSHAKE then awaitSync rest else some rest

/-- The routine `UART_sendByte` on the back node. -/
def Control.UART_sendByte (a_data : Nat) (s : Control) : Control :=
  { s with trace := s.trace ++ [Event.UART_sendByte a_data] }

/-- Any other recorded call of the back node. -/
def Control.call (e : Event) (s : Control) : Control :=
  { s with trace := s.trace ++ [e] }

/-- The `for` loop of `pass_compare`, from index `i`; `fuel` bounds the iterations left. -/
def pass_compare_loop (a_arr1 a_arr2 : List Nat) : Nat → Nat → Bool
  | 0, _ => true
  | fuel + 1, i =>
    if i < PASSWORD_LENGTH - 2 then
      if a_arr1.getD i 0 ≠ a_arr2.getD i 0 then false
      else pass_compare_loop a_arr1 a_arr2 fuel (i + 1)
    else true

/-- The routine `pass_compare`. -/
def pass_compare (a_arr1 a_arr2 : List Nat) : Bool :=
  pass_compare_loop a_arr1 a_arr2 (PASSWORD_LENGTH - 2) 0

/-- The copy loop of `set_password`, from index `i`, acting on `g_password`. -/
def set_password_loop (a_arr : List Nat) : Nat → Nat → List Nat → List Nat
  | 0, _, g => g
  | fuel + 1, i, g =>
    if i < PASSWORD_LENGTH - 2 then
      set_password_loop a_arr fuel (i + 1) (g.set i (a_arr.getD i 0))
    else g

/-- The routine `set_password`: copy, then `EEPROM_writeString(EEPROM_PASSWORD_ADDRESS, g_password, 5)`. -/
def set_password (a_arr : List Nat) (s : Control) : Control :=
  let s1 := { s with g_password := set_password_loop a_arr (PASSWORD_LENGTH - 2) 0 s.g_password }
  s1.call (Event.EEPROM_writeString EEPROM_PASSWORD_ADDRESS s1.g_password (PASSWORD_LENGTH - 2))

/-- The `for` loop of `confirmPasswordAttempts` from counter `i`, followed by the code after
the loop. `fuel` bounds the number of loop tests left. -/
def confirmPasswordAttempts_loop (recvStr : ReceiveString) (a_desired_success_state : Nat) :
    Nat → Nat → Control → Option (Bool × Control)
  | 0, _, _ => none
  | fuel + 1, i, s =>
    if i < MAX_PASSWORD_TRIES then
      match awaitSync s.rx with
      | none => none
      | some rx1 =>
        match recvStr s.g_pass_buffer1 rx1 with
        | none => none
        | some (buf, rx2) =>
          let s1 := { s with g_pass_buffer1 := buf, rx := rx2 }
          if pass_compare s1.g_pass_buffer1 s1.g_password then
            let s2 := { s1 with HMI_status := a_desired_success_state }
            let s3 := s2.UART_sendByte SUCCESS
            some (true, s3.UART_sendByte s3.HMI_status)
          else if i < MAX_PASSWORD_TRIES - 1 then
            let s2 := { s1 with HMI_status := MODE_NORMAL_BOOT_LOCKED }
            let s3 := s2.UART_sendByte ERROR
            confirmPasswordAttempts_loop recvStr a_desired_success_state fuel (i + 1)
              (s3.UART_sendByte s3.HMI_status)
          else
            confirmPasswordAttempts_loop recvStr a_desired_success_state fuel (i + 1) s1
    else
      let s2 := { s with HMI_status := MODE_ALARM_MODE }
      let s3 := s2.UART_sendByte ERROR
      some (false, s3.UART_sendByte s3.HMI_status)

/-- The routine `confirmPasswordAttempts`: at most three loop bodies and the final loop test. -/
def confirmPasswordAttempts (recvStr : ReceiveString) (a_desired_success_state : Nat)
    (s : Control) : Option (Bool × Control) :=
  confirmPasswordAttempts_loop recvStr a_desired_success_state (MAX_PASSWORD_TRIES + 1) 0 s

/-- The branch `case MODE_FIRST_BOOT` of the back node, after the two receives: compare and reply. -/
def first_boot_decide (s : Control) : Control :=
  if pass_compare s.g_pass_buffer1 s.g_pass_buffer2 then
    let s1 := s.UART_sendByte SYNC_HANDSHAKE
    let s2 := s1.UART_sendByte SUCCESS
    let s3 := { s2 with HMI_status := MODE_NORMAL_BOOT_MAIN }
    set_password s3.g_pass_buffer1 s3
  else
    let s1 := s.UART_sendByte SYNC_HANDSHAKE
    s1.UART_sendByte ERROR

/-- The branch `case MODE_FIRST_BOOT` of the back node. -/
def control_case_MODE_FIRST_BOOT (recvStr : ReceiveString) (s : Control) : Option Control :=
  match awaitSync s.rx with
  | none => none
  | some rx1 =>
    match recvStr s.g_pass_buffer1 rx1 with
    | none => none
    | some (buf1, rx2) =>
      match awaitSync rx2 with
      | none => none
      | some rx3 =>
        match recvStr s.g_pass_buffer2 rx3 with
        | none => none
        | some (buf2, rx4) =>
          some (first_boot_decide
            { s with g_pass_buffer1 := buf1, g_pass_buffer2 := buf2, rx := rx4 })

/-- The door sequence run after a successful open-door authentication. -/
def open_door_sequence (s : Control) : Control :=
  let s1 := s.call (Event.DcMotor_Rotate DcMotor_State.CW)
  let s2 := s1.call (Event.delay_sec 15)
  let s3 := s2.call (Event.DcMotor_Rotate DcMotor_State.STOP)
  let s4 := s3.call (Event.delay_sec 3)
  let s5 := s4.UART_sendByte SYNC_HANDSHAKE
  let s6 := s5.call (Event.DcMotor_Rotate DcMotor_State.ACW)
  let s7 := s6.call (Event.delay_sec 15)
  let s8 := s7.call (Event.DcMotor_Rotate DcMotor_State.STOP)
  s8.UART_sendByte SYNC_HANDSHAKE

/-- The branch `case MODE_NORMAL_BOOT_MAIN` of the back node. -/
def control_case_MODE_NORMAL_BOOT_MAIN (recvStr : ReceiveString) (s : Control) : Option Control :=
  match awaitSync s.rx with
  | none => none
  | some rx1 =>
    match UART_receiveByte rx1 with
    | none => none
    | some (request, rx2) =>
      let s1 := { s with rx := rx2 }
      if request = OPEN_DOOR_REQUEST then
        match confirmPasswordAttempts recvStr MODE_NORMAL_BOOT_MAIN s1 with
        | none => none
        | some (true, s2) => some (open_door_sequence s2)
        | some (false, s2) => some s2
      else
        match confirmPasswordAttempts recvStr MODE_FIRST_BOOT s1 with
        | none => none
        | some (_, s2) => some s2

/-- The branch `case MODE_ALARM_MODE` of the back node. -/
def control_case_MODE_ALARM_MODE (s : Control) : Control :=
  let s1 := s.call Event.Buzzer_ON
  let s2 := s1.call (Event.delay_sec 60)
  let s3 := s2.call Event.Buzzer_OFF
  let s4 := { s3 with HMI_status := MODE_NORMAL_BOOT_MAIN }
  let s5 := s4.UART_sendByte SYNC_HANDSHAKE
  s5.UART_sendByte s5.HMI_status

/-- One pass through the `switch (HMI_status)` of the back node's super loop. A value that
is none of the four `case` labels falls through the `switch`. -/
def control_main_step (recvStr : ReceiveString) (s : Control) : Option Control :=
  if s.HMI_status = MODE_FIRST_BOOT then
    control_case_MODE_FIRST_BOOT recvStr s
  else if s.HMI_status = MODE_NORMAL_BOOT_LOCKED then
    match confirmPasswordAttempts recvStr MODE_NORMAL_BOOT_MAIN s with
    | none => none
    | some (_, s1) => some s1
  else if s.HMI_status = MODE_NORMAL_BOOT_MAIN then
    control_case_MODE_NORMAL_BOOT_MAIN recvStr s
  else if s.HMI_status = MODE_ALARM_MODE then
    some (control_case_MODE_ALARM_MODE s)
  else
    some s

/-! ## Front node: `HMI_ECU/hmi_main.c`, `HMI_ECU/uart.c` -/

/-- The globals of `hmi_main.c`, the local `password_match` of `main`, the keys the keypad
will return, the bytes still to arrive at the UART and the bytes sent so far. Display output
and the busy-wait `_delay_ms` calls are not recorded. -/
structure Hmi where
  g_password_buffer : List Nat
  HMI_status : Nat
  password_match : Nat
  keys : List Nat
  rx : List Nat
  tx : List Nat
  deriving DecidableEq, Repr

/-- The routine `KEYPAD_getPressedKey`: blocking read of one key. -/
def KEYPAD_getPressedKey : List Nat → Option (Nat × List Nat)
  | [] => none
  | k :: rest => some (k, rest)

/-- The routine `UART_sendByte` on the front node. -/
def Hmi.UART_sendByte (a_data : Nat) (h : Hmi) : Hmi :=
  { h with tx := h.tx ++ [a_data] }

/-- The routine `UART_sendString` (`HMI_ECU/uart.c`): the first argument is the array from the pointer
`str` on. Without a null byte inside the array the read runs past its end, which the model
does not follow (`none`). -/
def Hmi.UART_sendString : List Nat → Hmi → Option Hmi
  | [], _ => none
  | c :: rest, h => if c ≠ 0 then Hmi.UART_sendString rest (h.UART_sendByte c) else some h

/-- The key loop of `getSendPasswordSync`, from index `i`. `'0'` is 48. -/
def getSendPasswordSync_loop : Nat → Nat → Hmi → Option Hmi
  | 0, _, h => some h
  | fuel + 1, i, h =>
    if i < PASSWORD_LENGTH - 2 then
      match KEYPAD_getPressedKey h.keys with
      | none => none
      | some (key, ks) =>
        let buf := h.g_password_buffer.set i key
        let buf1 := if buf.getD i 0 < 10 then buf.set i ((buf.getD i 0 + 48) % 256) else buf
        getSendPasswordSync_loop fuel (i + 1) { h with g_password_buffer := buf1, keys := ks }
    else some h

/-- The routine `getSendPasswordSync`. -/
def getSendPasswordSync (h : Hmi) : Option Hmi :=
  match getSendPasswordSync_loop (PASSWORD_LENGTH - 2) 0 h with
  | none => none
  | some h1 =>
    let h2 := h1.UART_sendByte SYNC_HANDSHAKE
    h2.UART_sendString h2.g_password_buffer

/-- The `do ... while` loop of `attemptPassword`; `fuel` bounds the number of rounds. -/
def attemptPassword_loop : Nat → Hmi → Option Hmi
  | 0, _ => none
  | fuel + 1, h =>
    match getSendPasswordSync h with
    | none => none
    | some h1 =>
      match UART_receiveByte h1.rx with
      | none => none
      | some (m, rx1) =>
        match UART_receiveByte rx1 with
        | none => none
        | some (st, rx2) =>
          let h2 := { h1 with password_match := m, HMI_status := st, rx := rx2 }
          if h2.password_match = 0 ∧ h2.HMI_status ≠ MODE_ALARM_MODE then
            attemptPassword_loop fuel h2
          else some h2

/-- The routine `attemptPassword`. Every round reads two bytes, so a run needs no more rounds than
there are pending bytes. -/
def attemptPassword (h : Hmi) : Option Hmi :=
  attemptPassword_loop (h.rx.length + 1) h

/-- The branch `case MODE_FIRST_BOOT` of the front node. -/
def hmi_case_MODE_FIRST_BOOT (h : Hmi) : Option Hmi :=
  match getSendPasswordSync h with
  | none => none
  | some h1 =>
    match getSendPasswordSync h1 with
    | none => none
    | some h2 =>
      match awaitSync h2.rx with
      | none => none
      | some rx1 =>
        match UART_receiveByte rx1 with
        | none => none
        | some (m, rx2) =>
          let h3 := { h2 with password_match := m, rx := rx2 }
          if h3.password_match ≠ 0 then
            some { h3 with password_match := 0, HMI_status := MODE_NORMAL_BOOT_MAIN }
          else some h3

/-- The loop `do { keyPressed = KEYPAD_getPressedKey(); } while (keyPressed != '+' &&
keyPressed != '-');` (`'+'` is 43, `'-'` is 45): the key that ends it and the keys left. -/
def awaitPlusMinus : List Nat → Option (Nat × List Nat)
  | [] => none
  | k :: rest => if k ≠ 43 ∧ k ≠ 45 then awaitPlusMinus rest else some (k, rest)

/-- The front node's `'+'` branch after `attemptPassword`: the two waits for a sync byte. -/
def hmi_open_door_wait (h : Hmi) : Option Hmi :=
  if h.HMI_status ≠ MODE_ALARM_MODE then
    match awaitSync h.rx with
    | none => none
    | some rx1 =>
      match awaitSync rx1 with
      | none => none
      | some rx2 => some { h with rx := rx2 }
  else some h

/-- The branch `case MODE_NORMAL_BOOT_MAIN` of the front node. -/
def hmi_case_MODE_NORMAL_BOOT_MAIN (h : Hmi) : Option Hmi :=
  match awaitPlusMinus h.keys with
  | none => none
  | some (keyPressed, ks) =>
    let h1 := { h with keys := ks }
    if keyPressed = 43 then
      let h2 := h1.UART_sendByte SYNC_HANDSHAKE
      let h3 := h2.UART_sendByte OPEN_DOOR_REQUEST
      match attemptPassword h3 with
      | none => none
      | some h4 => hmi_open_door_wait h4
    else
      let h2 := h1.UART_sendByte SYNC_HANDSHAKE
      let h3 := h2.UART_sendByte CHANGE_PASS_REQUEST
      attemptPassword h3

/-- The branch `case MODE_ALARM_MODE` of the front node. -/
def hmi_case_MODE_ALARM_MODE (h : Hmi) : Option Hmi :=
  match awaitSync h.rx with
  | none => none
  | some rx1 =>
    match UART_receiveByte rx1 with
    | none => none
    | some (st, rx2) => some { h with HMI_status := st, rx := rx2 }

/-- One pass through the `switch (HMI_status)` of the front node's super loop. -/
def hmi_main_step (h : Hmi) : Option Hmi :=
  if h.HMI_status = MODE_FIRST_BOOT then hmi_case_MODE_FIRST_BOOT h
  else if h.HMI_status = MODE_NORMAL_BOOT_LOCKED then attemptPassword h
  else if h.HMI_status = MODE_NORMAL_BOOT_MAIN then hmi_case_MODE_NORMAL_BOOT_MAIN h
  else if h.HMI_status = MODE_ALARM_MODE then hmi_case_MODE_ALARM_MODE h
  else some h

/-! ## `HMI_ECU/uart.c`: reception of a string -/

/-- The `do ... while` loop of `UART_receiveString` (`HMI_ECU/uart.c`) from index `i`,
followed by the write of the null byte. A round stores the received byte in slot `i`,
increments `i` (a `uint8`) and then tests slot `i`, which is the slot after the one just
written. The first argument is `i`, the second the array, the third the pending bytes. A
write or a test past the end of the array is not followed (`none`), and neither is a read
on an exhausted stream. -/
def UART_receiveString_loop : Nat → List Nat → List Nat → Option (List Nat × List Nat)
  | _, _, [] => none
  | i, str, b :: rest =>
    if i < str.length then
      let str1 := str.set i b
      let i1 := (i + 1) % 256
      if i1 < str1.length then
        if str1.getD i1 0 ≠ UART_EOS then UART_receiveString_loop i1 str1 rest
        else some (str1.set i1 0, rest)
      else none
    else none

/-- The routine `UART_receiveString` of `HMI_ECU/uart.c`. -/
def UART_receiveString : ReceiveString :=
  fun str rx => UART_receiveString_loop 0 str rx

/-! ## Back node: power-up, the super loop, the delay callback -/

/-- The globals of `control_main.c` at power-up, as their initialisers set them (the three
arrays zeroed, `HMI_status = MODE_FIRST_BOOT`), with `rx` the bytes that will arrive. The
module initialisations of `main` touch none of them. -/
def control_boot (rx : List Nat) : Control :=
  { g_password := [0, 0, 0, 0, 0, 0, 0], g_pass_buffer1 := [0, 0, 0, 0, 0, 0, 0],
    g_pass_buffer2 := [0, 0, 0, 0, 0, 0, 0], HMI_status := MODE_FIRST_BOOT, rx := rx,
    trace := [] }

/-- The first `n` passes of the super loop `for (;;)` of the back node. -/
def control_run (recvStr : ReceiveString) : Nat → Control → Option Control
  | 0, s => some s
  | n + 1, s =>
    match control_main_step recvStr s with
    | none => none
    | some s1 => control_run recvStr n s1

/-- The variables of the delay: the `static` counter `tick` of `Control_Delay_Callback`,
and the globals `timer_ticks` and `delay_over`. -/
structure DelayState where
  tick : Nat
  timer_ticks : Nat
  delay_over : Bool
  deriving DecidableEq, Repr

/-- The routine `Control_Delay_Callback`, run at every compare match of the timer; `tick`
is a `uint8`. -/
def Control_Delay_Callback (d : DelayState) : DelayState :=
  if d.tick = d.timer_ticks then
    { d with tick := 0, delay_over := true }
  else
    { d with tick := (d.tick + 1) % 256 }

/-- The state after `k` callbacks. -/
def callbacks : Nat → DelayState → DelayState
  | 0, d => d
  | k + 1, d => callbacks k (Control_Delay_Callback d)

/-! ## Back node: `CONTROL_ECU/external_eeprom.c` -/

def TWI_MT_START : Nat := 0x08
def TWI_MT_SLA_W_ACK : Nat := 0x18
def TWI_MT_DATA_ACK : Nat := 0x28
def EEPROM_SLAVE_ADDRESS : Nat := 0xA0

/-- The TWI bus with the EEPROM behind it: `mem d w` is the byte the device holds under the
device-select byte `d` and the word address `w`; `status` lists the values that the
successive calls of `TWI_getStatus` return (`0xF8`, no state information, once the list is
used up). -/
structure EepromBus where
  mem : Nat → Nat → Nat
  status : List Nat

/-- The routine `TWI_getStatus`. -/
def TWI_getStatus (b : EepromBus) : Nat × EepromBus :=
  (b.status.headD 0xF8, { b with status := b.status.tail })

/-- The device-select byte `EEPROM_SLAVE_ADDRESS | ((a_addr & 0x0700) >> 7)` that
`EEPROM_writeByte` sends for the address `a_addr`, as a `uint8`. -/
def slave_w_3addr (a_addr : Nat) : Nat :=
  (EEPROM_SLAVE_ADDRESS ||| ((a_addr &&& 0x0700) >>> 7)) % 256

/-- The routine `EEPROM_writeByte`: start, device select, word address `(uint8) a_addr`,
data, stop, with a status test after each of the first four. The device stores the byte of
a transaction that is acknowledged to its end; an abandoned transaction stores nothing. -/
def EEPROM_writeByte (a_addr a_data : Nat) (b : EepromBus) : Nat × EepromBus :=
  let r1 := TWI_getStatus b
  if r1.1 ≠ TWI_MT_START then (ERROR, r1.2)
  else
    let r2 := TWI_getStatus r1.2
    if r2.1 ≠ TWI_MT_SLA_W_ACK then (ERROR, r2.2)
    else
      let r3 := TWI_getStatus r2.2
      if r3.1 ≠ TWI_MT_DATA_ACK then (ERROR, r3.2)
      else
        let r4 := TWI_getStatus r3.2
        if r4.1 ≠ TWI_MT_DATA_ACK then (ERROR, r4.2)
        else
          (SUCCESS,
            { r4.2 with
              mem := fun d w =>
                if d = slave_w_3addr a_addr ∧ w = a_addr % 256 then a_data
                else r4.2.mem d w })

/-- The `for` loop of `EEPROM_writeString` from index `i` (a `uint8`; the address is a
`uint16`). -/
def EEPROM_writeString_loop (a_addr : Nat) (str : List Nat) (size : Nat) :
    Nat → Nat → EepromBus → Nat × EepromBus
  | 0, _, b => (SUCCESS, b)
  | fuel + 1, i, b =>
    if i < size then
      let r := EEPROM_writeByte ((a_addr + i) % 65536) (str.getD i 0) b
      if r.1 = 0 then (ERROR, r.2)
      else EEPROM_writeString_loop a_addr str size fuel ((i + 1) % 256) r.2
    else (SUCCESS, b)

/-- The routine `EEPROM_writeString`. -/
def EEPROM_writeString (a_addr : Nat) (str : List Nat) (size : Nat) (b : EepromBus) :
    Nat × EepromBus :=
  EEPROM_writeString_loop a_addr str size size 0 b

/-- The effect on the bus of the `EEPROM_writeString` calls recorded in a list of calls: the
values they return, in order, and the bus afterwards. -/
def replayEeprom : List Event → EepromBus → List Nat × EepromBus
  | [], b => ([], b)
  | Event.EEPROM_writeString a str size :: es, b =>
    let r := EEPROM_writeString a str size b
    let rest := replayEeprom es r.2
    (r.1 :: rest.1, rest.2)
  | _ :: es, b => replayEeprom es b

/-- The byte the EEPROM holds at the address `a`. -/
def eepromByte (b : EepromBus) (a : Nat) : Nat :=
  b.mem (slave_w_3addr a) (a % 256)

/-- The run of `main` of the back node before the super loop, on the EEPROM bus `b`: the
globals are as their initialisers set them, and no routine of `external_eeprom.c` is
called, so the bus is as it was. -/
def control_power_up (b : EepromBus) (rx : List Nat) : Control × EepromBus :=
  (control_boot rx, b)

/-! ## Back node: `EEPROM_readByte`, `EEPROM_readString` -/

def TWI_MT_REP_START : Nat := 0x10
def TWI_MT_SLA_R_ACK : Nat := 0x40
def TWI_MR_DATA_NACK : Nat := 0x58

/-- The routine `EEPROM_readByte` with `a_data` the prior content of `*a_data`: its result,
the content of `*a_data` afterwards, and the bus. Start, device select, word address
`(uint8) a_addr`, repeated start, device select for reading, then
`*a_data = TWI_readByteWithNack()`, the data register holding the byte the addressed device
sends, and only then the sixth status test; stop. -/
def EEPROM_readByte (a_addr a_data : Nat) (b : EepromBus) : Nat × Nat × EepromBus :=
  let r1 := TWI_getStatus b
  if r1.1 ≠ TWI_MT_START then (ERROR, a_data, r1.2)
  else
    let r2 := TWI_getStatus r1.2
    if r2.1 ≠ TWI_MT_SLA_W_ACK then (ERROR, a_data, r2.2)
    else
      let r3 := TWI_getStatus r2.2
      if r3.1 ≠ TWI_MT_DATA_ACK then (ERROR, a_data, r3.2)
      else
        let r4 := TWI_getStatus r3.2
        if r4.1 ≠ TWI_MT_REP_START then (ERROR, a_data, r4.2)
        else
          let r5 := TWI_getStatus r4.2
          if r5.1 ≠ TWI_MT_SLA_R_ACK then (ERROR, a_data, r5.2)
          else
            let a_data1 := r5.2.mem (slave_w_3addr a_addr) (a_addr % 256)
            let r6 := TWI_getStatus r5.2
            if r6.1 ≠ TWI_MR_DATA_NACK then (ERROR, a_data1, r6.2)
            else (SUCCESS, a_data1, r6.2)

/-- The `for` loop of `EEPROM_readString` from index `i` (a `uint8`; the address is a
`uint16`): the result, the array and the bus. `EEPROM_readByte` is passed `&str[i]`. -/
def EEPROM_readString_loop (a_addr : Nat) (size : Nat) :
    Nat → Nat → List Nat → EepromBus → Nat × List Nat × EepromBus
  | 0, _, str, b => (SUCCESS, str, b)
  | fuel + 1, i, str, b =>
    if i < size then
      let r := EEPROM_readByte ((a_addr + i) % 65536) (str.getD i 0) b
      let str1 := str.set i r.2.1
      if r.1 = 0 then (ERROR, str1, r.2.2)
      else EEPROM_readString_loop a_addr size fuel ((i + 1) % 256) str1 r.2.2
    else (SUCCESS, str, b)

/-- The routine `EEPROM_readString`. -/
def EEPROM_readString (a_addr : Nat) (str : List Nat) (size : Nat) (b : EepromBus) :
    Nat × List Nat × EepromBus :=
  EEPROM_readString_loop a_addr size size 0 str b

/-! ## Back node: `CONTROL_ECU/timer.c` -/

def TIMER0_ID : Nat := 0
def TIMER1_ID : Nat := 1
def TIMER2_ID : Nat := 2
def Timer_Mode_Normal : Nat := 0
def Timer_Mode_Compare : Nat := 1

/-! The bit numbers of the ATmega16 timer registers, as `<avr/io.h>` gives them (the
toolchain header is not among the sources). -/

def TOIE0 : Nat := 0
def OCIE0 : Nat := 1
def TOIE1 : Nat := 2
def OCIE1A : Nat := 4
def TOIE2 : Nat := 6
def OCIE2 : Nat := 7
def FOC0 : Nat := 7
def WGM01 : Nat := 3
def FOC1A : Nat := 3
def FOC1B : Nat := 2
def WGM12 : Nat := 3
def FOC2 : Nat := 7
def WGM21 : Nat := 3

/-- The timer registers that `timer.c` accesses, as memory cells (8 bits wide, `TCNT1` and
`OCR1A` 16 bits), and its three `static` variables `Timer0_Current_Clock`,
`Timer1_Current_Clock`, `Timer2_Current_Clock`. -/
structure TimerRegs where
  TCNT0 : Nat
  TCCR0 : Nat
  OCR0 : Nat
  TCNT1 : Nat
  TCCR1A : Nat
  TCCR1B : Nat
  OCR1A : Nat
  TCNT2 : Nat
  TCCR2 : Nat
  OCR2 : Nat
  TIMSK : Nat
  Timer0_Current_Clock : Nat
  Timer1_Current_Clock : Nat
  Timer2_Current_Clock : Nat
  deriving DecidableEq, Repr

/-- The structure `Timer_ConfigType`. -/
structure Timer_ConfigType where
  Timer_ID : Nat
  Prescaler : Nat
  Mode : Nat
  Compare_Value : Nat
  Interrupt_Enable : Nat
  deriving DecidableEq, Repr

/-- The routine `Timer_init`. -/
def Timer_init (Config : Timer_ConfigType) (r : TimerRegs) : TimerRegs :=
  if Config.Timer_ID = TIMER0_ID then
    let r1 := { r with TCNT0 := 0 }
    let r2 :=
      if Config.Mode = Timer_Mode_Compare then
        { r1 with OCR0 := Config.Compare_Value % 256,
                  TIMSK := (r1.TIMSK ||| (Config.Interrupt_Enable <<< OCIE0)) % 256 }
      else if Config.Mode = Timer_Mode_Normal then
        { r1 with TIMSK := (r1.TIMSK ||| (Config.Interrupt_Enable <<< TOIE0)) % 256 }
      else r1
    { r2 with
      Timer0_Current_Clock := Config.Prescaler,
      TCCR0 := ((1 <<< FOC0) ||| (Config.Mode <<< WGM01) ||| (Config.Prescaler &&& 0x07)) % 256 }
  else if Config.Timer_ID = TIMER1_ID then
    let r1 := { r with TCNT1 := 0, TCCR1A := (1 <<< FOC1A) ||| (1 <<< FOC1B) }
    let r2 :=
      if Config.Mode = Timer_Mode_Compare then
        { r1 with OCR1A := Config.Compare_Value % 65536,
                  TIMSK := (r1.TIMSK ||| (Config.Interrupt_Enable <<< OCIE1A)) % 256 }
      else if Config.Mode = Timer_Mode_Normal then
        { r1 with TIMSK := (r1.TIMSK ||| (Config.Interrupt_Enable <<< TOIE1)) % 256 }
      else r1
    { r2 with
      Timer1_Current_Clock := Config.Prescaler,
      TCCR1B := ((Config.Mode <<< WGM12) ||| (Config.Prescaler &&& 0x07)) % 256 }
  else if Config.Timer_ID = TIMER2_ID then
    let r1 := { r with TCNT2 := 0 }
    let r2 :=
      if Config.Mode = Timer_Mode_Compare then
        { r1 with OCR2 := Config.Compare_Value % 256,
                  TIMSK := (r1.TIMSK ||| (Config.Interrupt_Enable <<< OCIE2)) % 256 }
      else if Config.Mode = Timer_Mode_Normal then
        { r1 with TIMSK := (r1.TIMSK ||| (Config.Interrupt_Enable <<< TOIE2)) % 256 }
      else r1
    { r2 with
      Timer2_Current_Clock := Config.Prescaler,
      TCCR2 := ((1 <<< FOC2) ||| (Config.Mode <<< WGM21) ||| (Config.Prescaler &&& 0x07)) % 256 }
  else r

/-- The routine `Timer_stop`. -/
def Timer_stop (a_Timer_ID : Nat) (r : TimerRegs) : TimerRegs :=
  if a_Timer_ID = TIMER0_ID then { r with TCCR0 := r.TCCR0 &&& 0xF8 }
  else if a_Timer_ID = TIMER1_ID then { r with TCCR1B := r.TCCR1B &&& 0xF8 }
  else if a_Timer_ID = TIMER2_ID then { r with TCCR2 := r.TCCR2 &&& 0xF8 }
  else r

/-- The routine `Timer_resume`. In `case TIMER2_ID` the source reads
`Timer0_Current_Clock`. -/
def Timer_resume (a_Timer_ID : Nat) (r : TimerRegs) : TimerRegs :=
  if a_Timer_ID = TIMER0_ID then
    { r with TCCR0 := (r.TCCR0 ||| (r.Timer0_Current_Clock &&& 0x07)) % 256 }
  else if a_Timer_ID = TIMER1_ID then
    { r with TCCR1B := (r.TCCR1B ||| (r.Timer1_Current_Clock &&& 0x07)) % 256 }
  else if a_Timer_ID = TIMER2_ID then
    { r with TCCR2 := (r.TCCR2 ||| (r.Timer0_Current_Clock &&& 0x07)) % 256 }
  else r

/-- The routine `Timer_DeInit`. In `case TIMER2_ID` the source assigns `TCCR0` and
`TCNT0`. -/
def Timer_DeInit (a_Timer_ID : Nat) (r : TimerRegs) : TimerRegs :=
  if a_Timer_ID = TIMER0_ID then
    { r with TCCR0 := 0, TCNT0 := 0, OCR0 := 0,
             TIMSK := r.TIMSK &&& (255 - ((1 <<< TOIE0) ||| (1 <<< OCIE0))) }
  else if a_Timer_ID = TIMER1_ID then
    { r with TCCR1A := 0, TCCR1B := 0, TCNT1 := 0, OCR1A := 0,
             TIMSK := r.TIMSK &&& (255 - ((1 <<< TOIE1) ||| (1 <<< OCIE1A))) }
  else if a_Timer_ID = TIMER2_ID then
    { r with TCCR0 := 0, TCNT0 := 0, OCR2 := 0,
             TIMSK := r.TIMSK &&& (255 - ((1 <<< TOIE2) ||| (1 <<< OCIE2))) }
  else r

/-! ## Back node: the tick count of `delay_sec` -/

def F_CPU : Nat := 8000000
def TIMER_TOP_VALUE : Nat := 7812
def TIMER_PRESCALER_VALUE : ℚ := 1024

/-- The value `round(a_sec / ((TIMER_PRESCALER_VALUE / F_CPU) * TIMER_TOP_VALUE))` that
`delay_sec` computes, in exact rational arithmetic (the source computes it in floating
point). -/
def delay_sec_rounded (a_sec : Nat) : Int :=
  round ((a_sec : ℚ) / ((TIMER_PRESCALER_VALUE / (F_CPU : ℚ)) * (TIMER_TOP_VALUE : ℚ)))

/-- The value that `delay_sec(a_sec)` stores in the `uint8` variable `timer_ticks`. -/
def delay_sec_timer_ticks (a_sec : Nat) : Nat :=
  (delay_sec_rounded a_sec).toNat % 256

/-! ## Vocabulary of the statements -/

/-- Two arrays agree on the five password slots. -/
def matches5 (a b : List Nat) : Prop :=
  ∀ i, i < 5 → a.getD i 0 = b.getD i 0

instance (a b : List Nat) : Decidable (matches5 a b) := by
  unfold matches5; infer_instance

/-- The bytes sent over the UART among a list of calls. -/
def txBytes : List Event → List Nat
  | [] => []
  | Event.UART_sendByte b :: es => b :: txBytes es
  | _ :: es => txBytes es

/-- The motor commands among a list of calls. -/
def motorCommands : List Event → List DcMotor_State
  | [] => []
  | Event.DcMotor_Rotate d :: es => d :: motorCommands es
  | _ :: es => motorCommands es

/-- The reception of `n` password attempts by the back node, as `confirmPasswordAttempts`
performs it (wait for the sync byte, then `UART_receiveString(g_pass_buffer1)`): the
successive contents of `g_pass_buffer1`, and the bytes left. -/
def receiveAttempts (recvStr : ReceiveString) : Nat → List Nat → List Nat →
    Option (List (List Nat) × List Nat)
  | 0, _, rx => some ([], rx)
  | n + 1, buf, rx =>
    match awaitSync rx with
    | none => none
    | some rx1 =>
      match recvStr buf rx1 with
      | none => none
      | some (buf1, rx2) =>
        match receiveAttempts recvStr n buf1 rx2 with
        | none => none
        | some (bufs, rx3) => some (buf1 :: bufs, rx3)

/-- The reply to a failed attempt that is not the last: the error byte and the `Locked`
mode code. -/
def retryReply : List Event :=
  [Event.UART_sendByte ERROR, Event.UART_sendByte MODE_NORMAL_BOOT_LOCKED]

/-- The list `retryReply` repeated `n` times. -/
def retryReplies : Nat → List Event
  | 0 => []
  | n + 1 => retryReply ++ retryReplies n

/-- The calls of the door sequence. -/
def doorEvents : List Event :=
  [Event.DcMotor_Rotate DcMotor_State.CW, Event.delay_sec 15,
   Event.DcMotor_Rotate DcMotor_State.STOP, Event.delay_sec 3,
   Event.UART_sendByte SYNC_HANDSHAKE,
   Event.DcMotor_Rotate DcMotor_State.ACW, Event.delay_sec 15,
   Event.DcMotor_Rotate DcMotor_State.STOP, Event.UART_sendByte SYNC_HANDSHAKE]

/-- The character the front node stores for a key: `key + '0'` for a key below 10, the key
itself otherwise. -/
def keyChar (key : Nat) : Nat :=
  if key < 10 then (key + 48) % 256 else key

/-- The bytes of one password transmission of the front node: the sync byte, the characters
of the five keys, the terminator `'#'`. -/
def passwordFrame (k0 k1 k2 k3 k4 : Nat) : List Nat :=
  [SYNC_HANDSHAKE, keyChar k0, keyChar k1, keyChar k2, keyChar k3, keyChar k4, UART_EOS]

/-- The transmissions of the successive groups of five keys of a key sequence. -/
def passwordFrames : List Nat → List Nat
  | k0 :: k1 :: k2 :: k3 :: k4 :: rest => passwordFrame k0 k1 k2 k3 k4 ++ passwordFrames rest
  | _ => []

/-- The front node's buffer as `main` initialises it: slot 5 holds `'#'`, slot 6 the null
byte. -/
def bufferReady (buf : List Nat) : Prop :=
  ∃ a0 a1 a2 a3 a4, buf = [a0, a1, a2, a3, a4, UART_EOS, 0]

/-- The contract of `UART_receiveString` on a lossless channel: it consumes the pending
bytes up to and including the first terminator `'#'`, and what it leaves in the array
depends only on the array and on those bytes. -/
def ReceivesToEOS (recvStr : ReceiveString) : Prop :=
  ∀ buf pre, UART_EOS ∉ pre →
    ∃ buf', ∀ post, recvStr buf (pre ++ UART_EOS :: post) = some (buf', post)

/-- Waiting for a sync byte `n` times in a row (`awaitSync` iterated): the bytes left. -/
def awaitSyncs : Nat → List Nat → Option (List Nat)
  | 0, rx => some rx
  | n + 1, rx =>
    match awaitSync rx with
    | none => none
    | some rx1 => awaitSyncs n rx1

/-- The back node's `FirstBoot` pass after its two receptions, both arrays holding the
capture `P`. -/
def enrollWith (P : List Nat) (s : Control) : Control :=
  first_boot_decide
    { s with g_pass_buffer1 := P, g_pass_buffer2 := P, HMI_status := MODE_FIRST_BOOT }

/-- The pass `enrollWith P`, run `n` times in a row. -/
def enrollTimes (P : List Nat) : Nat → Control → Control
  | 0, s => s
  | n + 1, s => enrollTimes P n (enrollWith P s)

/-- The calls of a successful enrollment that stores `G`. -/
def enrollCalls (G : List Nat) : List Event :=
  [Event.UART_sendByte SYNC_HANDSHAKE, Event.UART_sendByte SUCCESS,
   Event.EEPROM_writeString EEPROM_PASSWORD_ADDRESS G (PASSWORD_LENGTH - 2)]

/-- A list of calls repeated `n` times. -/
def repeatCalls (l : List Event) : Nat → List Event
  | 0 => []
  | n + 1 => l ++ repeatCalls l n

/-- What `set_password` leaves in `g_password` (contents `g` before) for the capture `P`:
the five password bytes of `P`, then the slots of `g` from slot 5 on. -/
def storedAfter (P g : List Nat) : List Nat :=
  [P.getD 0 0, P.getD 1 0, P.getD 2 0, P.getD 3 0, P.getD 4 0] ++ g.drop 5

/-- The number of calls of `set_password` among the calls `l`: `set_password` is the only
caller of `EEPROM_writeString` in `control_main.c`, and calls it once. -/
def setPasswordCalls : List Event → Nat
  | [] => 0
  | Event.EEPROM_writeString _ _ _ :: l => setPasswordCalls l + 1
  | _ :: l => setPasswordCalls l

/-- The calls performed by a pass of the super loop that leads from state `s` to `s1`. -/
def passCalls (s s1 : Control) : List Event :=
  s1.trace.drop s.trace.length

/-- The bus after the byte writes at the indices `0 .. k-1` of `EEPROM_writeString`, each
performed with `EEPROM_writeByte` at the address `a_addr + i` (a `uint16`), in order. -/
def writeBytes (a_addr : Nat) (str : List Nat) : Nat → EepromBus → EepromBus
  | 0, b => b
  | k + 1, b =>
    (EEPROM_writeByte ((a_addr + k) % 65536) (str.getD k 0) (writeBytes a_addr str k b)).2

/-- What the byte write at index `i` returns, performed after the byte writes at the
indices before it. -/
def byteWriteResult (a_addr : Nat) (str : List Nat) (i : Nat) (b : EepromBus) : Nat :=
  (EEPROM_writeByte ((a_addr + i) % 65536) (str.getD i 0) (writeBytes a_addr str i b)).1

/-- The buzzer commands among a list of calls: `true` for `Buzzer_ON`, `false` for
`Buzzer_OFF`. -/
def buzzerCommands : List Event → List Bool
  | [] => []
  | Event.Buzzer_ON :: es => true :: buzzerCommands es
  | Event.Buzzer_OFF :: es => false :: buzzerCommands es
  | _ :: es => buzzerCommands es

/-- The index (from 0) of the first of at most `n` attempts that agrees with the password
`g` on the five password slots, the attempts being received as `confirmPasswordAttempts`
receives them (wait for the sync byte, then `UART_receiveString(g_pass_buffer1)`), and no
attempt being received after a matching one: `some (some k)` when attempt `k` is the first
to match, `some none` when none of the `n` matches, `none` when a reception does not
return. -/
def firstMatch (recvStr : ReceiveString) (g : List Nat) :
    Nat → List Nat → List Nat → Option (Option Nat)
  | 0, _, _ => some none
  | n + 1, buf, rx =>
    match awaitSync rx with
    | none => none
    | some rx1 =>
      match recvStr buf rx1 with
      | none => none
      | some (b, rx2) =>
        if pass_compare b g then some (some 0)
        else
          match firstMatch recvStr g n b rx2 with
          | none => none
          | some none => some none
          | some (some k) => some (some (k + 1))

/-- The replies of `confirmPasswordAttempts(t)` by the index of the first matching attempt:
`ERROR`, `Locked` for each attempt before it and `SUCCESS`, `t` for it, or, when none of
the three matches, `ERROR`, `Locked` twice and `ERROR`, `Alarm`. -/
def confirmReplies (t : Nat) : Option Nat → List Event
  | some k => retryReplies k ++ [Event.UART_sendByte SUCCESS, Event.UART_sendByte t]
  | none => retryReplies 2 ++ [Event.UART_sendByte ERROR, Event.UART_sendByte MODE_ALARM_MODE]

/-- Modelled from the spec: the back node's `UART_receiveString` (`CONTROL_ECU/uart.c` is
not among the sources), "the receiver reads bytes until it sees the terminator character,
then appends its own null terminator locally". Bytes go to slots `i`, `i + 1`, ...; the
null byte goes to the slot after the terminator. -/
def receiveUntilEOS_from : Nat → List Nat → List Nat → Option (List Nat × List Nat)
  | _, _, [] => none
  | i, str, b :: rest =>
    if b = UART_EOS then some ((str.set i b).set (i + 1) 0, rest)
    else receiveUntilEOS_from (i + 1) (str.set i b) rest

/-- Modelled from the spec: see `receiveUntilEOS_from`; reception starts at slot 0. -/
def receiveUntilEOS : ReceiveString :=
  fun str rx => receiveUntilEOS_from 0 str rx

/-! ## Example inputs -/

/-- Seven null bytes: the initial contents of the back node's arrays. -/
def zeroBuffer : List Nat := [0, 0, 0, 0, 0, 0, 0]

/-- A back node holding the password `"12345"`, about to receive the attempts `"99999#"`
and `"12345#"`, each after a sync byte. -/
def exampleControl : Control :=
  { g_password := [49, 50, 51, 52, 53, 0, 0], g_pass_buffer1 := zeroBuffer,
    g_pass_buffer2 := zeroBuffer, HMI_status := MODE_NORMAL_BOOT_LOCKED,
    rx := [0xED, 57, 57, 57, 57, 57, 35, 0xED, 49, 50, 51, 52, 53, 35], trace := [] }

/-- A back node holding the password `"12345"`, about to receive three wrong attempts. -/
def exampleControlWrong : Control :=
  { g_password := [49, 50, 51, 52, 53, 0, 0], g_pass_buffer1 := zeroBuffer,
    g_pass_buffer2 := zeroBuffer, HMI_status := MODE_NORMAL_BOOT_LOCKED,
    rx := [0xED, 57, 57, 57, 57, 57, 35, 0xED, 49, 50, 51, 52, 54, 35,
           0xED, 48, 48, 48, 48, 48, 35], trace := [] }

/-- A back node at first boot, about to receive the captures `"12345#"` and `"12345#"`. -/
def exampleEnroll : Control :=
  { g_password := zeroBuffer, g_pass_buffer1 := zeroBuffer, g_pass_buffer2 := zeroBuffer,
    HMI_status := MODE_FIRST_BOOT,
    rx := [0xED, 49, 50, 51, 52, 53, 35, 0xED, 49, 50, 51, 52, 53, 35], trace := [] }

/-- A back node at first boot, about to receive the captures `"12345#"` and `"54321#"`. -/
def exampleEnrollMismatch : Control :=
  { g_password := zeroBuffer, g_pass_buffer1 := zeroBuffer, g_pass_buffer2 := zeroBuffer,
    HMI_status := MODE_FIRST_BOOT,
    rx := [0xED, 49, 50, 51, 52, 53, 35, 0xED, 53, 52, 51, 50, 49, 35], trace := [] }

/-- A back node in `MainMenu` holding the password `"12345"`, about to receive the open-door
request and the attempt `"12345#"`. -/
def exampleOpenDoor : Control :=
  { g_password := [49, 50, 51, 52, 53, 0, 0], g_pass_buffer1 := zeroBuffer,
    g_pass_buffer2 := zeroBuffer, HMI_status := MODE_NORMAL_BOOT_MAIN,
    rx := [0xED, 4, 0xED, 49, 50, 51, 52, 53, 35], trace := [] }

/-- A back node in `MainMenu` holding the password `"12345"`, about to receive two stray
bytes, the change-password request and the attempt `"12345#"`. -/
def exampleChangePass : Control :=
  { g_password := [49, 50, 51, 52, 53, 0, 0], g_pass_buffer1 := zeroBuffer,
    g_pass_buffer2 := zeroBuffer, HMI_status := MODE_NORMAL_BOOT_MAIN,
    rx := [7, 9, 0xED, 5, 0xED, 49, 50, 51, 52, 53, 35], trace := [] }

/-- A back node in `Alarm` after three failed attempts. -/
def exampleAlarm : Control :=
  { g_password := [49, 50, 51, 52, 53, 0, 0], g_pass_buffer1 := [48, 48, 48, 48, 48, 35, 0],
    g_pass_buffer2 := zeroBuffer, HMI_status := MODE_ALARM_MODE, rx := [],
    trace := [Event.UART_sendByte 0, Event.UART_sendByte 3] }

/-- A front node in `Alarm`. -/
def exampleHmiAlarm : Hmi :=
  { g_password_buffer := [48, 48, 48, 48, 48, 35, 0], HMI_status := MODE_ALARM_MODE,
    password_match := 0, keys := [], rx := [], tx := [] }

/-- A back node in `MainMenu` holding the password `"12345"`, with nothing pending. -/
def exampleControlIdle : Control :=
  { g_password := [49, 50, 51, 52, 53, 0, 0], g_pass_buffer1 := zeroBuffer,
    g_pass_buffer2 := zeroBuffer, HMI_status := MODE_NORMAL_BOOT_MAIN, rx := [], trace := [] }

/-- A front node in `MainMenu` with its buffer as `main` initialises it. -/
def exampleHmiIdle : Hmi :=
  { g_password_buffer := [0, 0, 0, 0, 0, 35, 0], HMI_status := MODE_NORMAL_BOOT_MAIN,
    password_match := 0, keys := [], rx := [], tx := [] }

/-- The keys of the entries `99999`, `12345`, `00000`. -/
def exampleKeys : List Nat := [9, 9, 9, 9, 9, 1, 2, 3, 4, 5, 0, 0, 0, 0, 0]

/-- A back node in `FirstBoot` whose arrays hold `"99999#"` and the null byte, as complete
receptions are meant to leave them, about to receive twice the bytes `1 2 # 4 5 #`, each
time after a sync byte. -/
def exampleStaleArrays : Control :=
  { g_password := [57, 57, 57, 57, 57, 0, 0], g_pass_buffer1 := [57, 57, 57, 57, 57, 35, 0],
    g_pass_buffer2 := [57, 57, 57, 57, 57, 35, 0], HMI_status := MODE_FIRST_BOOT,
    rx := [0xED, 49, 50, 35, 52, 53, 35, 0xED, 49, 50, 35, 52, 53, 35], trace := [] }

/-- A front node at power-up, after `main` has initialised slots 5 and 6 of its buffer. -/
def exampleHmiBoot : Hmi :=
  { g_password_buffer := [0, 0, 0, 0, 0, 35, 0], HMI_status := MODE_FIRST_BOOT,
    password_match := 0, keys := [], rx := [], tx := [] }

/-- A front node in `MainMenu`; the user presses `7`, `'*'`, `'-'` and then the keys
`1 2 3 4 5`; the reply `SUCCESS`, `FirstBoot` is pending. -/
def exampleHmiMenu : Hmi :=
  { g_password_buffer := [0, 0, 0, 0, 0, 35, 0], HMI_status := MODE_NORMAL_BOOT_MAIN,
    password_match := 0, keys := [7, 42, 45, 1, 2, 3, 4, 5], rx := [1, 0xFF], tx := [] }

/-- An EEPROM that holds the password `"12345"` at the addresses `0x0320 .. 0x0324`
(device-select byte `0xA6`, word addresses `0x20 .. 0x24`) and `0xFF` elsewhere. -/
def exampleEnrolledBus : EepromBus :=
  { mem := fun d w => if d = 0xA6 ∧ 0x20 ≤ w ∧ w ≤ 0x24 then 49 + (w - 0x20) else 0xFF,
    status := [] }

/-- The bytes of an enrollment of `"12345"`, a change-password request authenticated with
`"12345#"`, and an enrollment of `"67890"`. -/
def exampleChangeRx : List Nat :=
  [0xED, 49, 50, 51, 52, 53, 35, 0xED, 49, 50, 51, 52, 53, 35,
   0xED, 5, 0xED, 49, 50, 51, 52, 53, 35,
   0xED, 54, 55, 56, 57, 48, 35, 0xED, 54, 55, 56, 57, 48, 35]

/-- The back node after the first two passes on `exampleChangeRx`: `"12345"` enrolled and the
change-password authentication passed. -/
def exampleBeforeChange : Control :=
  { g_password := [49, 50, 51, 52, 53, 0, 0], g_pass_buffer1 := [49, 50, 51, 52, 53, 35, 0],
    g_pass_buffer2 := [49, 50, 51, 52, 53, 35, 0], HMI_status := MODE_FIRST_BOOT,
    rx := [0xED, 54, 55, 56, 57, 48, 35, 0xED, 54, 55, 56, 57, 48, 35],
    trace := [Event.UART_sendByte 237, Event.UART_sendByte 1,
              Event.EEPROM_writeString 800 [49, 50, 51, 52, 53, 0, 0] 5,
              Event.UART_sendByte 1, Event.UART_sendByte 255] }

/-- The back node after the third pass on `exampleChangeRx`: `"67890"` enrolled. -/
def exampleAfterChange : Control :=
  { g_password := [54, 55, 56, 57, 48, 0, 0], g_pass_buffer1 := [54, 55, 56, 57, 48, 35, 0],
    g_pass_buffer2 := [54, 55, 56, 57, 48, 35, 0], HMI_status := MODE_NORMAL_BOOT_MAIN,
    rx := [],
    trace := [Event.UART_sendByte 237, Event.UART_sendByte 1,
              Event.EEPROM_writeString 800 [49, 50, 51, 52, 53, 0, 0] 5,
              Event.UART_sendByte 1, Event.UART_sendByte 255,
              Event.UART_sendByte 237, Event.UART_sendByte 1,
              Event.EEPROM_writeString 800 [54, 55, 56, 57, 48, 0, 0] 5] }

/-- A bus on which the first two byte writes are acknowledged to their end and the device
does not acknowledge its selection in the third. -/
def exampleFailingBus : EepromBus :=
  { mem := fun _ _ => 0xFF,
    status := [0x08, 0x18, 0x28, 0x28, 0x08, 0x18, 0x28, 0x28, 0x08, 0x20] }

/-- The EEPROM holding `"12345"` at `0x0320 .. 0x0324`, on a bus on which the first byte
read is acknowledged to its end and the second fails at its last status test (`0x38`,
arbitration lost, after the data byte has arrived). -/
def exampleReadLateFailure : EepromBus :=
  { exampleEnrolledBus with
    status := [0x08, 0x18, 0x28, 0x10, 0x40, 0x58, 0x08, 0x18, 0x28, 0x10, 0x40, 0x38] }

/-- The same EEPROM on a bus on which the second byte read fails at its second status test
(`0x20`, the device does not acknowledge its selection). -/
def exampleReadEarlyFailure : EepromBus :=
  { exampleEnrolledBus with
    status := [0x08, 0x18, 0x28, 0x10, 0x40, 0x58, 0x08, 0x20] }

/-- The timer registers and the three `static` variables after reset: all zero. -/
def timerReset : TimerRegs :=
  { TCNT0 := 0, TCCR0 := 0, OCR0 := 0, TCNT1 := 0, TCCR1A := 0, TCCR1B := 0, OCR1A := 0,
    TCNT2 := 0, TCCR2 := 0, OCR2 := 0, TIMSK := 0, Timer0_Current_Clock := 0,
    Timer1_Current_Clock := 0, Timer2_Current_Clock := 0 }

/-- A configuration in compare mode or normal mode with the interrupt enabled and the
compare value 200. -/
def exampleTimerConfig (id p m : Nat) : Timer_ConfigType :=
  { Timer_ID := id, Prescaler := p, Mode := m, Compare_Value := 200, Interrupt_Enable := 1 }

/-- The three timers running in compare mode with their interrupts enabled: timer 0 with
the prescaler 5, timer 1 as `main` configures it, timer 2 with the prescaler 7; the
counters have advanced. -/
def exampleTimersRunning : TimerRegs :=
  { TCNT0 := 42, TCCR0 := 0x8D, OCR0 := 100, TCNT1 := 1000, TCCR1A := 0x0C, TCCR1B := 0x0D,
    OCR1A := 7812, TCNT2 := 17, TCCR2 := 0x8F, OCR2 := 200, TIMSK := 0x92,
    Timer0_Current_Clock := 5, Timer1_Current_Clock := 5, Timer2_Current_Clock := 7 }

/-- The bytes of an enrollment of `"12345"`, an open-door request authenticated with
`"12345#"`, and an open-door request with the wrong attempt `"00000#"` three times. -/
def exampleDoorAlarmRx : List Nat :=
  [0xED, 49, 50, 51, 52, 53, 35, 0xED, 49, 50, 51, 52, 53, 35,
   0xED, 4, 0xED, 49, 50, 51, 52, 53, 35,
   0xED, 4, 0xED, 48, 48, 48, 48, 48, 35, 0xED, 48, 48, 48, 48, 48, 35,
   0xED, 48, 48, 48, 48, 48, 35]

/-- The back node after four passes on `exampleDoorAlarmRx`: enrollment, door sequence,
three failed attempts, alarm. -/
def exampleAfterAlarm : Control :=
  { g_password := [49, 50, 51, 52, 53, 0, 0], g_pass_buffer1 := [48, 48, 48, 48, 48, 35, 0],
    g_pass_buffer2 := [49, 50, 51, 52, 53, 35, 0], HMI_status := MODE_NORMAL_BOOT_MAIN,
    rx := [],
    trace := [Event.UART_sendByte 237, Event.UART_sendByte 1,
              Event.EEPROM_writeString 800 [49, 50, 51, 52, 53, 0, 0] 5,
              Event.UART_sendByte 1, Event.UART_sendByte 2,
              Event.DcMotor_Rotate DcMotor_State.CW, Event.delay_sec 15,
              Event.DcMotor_Rotate DcMotor_State.STOP, Event.delay_sec 3,
              Event.UART_sendByte 237,
              Event.DcMotor_Rotate DcMotor_State.ACW, Event.delay_sec 15,
              Event.DcMotor_Rotate DcMotor_State.STOP, Event.UART_sendByte 237,
              Event.UART_sendByte 0, Event.UART_sendByte 0, Event.UART_sendByte 0,
              Event.UART_sendByte 0, Event.UART_sendByte 0, Event.UART_sendByte 3,
              Event.Buzzer_ON, Event.delay_sec 60, Event.Buzzer_OFF,
              Event.UART_sendByte 237, Event.UART_sendByte 2] }

/-! ## Lemmas on the back node's routines -/

theorem pass_compare_loop_iff (a b : List Nat) :
    ∀ fuel i, i + fuel = 5 →
      (pass_compare_loop a b fuel i = true ↔ ∀ j, i ≤ j → j < 5 → a.getD j 0 = b.getD j 0) := by
  intro fuel
  induction fuel with
  | zero =>
    intro i hi
    simp only [pass_compare_loop, true_iff]
    intro j h1 h2
    omega
  | succ n ih =>
    intro i hi
    have hi5 : i < PASSWORD_LENGTH - 2 := by simp only [PASSWORD_LENGTH]; omega
    simp only [pass_compare_loop, hi5, if_true]
    by_cases hne : a.getD i 0 = b.getD i 0
    · simp only [ne_eq, hne, not_true_eq_false, if_false]
      rw [ih (i + 1) (by omega)]
      constructor
      · intro h j h1 h2
        rcases Nat.eq_or_lt_of_le h1 with h3 | h3
        · subst h3; exact hne
        · exact h j h3 h2
      · intro h j h1 h2
        exact h j (by omega) h2
    · simp only [ne_eq, hne, not_false_eq_true, if_true]
      constructor
      · intro h; cases h
      · intro h
        exact absurd (h i (Nat.le_refl _) (by omega)) hne

theorem pass_compare_iff (a b : List Nat) : pass_compare a b = true ↔ matches5 a b := by
  unfold pass_compare matches5
  show pass_compare_loop a b 5 0 = true ↔ _
  rw [pass_compare_loop_iff a b 5 0 (by rfl)]
  constructor
  · intro h j hj; exact h j (Nat.zero_le _) hj
  · intro h j _ hj; exact h j hj

theorem pass_compare_false_iff (a b : List Nat) :
    pass_compare a b = false ↔ ¬ matches5 a b := by
  rw [← pass_compare_iff]
  cases pass_compare a b <;> simp

/-- One loop body of `confirmPasswordAttempts` on a matching attempt. -/
theorem confirm_loop_hit (recvStr : ReceiveString) (t fuel i : Nat) (s : Control)
    (rx1 buf rx2 : List Nat) (hi : i < 3)
    (h1 : awaitSync s.rx = some rx1) (h2 : recvStr s.g_pass_buffer1 rx1 = some (buf, rx2))
    (h3 : matches5 buf s.g_password) :
    confirmPasswordAttempts_loop recvStr t (fuel + 1) i s =
      some (true, { s with g_pass_buffer1 := buf, rx := rx2, HMI_status := t,
                           trace := s.trace ++ [Event.UART_sendByte SUCCESS,
                             Event.UART_sendByte t] }) := by
  have h3' := (pass_compare_iff buf s.g_password).2 h3
  simp [confirmPasswordAttempts_loop, MAX_PASSWORD_TRIES, hi, h1, h2, h3',
    Control.UART_sendByte]

/-- One loop body of `confirmPasswordAttempts` on a failed first or second attempt. -/
theorem confirm_loop_miss (recvStr : ReceiveString) (t fuel i : Nat) (s : Control)
    (rx1 buf rx2 : List Nat) (hi : i < 2)
    (h1 : awaitSync s.rx = some rx1) (h2 : recvStr s.g_pass_buffer1 rx1 = some (buf, rx2))
    (h3 : ¬ matches5 buf s.g_password) :
    confirmPasswordAttempts_loop recvStr t (fuel + 1) i s =
      confirmPasswordAttempts_loop recvStr t fuel (i + 1)
        { s with g_pass_buffer1 := buf, rx := rx2, HMI_status := MODE_NORMAL_BOOT_LOCKED,
                 trace := s.trace ++ retryReply } := by
  have h3' := (pass_compare_false_iff buf s.g_password).2 h3
  have hi3 : i < 3 := by omega
  simp [confirmPasswordAttempts_loop, MAX_PASSWORD_TRIES, hi, hi3, h1, h2, h3',
    Control.UART_sendByte, retryReply]

/-- The third loop body of `confirmPasswordAttempts` on a failed attempt, with the loop
exit that follows. -/
theorem confirm_loop_miss_last (recvStr : ReceiveString) (t fuel : Nat) (s : Control)
    (rx1 buf rx2 : List Nat)
    (h1 : awaitSync s.rx = some rx1) (h2 : recvStr s.g_pass_buffer1 rx1 = some (buf, rx2))
    (h3 : ¬ matches5 buf s.g_password) :
    confirmPasswordAttempts_loop recvStr t (fuel + 2) 2 s =
      some (false, { s with g_pass_buffer1 := buf, rx := rx2, HMI_status := MODE_ALARM_MODE,
                            trace := s.trace ++ [Event.UART_sendByte ERROR,
                              Event.UART_sendByte MODE_ALARM_MODE] }) := by
  have h3' := (pass_compare_false_iff buf s.g_password).2 h3
  simp [confirmPasswordAttempts_loop, MAX_PASSWORD_TRIES, h1, h2, h3',
    Control.UART_sendByte]

/-- The reception of one more attempt, unfolded. -/
theorem receiveAttempts_succ_eq (recvStr : ReceiveString) (n : Nat) (buf rx : List Nat)
    (bufs : List (List Nat)) (rx3 : List Nat)
    (h : receiveAttempts recvStr (n + 1) buf rx = some (bufs, rx3)) :
    ∃ rx1 buf1 rx2 rest, awaitSync rx = some rx1 ∧ recvStr buf rx1 = some (buf1, rx2) ∧
      receiveAttempts recvStr n buf1 rx2 = some (rest, rx3) ∧ bufs = buf1 :: rest := by
  unfold receiveAttempts at h
  cases h1 : awaitSync rx with
  | none => simp [h1] at h
  | some rx1 =>
    cases h2 : recvStr buf rx1 with
    | none => simp [h1, h2] at h
    | some p =>
      obtain ⟨buf1, rx2⟩ := p
      cases h3 : receiveAttempts recvStr n buf1 rx2 with
      | none => simp [h1, h2, h3] at h
      | some q =>
        obtain ⟨rest, rx3'⟩ := q
        simp only [h1, h2, h3, Option.some.injEq, Prod.mk.injEq] at h
        exact ⟨rx1, buf1, rx2, rest, rfl, h2, h.2 ▸ h3, h.1.symm⟩

theorem receiveAttempts_zero_eq (recvStr : ReceiveString) (buf rx : List Nat)
    (bufs : List (List Nat)) (rx3 : List Nat)
    (h : receiveAttempts recvStr 0 buf rx = some (bufs, rx3)) : bufs = [] ∧ rx3 = rx := by
  simp only [receiveAttempts, Option.some.injEq, Prod.mk.injEq] at h
  exact ⟨h.1.symm, h.2.symm⟩

/-- Success of `confirmPasswordAttempts` on the `k`-th received attempt. -/
theorem confirm_success_of_receive (recvStr : ReceiveString) (t : Nat) (s : Control)
    (k : Nat) (bufs : List (List Nat)) (rx' : List Nat)
    (hk1 : 1 ≤ k) (hk3 : k ≤ MAX_PASSWORD_TRIES)
    (hrecv : receiveAttempts recvStr k s.g_pass_buffer1 s.rx = some (bufs, rx'))
    (hmiss : ∀ j, j + 1 < k → ¬ matches5 (bufs.getD j []) s.g_password)
    (hhit : matches5 (bufs.getD (k - 1) []) s.g_password) :
    confirmPasswordAttempts recvStr t s =
      some (true, { s with g_pass_buffer1 := bufs.getD (k - 1) [], rx := rx', HMI_status := t,
                           trace := s.trace ++ (retryReplies (k - 1) ++
                             [Event.UART_sendByte SUCCESS, Event.UART_sendByte t]) }) := by
  unfold confirmPasswordAttempts
  simp only [MAX_PASSWORD_TRIES] at hk3 ⊢
  obtain ⟨ra, b1, rb, rest1, ha1, hb1, hr1, rfl⟩ := receiveAttempts_succ_eq recvStr (k - 1)
    s.g_pass_buffer1 s.rx bufs rx' (by rw [Nat.sub_add_cancel hk1]; exact hrecv)
  rcases Nat.eq_or_lt_of_le hk1 with hk | hk
  · -- k = 1
    subst hk
    obtain ⟨rfl, rfl⟩ := receiveAttempts_zero_eq recvStr _ _ _ _ hr1
    rw [confirm_loop_hit recvStr t 3 0 s ra b1 rx' (by omega) ha1 hb1 (by simpa using hhit)]
    simp [retryReplies]
  · have hm1 : ¬ matches5 b1 s.g_password := by simpa using hmiss 0 (by omega)
    rw [confirm_loop_miss recvStr t 3 0 s ra b1 rb (by omega) ha1 hb1 hm1]
    obtain ⟨rc, b2, rd, rest2, ha2, hb2, hr2, rfl⟩ := receiveAttempts_succ_eq recvStr (k - 2)
      b1 rb rest1 rx' (by rw [show k - 2 + 1 = k - 1 by omega]; exact hr1)
    rcases Nat.eq_or_lt_of_le (show 2 ≤ k by omega) with hk | hk
    · -- k = 2
      subst hk
      obtain ⟨rfl, rfl⟩ := receiveAttempts_zero_eq recvStr _ _ _ _ hr2
      refine (confirm_loop_hit recvStr t 2 1
        { s with g_pass_buffer1 := b1, rx := rb, HMI_status := MODE_NORMAL_BOOT_LOCKED,
                 trace := s.trace ++ retryReply } rc b2 rx' (by omega) ha2 hb2
        (by simpa using hhit)).trans ?_
      simp [retryReplies, retryReply]
    · -- k = 3
      have hk : k = 3 := by omega
      subst hk
      have hm2 : ¬ matches5 b2 s.g_password := by simpa using hmiss 1 (by omega)
      refine (confirm_loop_miss recvStr t 2 1
        { s with g_pass_buffer1 := b1, rx := rb, HMI_status := MODE_NORMAL_BOOT_LOCKED,
                 trace := s.trace ++ retryReply } rc b2 rd (by omega) ha2 hb2 hm2).trans ?_
      obtain ⟨re, b3, rf, rest3, ha3, hb3, hr3, rfl⟩ := receiveAttempts_succ_eq recvStr 0
        b2 rd rest2 rx' hr2
      obtain ⟨rfl, rfl⟩ := receiveAttempts_zero_eq recvStr _ _ _ _ hr3
      refine (confirm_loop_hit recvStr t 1 2
        { s with g_pass_buffer1 := b2, rx := rd, HMI_status := MODE_NORMAL_BOOT_LOCKED,
                 trace := (s.trace ++ retryReply) ++ retryReply } re b3 rx' (by omega) ha3 hb3
        (by simpa using hhit)).trans ?_
      simp [retryReplies, retryReply]

/-- Failure of `confirmPasswordAttempts` after three received attempts. -/
theorem confirm_alarm_of_receive (recvStr : ReceiveString) (t : Nat) (s : Control)
    (bufs : List (List Nat)) (rx' : List Nat)
    (hrecv : receiveAttempts recvStr 3 s.g_pass_buffer1 s.rx = some (bufs, rx'))
    (hmiss : ∀ j, j < 3 → ¬ matches5 (bufs.getD j []) s.g_password) :
    confirmPasswordAttempts recvStr t s =
      some (false, { s with g_pass_buffer1 := bufs.getD 2 [], rx := rx',
                            HMI_status := MODE_ALARM_MODE,
                            trace := s.trace ++ (retryReplies 2 ++
                              [Event.UART_sendByte ERROR,
                               Event.UART_sendByte MODE_ALARM_MODE]) }) := by
  unfold confirmPasswordAttempts
  simp only [MAX_PASSWORD_TRIES]
  obtain ⟨ra, b1, rb, rest1, ha1, hb1, hr1, rfl⟩ := receiveAttempts_succ_eq recvStr 2
    s.g_pass_buffer1 s.rx bufs rx' hrecv
  obtain ⟨rc, b2, rd, rest2, ha2, hb2, hr2, rfl⟩ := receiveAttempts_succ_eq recvStr 1
    b1 rb rest1 rx' hr1
  obtain ⟨re, b3, rf, rest3, ha3, hb3, hr3, rfl⟩ := receiveAttempts_succ_eq recvStr 0
    b2 rd rest2 rx' hr2
  obtain ⟨rfl, rfl⟩ := receiveAttempts_zero_eq recvStr _ _ _ _ hr3
  have hm1 : ¬ matches5 b1 s.g_password := by simpa using hmiss 0 (by omega)
  have hm2 : ¬ matches5 b2 s.g_password := by simpa using hmiss 1 (by omega)
  have hm3 : ¬ matches5 b3 s.g_password := by simpa using hmiss 2 (by omega)
  rw [confirm_loop_miss recvStr t 3 0 s ra b1 rb (by omega) ha1 hb1 hm1]
  refine (confirm_loop_miss recvStr t 2 1
    { s with g_pass_buffer1 := b1, rx := rb, HMI_status := MODE_NORMAL_BOOT_LOCKED,
             trace := s.trace ++ retryReply } rc b2 rd (by omega) ha2 hb2 hm2).trans ?_
  refine (confirm_loop_miss_last recvStr t 0
    { s with g_pass_buffer1 := b2, rx := rd, HMI_status := MODE_NORMAL_BOOT_LOCKED,
             trace := (s.trace ++ retryReply) ++ retryReply } re b3 rx' ha3 hb3 hm3).trans ?_
  simp [retryReplies, retryReply]

/-- The copy loop of `set_password` on an array with at least five slots. -/
theorem set_password_loop_eq (a g : List Nat) (hlen : 5 ≤ g.length) :
    set_password_loop a (PASSWORD_LENGTH - 2) 0 g =
      [a.getD 0 0, a.getD 1 0, a.getD 2 0, a.getD 3 0, a.getD 4 0] ++ g.drop 5 := by
  match g, hlen with
  | g0 :: g1 :: g2 :: g3 :: g4 :: rest, _ =>
    simp [set_password_loop, PASSWORD_LENGTH]

theorem set_password_loop_matches5 (a g : List Nat) (hlen : 5 ≤ g.length) :
    matches5 (set_password_loop a (PASSWORD_LENGTH - 2) 0 g) a := by
  rw [set_password_loop_eq a g hlen]
  intro i hi
  have h5 : i = 0 ∨ i = 1 ∨ i = 2 ∨ i = 3 ∨ i = 4 := by omega
  rcases h5 with h | h | h | h | h <;> subst h <;> simp

/-- The back node's `FirstBoot` pass once the two receptions are known. -/
theorem control_first_boot_eq (recvStr : ReceiveString) (s : Control)
    (b1 b2 rx1 rx2 rx3 rx4 : List Nat) (hmode : s.HMI_status = MODE_FIRST_BOOT)
    (h1 : awaitSync s.rx = some rx1) (h2 : recvStr s.g_pass_buffer1 rx1 = some (b1, rx2))
    (h3 : awaitSync rx2 = some rx3) (h4 : recvStr s.g_pass_buffer2 rx3 = some (b2, rx4)) :
    control_main_step recvStr s =
      some (first_boot_decide { s with g_pass_buffer1 := b1, g_pass_buffer2 := b2, rx := rx4 }) := by
  simp [control_main_step, hmode, control_case_MODE_FIRST_BOOT, h1, h2, h3, h4]

/-- Every return of `confirmPasswordAttempts` is one of the two outcomes: success on the
`k`-th received attempt, or three failed attempts. -/
theorem confirm_outcome (recvStr : ReceiveString) (t : Nat) (s : Control) (ok : Bool)
    (s' : Control) (h : confirmPasswordAttempts recvStr t s = some (ok, s')) :
    (ok = true ∧ ∃ k bufs rx', 1 ≤ k ∧ k ≤ 3 ∧
      receiveAttempts recvStr k s.g_pass_buffer1 s.rx = some (bufs, rx') ∧
      (∀ j, j + 1 < k → ¬ matches5 (bufs.getD j []) s.g_password) ∧
      matches5 (bufs.getD (k - 1) []) s.g_password ∧
      s' = { s with g_pass_buffer1 := bufs.getD (k - 1) [], rx := rx', HMI_status := t,
                    trace := s.trace ++ (retryReplies (k - 1) ++
                      [Event.UART_sendByte SUCCESS, Event.UART_sendByte t]) }) ∨
    (ok = false ∧ ∃ bufs rx',
      receiveAttempts recvStr 3 s.g_pass_buffer1 s.rx = some (bufs, rx') ∧
      (∀ j, j < 3 → ¬ matches5 (bufs.getD j []) s.g_password) ∧
      s' = { s with g_pass_buffer1 := bufs.getD 2 [], rx := rx',
                    HMI_status := MODE_ALARM_MODE,
                    trace := s.trace ++ (retryReplies 2 ++
                      [Event.UART_sendByte ERROR, Event.UART_sendByte MODE_ALARM_MODE]) }) := by
  cases ha1 : awaitSync s.rx with
  | none => simp [confirmPasswordAttempts, confirmPasswordAttempts_loop, MAX_PASSWORD_TRIES, ha1] at h
  | some ra =>
  cases hb1 : recvStr s.g_pass_buffer1 ra with
  | none =>
    simp [confirmPasswordAttempts, confirmPasswordAttempts_loop, MAX_PASSWORD_TRIES, ha1, hb1] at h
  | some p1 =>
  obtain ⟨b1, rb⟩ := p1
  by_cases hm1 : matches5 b1 s.g_password
  · have hr : receiveAttempts recvStr 1 s.g_pass_buffer1 s.rx = some ([b1], rb) := by
      simp [receiveAttempts, ha1, hb1]
    have hmiss : ∀ j, j + 1 < 1 → ¬ matches5 ([b1].getD j []) s.g_password := by
      intro j hj; omega
    have e := confirm_success_of_receive recvStr t s 1 [b1] rb (by omega) (by decide) hr hmiss
      (by simpa using hm1)
    rw [e] at h
    simp only [Option.some.injEq, Prod.mk.injEq] at h
    exact Or.inl ⟨h.1.symm, 1, [b1], rb, by omega, by omega, hr, hmiss, by simpa using hm1,
      h.2.symm⟩
  · have hf1 := (pass_compare_false_iff b1 s.g_password).2 hm1
    cases ha2 : awaitSync rb with
    | none =>
      simp [confirmPasswordAttempts, confirmPasswordAttempts_loop, MAX_PASSWORD_TRIES, ha1, hb1,
        hf1, ha2, Control.UART_sendByte] at h
    | some rc =>
    cases hb2 : recvStr b1 rc with
    | none =>
      simp [confirmPasswordAttempts, confirmPasswordAttempts_loop, MAX_PASSWORD_TRIES, ha1, hb1,
        hf1, ha2, hb2, Control.UART_sendByte] at h
    | some p2 =>
    obtain ⟨b2, rd⟩ := p2
    by_cases hm2 : matches5 b2 s.g_password
    · have hr : receiveAttempts recvStr 2 s.g_pass_buffer1 s.rx = some ([b1, b2], rd) := by
        simp [receiveAttempts, ha1, hb1, ha2, hb2]
      have hmiss : ∀ j, j + 1 < 2 → ¬ matches5 ([b1, b2].getD j []) s.g_password := by
        intro j hj
        have hj0 : j = 0 := by omega
        subst hj0
        simpa using hm1
      have e := confirm_success_of_receive recvStr t s 2 [b1, b2] rd (by omega) (by decide) hr
        hmiss (by simpa using hm2)
      rw [e] at h
      simp only [Option.some.injEq, Prod.mk.injEq] at h
      exact Or.inl ⟨h.1.symm, 2, [b1, b2], rd, by omega, by omega, hr, hmiss,
        by simpa using hm2, h.2.symm⟩
    · have hf2 := (pass_compare_false_iff b2 s.g_password).2 hm2
      cases ha3 : awaitSync rd with
      | none =>
        simp [confirmPasswordAttempts, confirmPasswordAttempts_loop, MAX_PASSWORD_TRIES, ha1, hb1,
          hf1, ha2, hb2, hf2, ha3, Control.UART_sendByte] at h
      | some re =>
      cases hb3 : recvStr b2 re with
      | none =>
        simp [confirmPasswordAttempts, confirmPasswordAttempts_loop, MAX_PASSWORD_TRIES, ha1,
          hb1, hf1, ha2, hb2, hf2, ha3, hb3, Control.UART_sendByte] at h
      | some p3 =>
      obtain ⟨b3, rf⟩ := p3
      have hr : receiveAttempts recvStr 3 s.g_pass_buffer1 s.rx = some ([b1, b2, b3], rf) := by
        simp [receiveAttempts, ha1, hb1, ha2, hb2, ha3, hb3]
      by_cases hm3 : matches5 b3 s.g_password
      · have hmiss : ∀ j, j + 1 < 3 → ¬ matches5 ([b1, b2, b3].getD j []) s.g_password := by
          intro j hj
          have hj0 : j = 0 ∨ j = 1 := by omega
          rcases hj0 with hj0 | hj0 <;> subst hj0
          · simpa using hm1
          · simpa using hm2
        have e := confirm_success_of_receive recvStr t s 3 [b1, b2, b3] rf (by omega)
          (by decide) hr hmiss (by simpa using hm3)
        rw [e] at h
        simp only [Option.some.injEq, Prod.mk.injEq] at h
        exact Or.inl ⟨h.1.symm, 3, [b1, b2, b3], rf, by omega, by omega, hr, hmiss,
          by simpa using hm3, h.2.symm⟩
      · have hmiss : ∀ j, j < 3 → ¬ matches5 ([b1, b2, b3].getD j []) s.g_password := by
          intro j hj
          have hj0 : j = 0 ∨ j = 1 ∨ j = 2 := by omega
          rcases hj0 with hj0 | hj0 | hj0 <;> subst hj0
          · simpa using hm1
          · simpa using hm2
          · simpa using hm3
        have e := confirm_alarm_of_receive recvStr t s [b1, b2, b3] rf hr hmiss
        rw [e] at h
        simp only [Option.some.injEq, Prod.mk.injEq] at h
        exact Or.inr ⟨h.1.symm, [b1, b2, b3], rf, hr, hmiss, h.2.symm⟩

theorem txBytes_append (l1 l2 : List Event) : txBytes (l1 ++ l2) = txBytes l1 ++ txBytes l2 := by
  induction l1 with
  | nil => rfl
  | cons e es ih => cases e <;> simp [txBytes, ih]

theorem motorCommands_append (l1 l2 : List Event) :
    motorCommands (l1 ++ l2) = motorCommands l1 ++ motorCommands l2 := by
  induction l1 with
  | nil => rfl
  | cons e es ih => cases e <;> simp [motorCommands, ih]

theorem motorCommands_retryReplies (n : Nat) : motorCommands (retryReplies n) = [] := by
  induction n with
  | zero => rfl
  | succ n ih => simp [retryReplies, retryReply, motorCommands, ih]

theorem txBytes_retryReplies (n : Nat) :
    txBytes (retryReplies n) = List.replicate (2 * n) 0 := by
  induction n with
  | zero => rfl
  | succ n ih =>
    rw [retryReplies, txBytes_append, ih, show 2 * (n + 1) = 2 * n + 1 + 1 by omega]
    simp [retryReply, txBytes, ERROR, MODE_NORMAL_BOOT_LOCKED, List.replicate_succ]

/-- The back node's `MainMenu` pass once the sync wait and the request byte are known. -/
theorem control_main_menu_eq (recvStr : ReceiveString) (s : Control) (rx1 : List Nat)
    (request : Nat) (rx2 : List Nat) (hmode : s.HMI_status = MODE_NORMAL_BOOT_MAIN)
    (hsync : awaitSync s.rx = some rx1) (hreq : UART_receiveByte rx1 = some (request, rx2)) :
    control_main_step recvStr s =
      if request = OPEN_DOOR_REQUEST then
        match confirmPasswordAttempts recvStr MODE_NORMAL_BOOT_MAIN { s with rx := rx2 } with
        | none => none
        | some (true, s2) => some (open_door_sequence s2)
        | some (false, s2) => some s2
      else
        match confirmPasswordAttempts recvStr MODE_FIRST_BOOT { s with rx := rx2 } with
        | none => none
        | some (_, s2) => some s2 := by
  simp [control_main_step, hmode, control_case_MODE_NORMAL_BOOT_MAIN, hsync, hreq,
    MODE_NORMAL_BOOT_MAIN, MODE_FIRST_BOOT, MODE_NORMAL_BOOT_LOCKED]

theorem open_door_sequence_trace (s : Control) :
    open_door_sequence s = { s with trace := s.trace ++ doorEvents } := by
  simp [open_door_sequence, Control.call, Control.UART_sendByte, doorEvents]

theorem awaitSync_append (pre rest : List Nat) (hpre : SYNC_HANDSHAKE ∉ pre) :
    awaitSync (pre ++ SYNC_HANDSHAKE :: rest) = some rest := by
  induction pre with
  | nil => simp [awaitSync]
  | cons b bs ih =>
    have hb : b ≠ SYNC_HANDSHAKE := fun h => hpre (by simp [h])
    have hbs : SYNC_HANDSHAKE ∉ bs := fun h => hpre (by simp [h])
    simp [awaitSync, hb, ih hbs]

/-! ## Lemmas on the front node's routines -/

theorem keyChar_ne_zero (k : Nat) : keyChar k ≠ 0 := by
  unfold keyChar
  split <;> omega

theorem keyChar_ne_sync (k : Nat) (hk : k ≠ SYNC_HANDSHAKE) : keyChar k ≠ SYNC_HANDSHAKE := by
  unfold keyChar
  simp only [SYNC_HANDSHAKE] at hk ⊢
  split <;> omega

/-- One round of the key loop of `getSendPasswordSync`. -/
theorem getSendPasswordSync_loop_step (fuel i : Nat) (h : Hmi) (key : Nat) (ks : List Nat)
    (hi : i < 5) (hlen : i < h.g_password_buffer.length) (hkeys : h.keys = key :: ks) :
    getSendPasswordSync_loop (fuel + 1) i h =
      getSendPasswordSync_loop fuel (i + 1)
        { h with g_password_buffer := h.g_password_buffer.set i (keyChar key), keys := ks } := by
  have hi' : i < PASSWORD_LENGTH - 2 := hi
  have hget : (h.g_password_buffer.set i key).getD i 0 = key := by
    simp [List.getD_eq_getElem?_getD, hlen]
  simp only [getSendPasswordSync_loop, hi', if_true, hkeys, KEYPAD_getPressedKey, hget]
  unfold keyChar
  split <;> simp

/-- The routine `getSendPasswordSync` with five keys available. -/
theorem getSendPasswordSync_eq (h : Hmi) (a0 a1 a2 a3 a4 k0 k1 k2 k3 k4 : Nat)
    (ks : List Nat) (hbuf : h.g_password_buffer = [a0, a1, a2, a3, a4, UART_EOS, 0])
    (hkeys : h.keys = k0 :: k1 :: k2 :: k3 :: k4 :: ks) :
    getSendPasswordSync h =
      some { h with
        g_password_buffer :=
          [keyChar k0, keyChar k1, keyChar k2, keyChar k3, keyChar k4, UART_EOS, 0],
        keys := ks,
        tx := h.tx ++ passwordFrame k0 k1 k2 k3 k4 } := by
  have e : getSendPasswordSync_loop (PASSWORD_LENGTH - 2) 0 h =
      some { h with
        g_password_buffer :=
          [keyChar k0, keyChar k1, keyChar k2, keyChar k3, keyChar k4, UART_EOS, 0],
        keys := ks } := by
    show getSendPasswordSync_loop 5 0 h = _
    rw [getSendPasswordSync_loop_step 4 0 h k0 _ (by omega) (by simp [hbuf]) hkeys]
    rw [getSendPasswordSync_loop_step 3 1 _ k1 _ (by omega) (by simp [hbuf]) rfl]
    rw [getSendPasswordSync_loop_step 2 2 _ k2 _ (by omega) (by simp [hbuf]) rfl]
    rw [getSendPasswordSync_loop_step 1 3 _ k3 _ (by omega) (by simp [hbuf]) rfl]
    rw [getSendPasswordSync_loop_step 0 4 _ k4 _ (by omega) (by simp [hbuf]) rfl]
    simp [getSendPasswordSync_loop, hbuf]
  have z0 := keyChar_ne_zero k0
  have z1 := keyChar_ne_zero k1
  have z2 := keyChar_ne_zero k2
  have z3 := keyChar_ne_zero k3
  have z4 := keyChar_ne_zero k4
  simp [getSendPasswordSync, e, Hmi.UART_sendString, Hmi.UART_sendByte, z0, z1, z2, z3, z4,
    UART_EOS, passwordFrame]

/-- One round of the loop of `attemptPassword`, with five keys and two reply bytes
available. -/
theorem attemptPassword_loop_round (fuel : Nat) (h : Hmi)
    (a0 a1 a2 a3 a4 k0 k1 k2 k3 k4 : Nat) (ks : List Nat) (m st : Nat) (rx2 : List Nat)
    (hbuf : h.g_password_buffer = [a0, a1, a2, a3, a4, UART_EOS, 0])
    (hkeys : h.keys = k0 :: k1 :: k2 :: k3 :: k4 :: ks) (hrx : h.rx = m :: st :: rx2) :
    attemptPassword_loop (fuel + 1) h =
      if m = 0 ∧ st ≠ MODE_ALARM_MODE then
        attemptPassword_loop fuel
          { g_password_buffer :=
              [keyChar k0, keyChar k1, keyChar k2, keyChar k3, keyChar k4, UART_EOS, 0],
            HMI_status := st, password_match := m, keys := ks, rx := rx2,
            tx := h.tx ++ passwordFrame k0 k1 k2 k3 k4 }
      else
        some
          { g_password_buffer :=
              [keyChar k0, keyChar k1, keyChar k2, keyChar k3, keyChar k4, UART_EOS, 0],
            HMI_status := st, password_match := m, keys := ks, rx := rx2,
            tx := h.tx ++ passwordFrame k0 k1 k2 k3 k4 } := by
  simp only [attemptPassword_loop, getSendPasswordSync_eq h a0 a1 a2 a3 a4 k0 k1 k2 k3 k4 ks
    hbuf hkeys, hrx, UART_receiveByte]

/-- The first round of `attemptPassword` ends the loop when the reply is not
(`0`, a mode other than `Alarm`). -/
theorem attemptPassword_one_round (h : Hmi) (a0 a1 a2 a3 a4 k0 k1 k2 k3 k4 : Nat)
    (ks : List Nat) (m st : Nat) (rest : List Nat)
    (hbuf : h.g_password_buffer = [a0, a1, a2, a3, a4, UART_EOS, 0])
    (hkeys : h.keys = k0 :: k1 :: k2 :: k3 :: k4 :: ks) (hrx : h.rx = m :: st :: rest)
    (hend : ¬ (m = 0 ∧ st ≠ MODE_ALARM_MODE)) :
    attemptPassword h =
      some { g_password_buffer :=
               [keyChar k0, keyChar k1, keyChar k2, keyChar k3, keyChar k4, UART_EOS, 0],
             HMI_status := st, password_match := m, keys := ks, rx := rest,
             tx := h.tx ++ passwordFrame k0 k1 k2 k3 k4 } := by
  unfold attemptPassword
  rw [attemptPassword_loop_round _ h a0 a1 a2 a3 a4 k0 k1 k2 k3 k4 ks m st rest hbuf hkeys hrx,
    if_neg hend]

/-- Two rounds of `attemptPassword`: a retry reply, then a reply that ends the loop. -/
theorem attemptPassword_two_rounds (h : Hmi) (a0 a1 a2 a3 a4 k0 k1 k2 k3 k4 : Nat)
    (j0 j1 j2 j3 j4 : Nat) (ks : List Nat) (m st : Nat) (rest : List Nat)
    (hbuf : h.g_password_buffer = [a0, a1, a2, a3, a4, UART_EOS, 0])
    (hkeys : h.keys = k0 :: k1 :: k2 :: k3 :: k4 :: j0 :: j1 :: j2 :: j3 :: j4 :: ks)
    (hrx : h.rx = ERROR :: MODE_NORMAL_BOOT_LOCKED :: m :: st :: rest)
    (hend : ¬ (m = 0 ∧ st ≠ MODE_ALARM_MODE)) :
    attemptPassword h =
      some { g_password_buffer :=
               [keyChar j0, keyChar j1, keyChar j2, keyChar j3, keyChar j4, UART_EOS, 0],
             HMI_status := st, password_match := m, keys := ks, rx := rest,
             tx := (h.tx ++ passwordFrame k0 k1 k2 k3 k4) ++ passwordFrame j0 j1 j2 j3 j4 } := by
  unfold attemptPassword
  have hgo : ERROR = 0 ∧ MODE_NORMAL_BOOT_LOCKED ≠ MODE_ALARM_MODE := by decide
  rw [hrx]
  refine (attemptPassword_loop_round (rest.length + 4) h a0 a1 a2 a3 a4 k0 k1 k2 k3 k4 _ _ _
    (m :: st :: rest) hbuf hkeys hrx).trans ?_
  rw [if_pos hgo]
  refine (attemptPassword_loop_round (rest.length + 3) _ _ _ _ _ _ j0 j1 j2 j3 j4 ks m st rest
    rfl rfl rfl).trans ?_
  rw [if_neg hend]

/-- Three rounds of `attemptPassword`: two retry replies, then a reply that ends the
loop. -/
theorem attemptPassword_three_rounds (h : Hmi) (a0 a1 a2 a3 a4 k0 k1 k2 k3 k4 : Nat)
    (j0 j1 j2 j3 j4 i0 i1 i2 i3 i4 : Nat) (ks : List Nat) (m st : Nat) (rest : List Nat)
    (hbuf : h.g_password_buffer = [a0, a1, a2, a3, a4, UART_EOS, 0])
    (hkeys : h.keys = k0 :: k1 :: k2 :: k3 :: k4 :: j0 :: j1 :: j2 :: j3 :: j4 ::
      i0 :: i1 :: i2 :: i3 :: i4 :: ks)
    (hrx : h.rx = ERROR :: MODE_NORMAL_BOOT_LOCKED :: ERROR :: MODE_NORMAL_BOOT_LOCKED ::
      m :: st :: rest)
    (hend : ¬ (m = 0 ∧ st ≠ MODE_ALARM_MODE)) :
    attemptPassword h =
      some { g_password_buffer :=
               [keyChar i0, keyChar i1, keyChar i2, keyChar i3, keyChar i4, UART_EOS, 0],
             HMI_status := st, password_match := m, keys := ks, rx := rest,
             tx := ((h.tx ++ passwordFrame k0 k1 k2 k3 k4) ++ passwordFrame j0 j1 j2 j3 j4) ++
               passwordFrame i0 i1 i2 i3 i4 } := by
  unfold attemptPassword
  have hgo : ERROR = 0 ∧ MODE_NORMAL_BOOT_LOCKED ≠ MODE_ALARM_MODE := by decide
  rw [hrx]
  refine (attemptPassword_loop_round (rest.length + 6) h a0 a1 a2 a3 a4 k0 k1 k2 k3 k4 _ _ _
    (ERROR :: MODE_NORMAL_BOOT_LOCKED :: m :: st :: rest) hbuf hkeys hrx).trans ?_
  rw [if_pos hgo]
  refine (attemptPassword_loop_round (rest.length + 5) _ _ _ _ _ _ j0 j1 j2 j3 j4 _ _ _
    (m :: st :: rest) rfl rfl rfl).trans ?_
  rw [if_pos hgo]
  refine (attemptPassword_loop_round (rest.length + 4) _ _ _ _ _ _ i0 i1 i2 i3 i4 ks m st rest
    rfl rfl rfl).trans ?_
  rw [if_neg hend]

/-! ## Lemmas on the reception of the front node's transmissions -/

/-- The bytes before the first terminator of `cs ++ '#' :: rest`, and what follows it. -/
theorem split_at_EOS (cs : List Nat) :
    ∃ pre l, UART_EOS ∉ pre ∧ (∀ x, x ∈ l → x ∈ cs ∨ x = UART_EOS) ∧
      ∀ rest, cs ++ UART_EOS :: rest = pre ++ UART_EOS :: (l ++ rest) := by
  induction cs with
  | nil => exact ⟨[], [], by simp, by simp, fun rest => rfl⟩
  | cons c cs ih =>
    by_cases hc : c = UART_EOS
    · refine ⟨[], cs ++ [UART_EOS], by simp, fun x hx => ?_, fun rest => ?_⟩
      · rcases List.mem_append.1 hx with h | h
        · exact Or.inl (List.mem_cons_of_mem _ h)
        · exact Or.inr (List.mem_singleton.1 h)
      · simp [hc]
    · obtain ⟨pre, l, hpre, hl, hsplit⟩ := ih
      have hnot : UART_EOS ∉ c :: pre := by
        intro hmem
        rcases List.mem_cons.1 hmem with h | h
        · exact hc h.symm
        · exact hpre h
      refine ⟨c :: pre, l, hnot, fun x hx => ?_, fun rest => ?_⟩
      · rcases hl x hx with h | h
        · exact Or.inl (List.mem_cons_of_mem _ h)
        · exact Or.inr h
      · simp [hsplit rest]

/-- The reception of one transmission of the front node by a `UART_receiveString` that
stops at the first terminator: the sync wait skips any left-over bytes `l0` that hold no
sync byte, and the reception leaves left-over bytes `l` that hold no sync byte. -/
theorem receive_frame (recvStr : ReceiveString) (hrecv : ReceivesToEOS recvStr)
    (buf : List Nat) (k0 k1 k2 k3 k4 : Nat)
    (h0 : k0 ≠ SYNC_HANDSHAKE) (h1 : k1 ≠ SYNC_HANDSHAKE) (h2 : k2 ≠ SYNC_HANDSHAKE)
    (h3 : k3 ≠ SYNC_HANDSHAKE) (h4 : k4 ≠ SYNC_HANDSHAKE) :
    ∃ buf' l, SYNC_HANDSHAKE ∉ l ∧ ∀ l0 rest, SYNC_HANDSHAKE ∉ l0 →
      ∃ rx1, awaitSync (l0 ++ (passwordFrame k0 k1 k2 k3 k4 ++ rest)) = some rx1 ∧
        recvStr buf rx1 = some (buf', l ++ rest) := by
  obtain ⟨pre, l, hpre, hl, hsplit⟩ :=
    split_at_EOS [keyChar k0, keyChar k1, keyChar k2, keyChar k3, keyChar k4]
  obtain ⟨buf', hbuf'⟩ := hrecv buf pre hpre
  have hls : SYNC_HANDSHAKE ∉ l := by
    intro hmem
    have hm := hl _ hmem
    simp only [List.mem_cons, List.mem_singleton, List.not_mem_nil, or_false] at hm
    rcases hm with (h | h | h | h | h) | h
    · exact keyChar_ne_sync k0 h0 h.symm
    · exact keyChar_ne_sync k1 h1 h.symm
    · exact keyChar_ne_sync k2 h2 h.symm
    · exact keyChar_ne_sync k3 h3 h.symm
    · exact keyChar_ne_sync k4 h4 h.symm
    · exact absurd h (by decide)
  refine ⟨buf', l, hls, fun l0 rest hl0 => ?_⟩
  refine ⟨[keyChar k0, keyChar k1, keyChar k2, keyChar k3, keyChar k4] ++ UART_EOS :: rest,
    ?_, ?_⟩
  · have := awaitSync_append l0
      ([keyChar k0, keyChar k1, keyChar k2, keyChar k3, keyChar k4] ++ UART_EOS :: rest) hl0
    simpa [passwordFrame] using this
  · rw [hsplit rest]
    exact hbuf' (l ++ rest)

theorem receiveAttempts_cons (recvStr : ReceiveString) (n : Nat) (buf rx rx1 buf1 rx2 : List Nat)
    (bufs : List (List Nat)) (rx3 : List Nat)
    (h1 : awaitSync rx = some rx1) (h2 : recvStr buf rx1 = some (buf1, rx2))
    (h3 : receiveAttempts recvStr n buf1 rx2 = some (bufs, rx3)) :
    receiveAttempts recvStr (n + 1) buf rx = some (buf1 :: bufs, rx3) := by
  simp [receiveAttempts, h1, h2, h3]

/-- The authentication exchange of the two nodes. The front node types `keys` (at least
three passwords, no key equal to the sync byte); the back node receives exactly the bytes
of the `n` passwords the front node sends, and the front node receives exactly the replies
of the back node, followed by any further bytes `rest`. -/
theorem lockstep_core (recvStr : ReceiveString) (hrecv : ReceivesToEOS recvStr) (t : Nat)
    (c : Control) (h : Hmi) (keys : List Nat)
    (hkeys : ∀ k, k ∈ keys → k ≠ SYNC_HANDSHAKE) (hlen : 15 ≤ keys.length)
    (hbuf : bufferReady h.g_password_buffer) :
    ∃ n ok c' replies, 1 ≤ n ∧ n ≤ 3 ∧
      confirmPasswordAttempts recvStr t { c with rx := passwordFrames (keys.take (5 * n)) } =
        some (ok, c') ∧
      (∃ bufs, receiveAttempts recvStr n c.g_pass_buffer1
        (passwordFrames (keys.take (5 * n))) = some (bufs, c'.rx)) ∧
      SYNC_HANDSHAKE ∉ c'.rx ∧
      c'.trace = c.trace ++ replies ∧ (txBytes replies).length = 2 * n ∧
      ((ok = true ∧ c'.HMI_status = t) ∨ (ok = false ∧ c'.HMI_status = MODE_ALARM_MODE)) ∧
      ∀ rest, ∃ h', attemptPassword { h with keys := keys, rx := txBytes replies ++ rest } =
          some h' ∧
        h'.tx = h.tx ++ passwordFrames (keys.take (5 * n)) ∧ h'.keys = keys.drop (5 * n) ∧
        h'.rx = rest ∧ h'.HMI_status = c'.HMI_status ∧
        bufferReady h'.g_password_buffer := by
  obtain ⟨a0, a1, a2, a3, a4, hbuf⟩ := hbuf
  match keys, hkeys, hlen with
  | k0 :: k1 :: k2 :: k3 :: k4 :: j0 :: j1 :: j2 :: j3 :: j4 :: i0 :: i1 :: i2 :: i3 :: i4 ::
      more, hkeys, _ =>
    have hk : ∀ k, k ∈ [k0, k1, k2, k3, k4, j0, j1, j2, j3, j4, i0, i1, i2, i3, i4] →
        k ≠ SYNC_HANDSHAKE := by
      intro k hk
      apply hkeys k
      simp only [List.mem_cons, List.not_mem_nil, or_false] at hk
      simp only [List.mem_cons]
      tauto
    obtain ⟨b1, l1, hl1, hr1⟩ := receive_frame recvStr hrecv c.g_pass_buffer1 k0 k1 k2 k3 k4
      (hk _ (by simp)) (hk _ (by simp)) (hk _ (by simp)) (hk _ (by simp)) (hk _ (by simp))
    obtain ⟨b2, l2, hl2, hr2⟩ := receive_frame recvStr hrecv b1 j0 j1 j2 j3 j4
      (hk _ (by simp)) (hk _ (by simp)) (hk _ (by simp)) (hk _ (by simp)) (hk _ (by simp))
    obtain ⟨b3, l3, hl3, hr3⟩ := receive_frame recvStr hrecv b2 i0 i1 i2 i3 i4
      (hk _ (by simp)) (hk _ (by simp)) (hk _ (by simp)) (hk _ (by simp)) (hk _ (by simp))
    have hnil : SYNC_HANDSHAKE ∉ ([] : List Nat) := by simp
    by_cases m1 : matches5 b1 c.g_password
    · -- success on the first attempt
      obtain ⟨rx1, hs1, hv1⟩ := hr1 [] [] hnil
      have hR : receiveAttempts recvStr 1 c.g_pass_buffer1
          (passwordFrame k0 k1 k2 k3 k4 ++ []) = some ([b1], l1 ++ []) :=
        receiveAttempts_cons recvStr 0 _ _ rx1 b1 _ [] _ hs1 hv1 rfl
      have hC := confirm_success_of_receive recvStr t
        { c with rx := passwordFrame k0 k1 k2 k3 k4 ++ [] } 1 [b1] (l1 ++ []) (by omega)
        (by decide) hR (fun j hj => by omega) (by simpa using m1)
      refine ⟨1, true, _, _, by omega, by omega, hC, ⟨[b1], hR⟩, by simpa using hl1, rfl,
        by simp [retryReplies, txBytes], Or.inl ⟨rfl, rfl⟩, fun rest => ?_⟩
      refine ⟨_, attemptPassword_one_round _ a0 a1 a2 a3 a4 k0 k1 k2 k3 k4 _ SUCCESS t rest
        hbuf rfl (by simp [retryReplies, txBytes]) (by simp [SUCCESS]), ?_, rfl, rfl, rfl,
        ⟨_, _, _, _, _, rfl⟩⟩
      simp [passwordFrames]
    · by_cases m2 : matches5 b2 c.g_password
      · -- success on the second attempt
        obtain ⟨rx1, hs1, hv1⟩ := hr1 [] (passwordFrame j0 j1 j2 j3 j4 ++ []) hnil
        obtain ⟨rx2, hs2, hv2⟩ := hr2 l1 [] hl1
        have hR : receiveAttempts recvStr 2 c.g_pass_buffer1
            (passwordFrame k0 k1 k2 k3 k4 ++ (passwordFrame j0 j1 j2 j3 j4 ++ [])) =
            some ([b1, b2], l2 ++ []) :=
          receiveAttempts_cons recvStr 1 _ _ rx1 b1 _ [b2] _ hs1 hv1
            (receiveAttempts_cons recvStr 0 _ _ rx2 b2 _ [] _ hs2 hv2 rfl)
        have hC := confirm_success_of_receive recvStr t
          { c with rx := passwordFrame k0 k1 k2 k3 k4 ++ (passwordFrame j0 j1 j2 j3 j4 ++ []) }
          2 [b1, b2] (l2 ++ []) (by omega) (by decide) hR
          (fun j hj => by
            have hj0 : j = 0 := by omega
            subst hj0
            simpa using m1)
          (by simpa using m2)
        refine ⟨2, true, _, _, by omega, by omega, hC, ⟨[b1, b2], hR⟩, by simpa using hl2, rfl,
          by simp [retryReplies, retryReply, txBytes], Or.inl ⟨rfl, rfl⟩, fun rest => ?_⟩
        refine ⟨_, attemptPassword_two_rounds _ a0 a1 a2 a3 a4 k0 k1 k2 k3 k4 j0 j1 j2 j3 j4 _
          SUCCESS t rest hbuf rfl (by simp [retryReplies, retryReply, txBytes])
          (by simp [SUCCESS]), ?_, rfl, rfl, rfl, ⟨_, _, _, _, _, rfl⟩⟩
        simp [passwordFrames]
      · obtain ⟨rx1, hs1, hv1⟩ := hr1 [] (passwordFrame j0 j1 j2 j3 j4 ++
          (passwordFrame i0 i1 i2 i3 i4 ++ [])) hnil
        obtain ⟨rx2, hs2, hv2⟩ := hr2 l1 (passwordFrame i0 i1 i2 i3 i4 ++ []) hl1
        obtain ⟨rx3, hs3, hv3⟩ := hr3 l2 [] hl2
        have hR : receiveAttempts recvStr 3 c.g_pass_buffer1
            (passwordFrame k0 k1 k2 k3 k4 ++ (passwordFrame j0 j1 j2 j3 j4 ++
              (passwordFrame i0 i1 i2 i3 i4 ++ []))) = some ([b1, b2, b3], l3 ++ []) :=
          receiveAttempts_cons recvStr 2 _ _ rx1 b1 _ [b2, b3] _ hs1 hv1
            (receiveAttempts_cons recvStr 1 _ _ rx2 b2 _ [b3] _ hs2 hv2
              (receiveAttempts_cons recvStr 0 _ _ rx3 b3 _ [] _ hs3 hv3 rfl))
        by_cases m3 : matches5 b3 c.g_password
        · -- success on the third attempt
          have hC := confirm_success_of_receive recvStr t
            { c with rx := passwordFrame k0 k1 k2 k3 k4 ++ (passwordFrame j0 j1 j2 j3 j4 ++
                (passwordFrame i0 i1 i2 i3 i4 ++ [])) }
            3 [b1, b2, b3] (l3 ++ []) (by omega) (by decide) hR
            (fun j hj => by
              have hj0 : j = 0 ∨ j = 1 := by omega
              rcases hj0 with hj0 | hj0 <;> subst hj0
              · simpa using m1
              · simpa using m2)
            (by simpa using m3)
          refine ⟨3, true, _, _, by omega, by omega, hC, ⟨[b1, b2, b3], hR⟩,
            by simpa using hl3, rfl, by simp [retryReplies, retryReply, txBytes],
            Or.inl ⟨rfl, rfl⟩, fun rest => ?_⟩
          refine ⟨_, attemptPassword_three_rounds _ a0 a1 a2 a3 a4 k0 k1 k2 k3 k4
            j0 j1 j2 j3 j4 i0 i1 i2 i3 i4 _ SUCCESS t rest hbuf rfl
            (by simp [retryReplies, retryReply, txBytes]) (by simp [SUCCESS]), ?_, rfl, rfl,
            rfl, ⟨_, _, _, _, _, rfl⟩⟩
          simp [passwordFrames]
        · -- three failed attempts
          have hC := confirm_alarm_of_receive recvStr t
            { c with rx := passwordFrame k0 k1 k2 k3 k4 ++ (passwordFrame j0 j1 j2 j3 j4 ++
                (passwordFrame i0 i1 i2 i3 i4 ++ [])) }
            [b1, b2, b3] (l3 ++ []) hR
            (fun j hj => by
              have hj0 : j = 0 ∨ j = 1 ∨ j = 2 := by omega
              rcases hj0 with hj0 | hj0 | hj0 <;> subst hj0
              · simpa using m1
              · simpa using m2
              · simpa using m3)
          refine ⟨3, false, _, _, by omega, by omega, hC, ⟨[b1, b2, b3], hR⟩,
            by simpa using hl3, rfl, by simp [retryReplies, retryReply, txBytes],
            Or.inr ⟨rfl, rfl⟩, fun rest => ?_⟩
          refine ⟨_, attemptPassword_three_rounds _ a0 a1 a2 a3 a4 k0 k1 k2 k3 k4
            j0 j1 j2 j3 j4 i0 i1 i2 i3 i4 _ ERROR MODE_ALARM_MODE rest hbuf rfl
            (by simp [retryReplies, retryReply, txBytes]) (by simp), ?_, rfl, rfl,
            rfl, ⟨_, _, _, _, _, rfl⟩⟩
          simp [passwordFrames]

theorem receiveUntilEOS_from_spec (pre : List Nat) (hpre : UART_EOS ∉ pre) :
    ∀ i str, ∃ buf', ∀ post,
      receiveUntilEOS_from i str (pre ++ UART_EOS :: post) = some (buf', post) := by
  induction pre with
  | nil =>
    intro i str
    exact ⟨(str.set i UART_EOS).set (i + 1) 0, fun post => by simp [receiveUntilEOS_from]⟩
  | cons b bs ih =>
    intro i str
    have hb : b ≠ UART_EOS := fun h => hpre (by simp [h])
    have hbs : UART_EOS ∉ bs := fun h => hpre (by simp [h])
    obtain ⟨buf', hbuf'⟩ := ih hbs (i + 1) (str.set i b)
    exact ⟨buf', fun post => by simp [receiveUntilEOS_from, hb, hbuf' post]⟩

/-- The reception modelled from the spec stops at the first terminator. -/
theorem receiveUntilEOS_receivesToEOS : ReceivesToEOS receiveUntilEOS :=
  fun buf pre hpre => receiveUntilEOS_from_spec pre hpre 0 buf

/-- The front node's waits after an open-door authentication, as iterated sync waits. -/
theorem hmi_open_door_wait_eq (h : Hmi) :
    hmi_open_door_wait h =
      (awaitSyncs (if h.HMI_status ≠ MODE_ALARM_MODE then 2 else 0) h.rx).map
        (fun r => { h with rx := r }) := by
  unfold hmi_open_door_wait
  by_cases hm : h.HMI_status ≠ MODE_ALARM_MODE
  · rw [if_pos hm, if_pos hm]
    simp only [awaitSyncs]
    cases h1 : awaitSync h.rx with
    | none => rfl
    | some rx1 =>
      cases h2 : awaitSync rx1 with
      | none => simp [h2]
      | some rx2 => simp [h2]
  · rw [if_neg hm, if_neg hm]
    rfl

theorem txBytes_doorEvents : txBytes doorEvents = [SYNC_HANDSHAKE, SYNC_HANDSHAKE] := rfl

/-- Slots 5 and 6 of an array play no part in the reads of slots 0 to 4. -/
theorem getD_set_framing (l : List Nat) (x5 x6 i : Nat) (hi : i < 5) :
    ((l.set 5 x5).set 6 x6).getD i 0 = l.getD i 0 := by
  simp only [List.getD_eq_getElem?_getD]
  rw [List.getElem?_set_ne (by omega), List.getElem?_set_ne (by omega)]

theorem keyChar_eq (k : Nat) : keyChar k = if k < 10 then k + 48 else k := by
  unfold keyChar
  split
  · omega
  · rfl

/-! ## Lemmas on `UART_receiveString` -/

theorem getD_set_self (l : List Nat) (i v : Nat) (h : i < l.length) :
    (l.set i v).getD i 0 = v := by
  simp [List.getD_eq_getElem?_getD, h]

theorem getD_set_ne (l : List Nat) (i j v : Nat) (h : i ≠ j) :
    (l.set i v).getD j 0 = l.getD j 0 := by
  simp only [List.getD_eq_getElem?_getD]
  rw [List.getElem?_set_ne h]

/-- What a returning run of the loop of `UART_receiveString` from index `i` leaves: the
`m` bytes consumed sit in slots `i .. i + m - 1`, slot `i + m` holds the null byte, every
other slot is as before. -/
theorem UART_receiveString_loop_layout :
    ∀ (rx : List Nat) (i : Nat) (str str' rx' : List Nat), str.length ≤ 255 →
      UART_receiveString_loop i str rx = some (str', rx') →
      ∃ m, 1 ≤ m ∧ i + m < str.length ∧ rx = rx.take m ++ rx' ∧
        (∀ j, j < m → str'.getD (i + j) 0 = rx.getD j 0) ∧
        str'.getD (i + m) 0 = 0 ∧
        (∀ j, i + m < j → str'.getD j 0 = str.getD j 0) ∧
        (∀ j, j < i → str'.getD j 0 = str.getD j 0) ∧
        str'.length = str.length := by
  intro rx
  induction rx with
  | nil =>
    intro i str str' rx' _ h
    simp [UART_receiveString_loop] at h
  | cons b rest ih =>
    intro i str str' rx' hlen h
    unfold UART_receiveString_loop at h
    by_cases hi : i < str.length
    · have hi1 : (i + 1) % 256 = i + 1 := Nat.mod_eq_of_lt (by omega)
      simp only [hi, if_true, hi1, List.length_set] at h
      by_cases hi2 : i + 1 < str.length
      · simp only [hi2, if_true] at h
        by_cases hne : (str.set i b).getD (i + 1) 0 ≠ UART_EOS
        · rw [if_pos hne] at h
          obtain ⟨m, hm1, hm2, hrx, hbytes, hnull, hafter, hbefore, hl⟩ :=
            ih (i + 1) (str.set i b) str' rx' (by simpa using hlen) h
          rw [List.length_set] at hm2 hl
          refine ⟨m + 1, by omega, by omega, ?_, ?_, ?_, ?_, ?_, hl⟩
          · simp only [List.take_succ_cons, List.cons_append]
            rw [← hrx]
          · intro j hj
            cases j with
            | zero =>
              show str'.getD i 0 = b
              rw [hbefore i (by omega), getD_set_self str i b hi]
            | succ j =>
              have := hbytes j (by omega)
              rw [show i + (j + 1) = i + 1 + j by omega, this]
              rfl
          · rw [show i + (m + 1) = i + 1 + m by omega]
            exact hnull
          · intro j hj
            rw [hafter j (by omega), getD_set_ne str i j b (by omega)]
          · intro j hj
            rw [hbefore j (by omega), getD_set_ne str i j b (by omega)]
        · rw [if_neg hne] at h
          simp only [Option.some.injEq, Prod.mk.injEq] at h
          obtain ⟨rfl, rfl⟩ := h
          refine ⟨1, by omega, by omega, by simp, ?_, ?_, ?_, ?_, by simp⟩
          · intro j hj
            have hj0 : j = 0 := by omega
            subst hj0
            show ((str.set i b).set (i + 1) 0).getD i 0 = b
            rw [getD_set_ne _ (i + 1) i 0 (by omega), getD_set_self str i b hi]
          · exact getD_set_self _ (i + 1) 0 (by simpa using hi2)
          · intro j hj
            rw [getD_set_ne _ (i + 1) j 0 (by omega), getD_set_ne str i j b (by omega)]
          · intro j hj
            rw [getD_set_ne _ (i + 1) j 0 (by omega), getD_set_ne str i j b (by omega)]
      · simp [hi2] at h
    · simp [hi] at h

/-- An array as an earlier complete reception is meant to leave it: `"99999#"` and the
null byte. -/
theorem UART_receiveString_on_full_array :
    UART_receiveString [57, 57, 57, 57, 57, 35, 0] [49, 50, 35, 52, 53, 35, 0xED] =
      some ([49, 50, 35, 52, 53, 0, 0], [35, 0xED]) := by
  decide

/-! ## Lemmas on the enrollment exchange and on the front node's `MainMenu` -/

/-- The front node's `FirstBoot` pass with ten keys available and a reply pending. -/
theorem hmi_first_boot_eq (h : Hmi) (a0 a1 a2 a3 a4 k0 k1 k2 k3 k4 j0 j1 j2 j3 j4 : Nat)
    (ks pre : List Nat) (m : Nat) (rest : List Nat)
    (hmode : h.HMI_status = MODE_FIRST_BOOT)
    (hbuf : h.g_password_buffer = [a0, a1, a2, a3, a4, UART_EOS, 0])
    (hkeys : h.keys = k0 :: k1 :: k2 :: k3 :: k4 :: j0 :: j1 :: j2 :: j3 :: j4 :: ks)
    (hpre : SYNC_HANDSHAKE ∉ pre) (hrx : h.rx = pre ++ SYNC_HANDSHAKE :: m :: rest) :
    hmi_main_step h =
      some { g_password_buffer :=
               [keyChar j0, keyChar j1, keyChar j2, keyChar j3, keyChar j4, UART_EOS, 0],
             HMI_status := if m ≠ 0 then MODE_NORMAL_BOOT_MAIN else MODE_FIRST_BOOT,
             password_match := 0, keys := ks, rx := rest,
             tx := (h.tx ++ passwordFrame k0 k1 k2 k3 k4) ++ passwordFrame j0 j1 j2 j3 j4 } := by
  have e1 := getSendPasswordSync_eq h a0 a1 a2 a3 a4 k0 k1 k2 k3 k4 _ hbuf hkeys
  have e2 := getSendPasswordSync_eq
    { h with
      g_password_buffer :=
        [keyChar k0, keyChar k1, keyChar k2, keyChar k3, keyChar k4, UART_EOS, 0],
      keys := j0 :: j1 :: j2 :: j3 :: j4 :: ks,
      tx := h.tx ++ passwordFrame k0 k1 k2 k3 k4 }
    _ _ _ _ _ j0 j1 j2 j3 j4 ks rfl rfl
  have e3 := awaitSync_append pre (m :: rest) hpre
  unfold hmi_main_step
  rw [if_pos hmode]
  unfold hmi_case_MODE_FIRST_BOOT
  rw [e1]
  simp only []
  rw [e2]
  simp only [hrx, e3, UART_receiveByte]
  by_cases hm : m = 0
  · simp [hm, hmode]
  · simp [hm]

/-- The back node's `FirstBoot` pass on two transmissions of the front node. -/
theorem control_first_boot_on_frames (recvStr : ReceiveString) (hrecv : ReceivesToEOS recvStr)
    (c : Control) (k0 k1 k2 k3 k4 j0 j1 j2 j3 j4 : Nat)
    (hk : ∀ k, k ∈ [k0, k1, k2, k3, k4, j0, j1, j2, j3, j4] → k ≠ SYNC_HANDSHAKE)
    (hc : c.HMI_status = MODE_FIRST_BOOT) :
    ∃ b1 b2 l, control_main_step recvStr
        { c with rx := passwordFrame k0 k1 k2 k3 k4 ++ (passwordFrame j0 j1 j2 j3 j4 ++ []) } =
      some (first_boot_decide
        { c with g_pass_buffer1 := b1, g_pass_buffer2 := b2, rx := l }) := by
  obtain ⟨b1, l1, hl1, hr1⟩ := receive_frame recvStr hrecv c.g_pass_buffer1 k0 k1 k2 k3 k4
    (hk _ (by simp)) (hk _ (by simp)) (hk _ (by simp)) (hk _ (by simp)) (hk _ (by simp))
  obtain ⟨b2, l2, _, hr2⟩ := receive_frame recvStr hrecv c.g_pass_buffer2 j0 j1 j2 j3 j4
    (hk _ (by simp)) (hk _ (by simp)) (hk _ (by simp)) (hk _ (by simp)) (hk _ (by simp))
  obtain ⟨rx1, hs1, hv1⟩ := hr1 [] (passwordFrame j0 j1 j2 j3 j4 ++ []) (by simp)
  obtain ⟨rx3, hs3, hv3⟩ := hr2 l1 [] hl1
  exact ⟨b1, b2, l2 ++ [],
    control_first_boot_eq recvStr
      { c with rx := passwordFrame k0 k1 k2 k3 k4 ++ (passwordFrame j0 j1 j2 j3 j4 ++ []) }
      b1 b2 rx1 _ rx3 _ hc hs1 hv1 hs3 hv3⟩

theorem awaitPlusMinus_append (pre : List Nat) (k : Nat) (rest : List Nat)
    (hpre : ∀ x, x ∈ pre → x ≠ 43 ∧ x ≠ 45) (hk : k = 43 ∨ k = 45) :
    awaitPlusMinus (pre ++ k :: rest) = some (k, rest) := by
  induction pre with
  | nil =>
    have hn : ¬ (k ≠ 43 ∧ k ≠ 45) := by
      rcases hk with h | h <;> simp [h]
    simp [awaitPlusMinus, hn]
  | cons b bs ih =>
    have hb := hpre b (by simp)
    have hbs : ∀ x, x ∈ bs → x ≠ 43 ∧ x ≠ 45 := fun x hx => hpre x (by simp [hx])
    simp [awaitPlusMinus, hb, ih hbs]

theorem awaitPlusMinus_none (keys : List Nat) (hkeys : ∀ x, x ∈ keys → x ≠ 43 ∧ x ≠ 45) :
    awaitPlusMinus keys = none := by
  induction keys with
  | nil => rfl
  | cons b bs ih =>
    have hb := hkeys b (by simp)
    have hbs : ∀ x, x ∈ bs → x ≠ 43 ∧ x ≠ 45 := fun x hx => hkeys x (by simp [hx])
    simp [awaitPlusMinus, hb, ih hbs]

theorem UART_sendString_tx : ∀ (l : List Nat) (h h' : Hmi),
    Hmi.UART_sendString l h = some h' → ∃ more, h'.tx = h.tx ++ more := by
  intro l
  induction l with
  | nil => intro h h' hs; simp [Hmi.UART_sendString] at hs
  | cons c cs ih =>
    intro h h' hs
    unfold Hmi.UART_sendString at hs
    by_cases hc : c ≠ 0
    · rw [if_pos hc] at hs
      obtain ⟨more, hmore⟩ := ih _ _ hs
      exact ⟨c :: more, by rw [hmore]; simp [Hmi.UART_sendByte]⟩
    · rw [if_neg hc] at hs
      simp only [Option.some.injEq] at hs
      subst hs
      exact ⟨[], by simp⟩

theorem getSendPasswordSync_loop_tx : ∀ (fuel i : Nat) (h h' : Hmi),
    getSendPasswordSync_loop fuel i h = some h' → h'.tx = h.tx := by
  intro fuel
  induction fuel with
  | zero =>
    intro i h h' hs
    simp only [getSendPasswordSync_loop, Option.some.injEq] at hs
    rw [← hs]
  | succ n ih =>
    intro i h h' hs
    unfold getSendPasswordSync_loop at hs
    by_cases hi : i < PASSWORD_LENGTH - 2
    · rw [if_pos hi] at hs
      cases hk : KEYPAD_getPressedKey h.keys with
      | none => simp [hk] at hs
      | some p =>
        obtain ⟨key, ks⟩ := p
        simp only [hk] at hs
        have e := ih _ _ _ hs
        simpa using e
    · rw [if_neg hi] at hs
      simp only [Option.some.injEq] at hs
      rw [← hs]

theorem getSendPasswordSync_tx (h h' : Hmi) (hs : getSendPasswordSync h = some h') :
    ∃ more, h'.tx = h.tx ++ more := by
  unfold getSendPasswordSync at hs
  cases hl : getSendPasswordSync_loop (PASSWORD_LENGTH - 2) 0 h with
  | none => simp [hl] at hs
  | some h1 =>
    simp only [hl] at hs
    obtain ⟨more, hmore⟩ := UART_sendString_tx _ _ _ hs
    refine ⟨SYNC_HANDSHAKE :: more, ?_⟩
    rw [hmore, ← getSendPasswordSync_loop_tx _ _ _ _ hl]
    simp [Hmi.UART_sendByte]

theorem attemptPassword_loop_tx : ∀ (fuel : Nat) (h h' : Hmi),
    attemptPassword_loop fuel h = some h' → ∃ more, h'.tx = h.tx ++ more := by
  intro fuel
  induction fuel with
  | zero => intro h h' hs; simp [attemptPassword_loop] at hs
  | succ n ih =>
    intro h h' hs
    unfold attemptPassword_loop at hs
    cases hg : getSendPasswordSync h with
    | none => simp [hg] at hs
    | some h1 =>
      obtain ⟨more1, hmore1⟩ := getSendPasswordSync_tx h h1 hg
      simp only [hg] at hs
      cases hr1 : UART_receiveByte h1.rx with
      | none => simp [hr1] at hs
      | some p1 =>
        obtain ⟨m, rx1⟩ := p1
        simp only [hr1] at hs
        cases hr2 : UART_receiveByte rx1 with
        | none => simp [hr2] at hs
        | some p2 =>
          obtain ⟨st, rx2⟩ := p2
          simp only [hr2] at hs
          by_cases hgo : m = 0 ∧ st ≠ MODE_ALARM_MODE
          · rw [if_pos hgo] at hs
            obtain ⟨more2, hmore2⟩ := ih _ _ hs
            exact ⟨more1 ++ more2, by rw [hmore2]; simp [hmore1]⟩
          · rw [if_neg hgo] at hs
            simp only [Option.some.injEq] at hs
            subst hs
            exact ⟨more1, hmore1⟩

theorem hmi_open_door_wait_tx (h h' : Hmi) (hs : hmi_open_door_wait h = some h') :
    h'.tx = h.tx := by
  unfold hmi_open_door_wait at hs
  by_cases hm : h.HMI_status ≠ MODE_ALARM_MODE
  · rw [if_pos hm] at hs
    cases h1 : awaitSync h.rx with
    | none => simp [h1] at hs
    | some rx1 =>
      cases h2 : awaitSync rx1 with
      | none => simp [h1, h2] at hs
      | some rx2 =>
        simp only [h1, h2, Option.some.injEq] at hs
        rw [← hs]
  · rw [if_neg hm] at hs
    simp only [Option.some.injEq] at hs
    rw [← hs]

/-! ## Lemmas on the delay callback -/

/-- While the counter has not reached `timer_ticks`, a callback only increments it. -/
theorem callbacks_count : ∀ (k t n : Nat), t + k ≤ n → n < 256 →
    callbacks k { tick := t, timer_ticks := n, delay_over := false } =
      { tick := t + k, timer_ticks := n, delay_over := false } := by
  intro k
  induction k with
  | zero => intro t n _ _; rfl
  | succ k ih =>
    intro t n hk hn
    have hne : t ≠ n := by omega
    have hmod : (t + 1) % 256 = t + 1 := Nat.mod_eq_of_lt (by omega)
    simp only [callbacks, Control_Delay_Callback, hne, if_false, hmod]
    rw [ih (t + 1) n (by omega) hn]
    simp only [DelayState.mk.injEq, and_true]
    omega

/-! ## Lemmas on the EEPROM and on repeated enrollment -/

/-- A byte write either succeeds and stores the byte, or fails and stores nothing. -/
theorem EEPROM_writeByte_cases (a d : Nat) (b : EepromBus) :
    ((EEPROM_writeByte a d b).1 = SUCCESS ∧
      (EEPROM_writeByte a d b).2.mem =
        fun d' w => if d' = slave_w_3addr a ∧ w = a % 256 then d else b.mem d' w) ∨
    ((EEPROM_writeByte a d b).1 = ERROR ∧ (EEPROM_writeByte a d b).2.mem = b.mem) := by
  unfold EEPROM_writeByte
  simp only []
  split_ifs <;> simp [TWI_getStatus]

/-- One round of the loop of `EEPROM_writeString` in a run that returns `SUCCESS`. -/
theorem EEPROM_writeString_loop_round (a : Nat) (str : List Nat) (size fuel i : Nat)
    (b : EepromBus) (hi : i < size)
    (hs : (EEPROM_writeString_loop a str size (fuel + 1) i b).1 = SUCCESS) :
    (EEPROM_writeByte ((a + i) % 65536) (str.getD i 0) b).2.mem =
        (fun d' w => if d' = slave_w_3addr ((a + i) % 65536) ∧ w = ((a + i) % 65536) % 256
          then str.getD i 0 else b.mem d' w) ∧
      EEPROM_writeString_loop a str size (fuel + 1) i b =
        EEPROM_writeString_loop a str size fuel ((i + 1) % 256)
          (EEPROM_writeByte ((a + i) % 65536) (str.getD i 0) b).2 := by
  rcases EEPROM_writeByte_cases ((a + i) % 65536) (str.getD i 0) b with ⟨hr, hm⟩ | ⟨hr, _⟩
  · refine ⟨hm, ?_⟩
    rw [EEPROM_writeString_loop]
    simp only [hi, if_true]
    rw [if_neg (by rw [hr]; decide)]
  · exfalso
    rw [EEPROM_writeString_loop] at hs
    simp only [hi, if_true] at hs
    rw [if_pos (by rw [hr]; rfl)] at hs
    change ERROR = SUCCESS at hs
    exact absurd hs (by decide)

/-- A write of the five password bytes that returns `SUCCESS` leaves them at the
addresses `0x0320 .. 0x0324`. -/
theorem EEPROM_writeString_password (str : List Nat) (b : EepromBus)
    (hs : (EEPROM_writeString EEPROM_PASSWORD_ADDRESS str (PASSWORD_LENGTH - 2) b).1 = SUCCESS) :
    ∀ i, i < 5 →
      eepromByte (EEPROM_writeString EEPROM_PASSWORD_ADDRESS str (PASSWORD_LENGTH - 2) b).2
        (EEPROM_PASSWORD_ADDRESS + i) = str.getD i 0 := by
  have hs' : (EEPROM_writeString_loop 0x0320 str 5 (4 + 1) 0 b).1 = SUCCESS := hs
  obtain ⟨m0, e0⟩ := EEPROM_writeString_loop_round 0x0320 str 5 4 0 b (by omega) hs'
  rw [e0] at hs'
  obtain ⟨m1, e1⟩ := EEPROM_writeString_loop_round 0x0320 str 5 3 1 _ (by omega) hs'
  rw [e1] at hs'
  obtain ⟨m2, e2⟩ := EEPROM_writeString_loop_round 0x0320 str 5 2 2 _ (by omega) hs'
  rw [e2] at hs'
  obtain ⟨m3, e3⟩ := EEPROM_writeString_loop_round 0x0320 str 5 1 3 _ (by omega) hs'
  rw [e3] at hs'
  obtain ⟨m4, e4⟩ := EEPROM_writeString_loop_round 0x0320 str 5 0 4 _ (by omega) hs'
  have hfin : EEPROM_writeString EEPROM_PASSWORD_ADDRESS str (PASSWORD_LENGTH - 2) b =
      (SUCCESS, (EEPROM_writeByte ((0x0320 + 4) % 65536) (str.getD 4 0)
        (EEPROM_writeByte ((0x0320 + 3) % 65536) (str.getD 3 0)
          (EEPROM_writeByte ((0x0320 + 2) % 65536) (str.getD 2 0)
            (EEPROM_writeByte ((0x0320 + 1) % 65536) (str.getD 1 0)
              (EEPROM_writeByte ((0x0320 + 0) % 65536) (str.getD 0 0) b).2).2).2).2).2) := by
    show EEPROM_writeString_loop 0x0320 str 5 (4 + 1) 0 b = _
    rw [e0, e1, e2, e3, e4]
    rfl
  intro i hi
  rw [hfin]
  have s0 : slave_w_3addr ((0x0320 + 0) % 65536) = 0xA6 := by decide
  have s1 : slave_w_3addr ((0x0320 + 1) % 65536) = 0xA6 := by decide
  have s2 : slave_w_3addr ((0x0320 + 2) % 65536) = 0xA6 := by decide
  have s3 : slave_w_3addr ((0x0320 + 3) % 65536) = 0xA6 := by decide
  have s4 : slave_w_3addr ((0x0320 + 4) % 65536) = 0xA6 := by decide
  have t0 : slave_w_3addr (0x0320 + 0) = 0xA6 := by decide
  have t1 : slave_w_3addr (0x0320 + 1) = 0xA6 := by decide
  have t2 : slave_w_3addr (0x0320 + 2) = 0xA6 := by decide
  have t3 : slave_w_3addr (0x0320 + 3) = 0xA6 := by decide
  have t4 : slave_w_3addr (0x0320 + 4) = 0xA6 := by decide
  have h5 : i = 0 ∨ i = 1 ∨ i = 2 ∨ i = 3 ∨ i = 4 := by omega
  simp only [eepromByte, EEPROM_PASSWORD_ADDRESS, m4, m3, m2, m1, m0, s0, s1, s2, s3, s4]
  rcases h5 with h | h | h | h | h <;> subst h
  · rw [t0]; simp
  · rw [t1]; simp
  · rw [t2]; simp
  · rw [t3]; simp
  · rw [t4]; simp

theorem pass_compare_self (P : List Nat) : pass_compare P P = true :=
  (pass_compare_iff P P).2 (fun _ _ => rfl)

theorem storedAfter_again (P g : List Nat) : storedAfter P (storedAfter P g) = storedAfter P g := by
  simp [storedAfter]

theorem storedAfter_length (P g : List Nat) : 5 ≤ (storedAfter P g).length := by
  simp [storedAfter]

theorem storedAfter_getD (P g : List Nat) (i : Nat) (hi : i < 5) :
    (storedAfter P g).getD i 0 = P.getD i 0 := by
  have h5 : i = 0 ∨ i = 1 ∨ i = 2 ∨ i = 3 ∨ i = 4 := by omega
  rcases h5 with h | h | h | h | h <;> subst h <;> simp [storedAfter]

/-- One successful enrollment with the capture `P` in both arrays. -/
theorem enrollWith_eq (P : List Nat) (s : Control) (hlen : 5 ≤ s.g_password.length) :
    enrollWith P s =
      { g_password := storedAfter P s.g_password, g_pass_buffer1 := P, g_pass_buffer2 := P,
        HMI_status := MODE_NORMAL_BOOT_MAIN, rx := s.rx,
        trace := s.trace ++ enrollCalls (storedAfter P s.g_password) } := by
  have hset := set_password_loop_eq P s.g_password hlen
  simp only [enrollWith, first_boot_decide, pass_compare_self, if_true, set_password,
    Control.call, Control.UART_sendByte, hset, storedAfter, enrollCalls, List.append_assoc,
    List.singleton_append, List.cons_append, List.nil_append]

/-- Any number of successful enrollments with the capture `P`, one after the other. -/
theorem enrollTimes_eq (P : List Nat) : ∀ (n : Nat) (s : Control), 5 ≤ s.g_password.length →
    enrollTimes P (n + 1) s =
      { g_password := storedAfter P s.g_password, g_pass_buffer1 := P, g_pass_buffer2 := P,
        HMI_status := MODE_NORMAL_BOOT_MAIN, rx := s.rx,
        trace := s.trace ++ repeatCalls (enrollCalls (storedAfter P s.g_password)) (n + 1) } := by
  intro n
  induction n with
  | zero =>
    intro s hlen
    show enrollWith P s = _
    rw [enrollWith_eq P s hlen]
    simp [repeatCalls]
  | succ n ih =>
    intro s hlen
    show enrollTimes P (n + 1) (enrollWith P s) = _
    rw [ih (enrollWith P s) (by rw [enrollWith_eq P s hlen]; exact storedAfter_length P _)]
    rw [enrollWith_eq P s hlen]
    simp only [storedAfter_again, List.append_assoc]
    rfl

theorem replayEeprom_enrollCalls (G : List Nat) (l : List Event) (b : EepromBus) :
    replayEeprom (enrollCalls G ++ l) b =
      ((EEPROM_writeString EEPROM_PASSWORD_ADDRESS G (PASSWORD_LENGTH - 2) b).1 ::
          (replayEeprom l
            (EEPROM_writeString EEPROM_PASSWORD_ADDRESS G (PASSWORD_LENGTH - 2) b).2).1,
        (replayEeprom l
          (EEPROM_writeString EEPROM_PASSWORD_ADDRESS G (PASSWORD_LENGTH - 2) b).2).2) := rfl

/-- The EEPROM after repeated enrollments whose byte writes all succeed. -/
theorem replayEeprom_repeat (G : List Nat) : ∀ (n : Nat) (b : EepromBus),
    (∀ r, r ∈ (replayEeprom (repeatCalls (enrollCalls G) (n + 1)) b).1 → r = SUCCESS) →
    ∀ i, i < 5 →
      eepromByte (replayEeprom (repeatCalls (enrollCalls G) (n + 1)) b).2
        (EEPROM_PASSWORD_ADDRESS + i) = G.getD i 0 := by
  intro n
  induction n with
  | zero =>
    intro b hall i hi
    have e : repeatCalls (enrollCalls G) (0 + 1) = enrollCalls G ++ [] := rfl
    rw [e, replayEeprom_enrollCalls] at hall ⊢
    exact EEPROM_writeString_password G b (hall _ (by simp)) i hi
  | succ n ih =>
    intro b hall i hi
    have e : repeatCalls (enrollCalls G) (n + 1 + 1) =
        enrollCalls G ++ repeatCalls (enrollCalls G) (n + 1) := rfl
    rw [e, replayEeprom_enrollCalls] at hall ⊢
    exact ih _ (fun r hr => hall r (List.mem_cons_of_mem _ hr)) i hi

theorem setPasswordCalls_append (a b : List Event) :
    setPasswordCalls (a ++ b) = setPasswordCalls a + setPasswordCalls b := by
  induction a with
  | nil => simp [setPasswordCalls]
  | cons e a ih => cases e <;> simp [setPasswordCalls, ih]; omega

theorem setPasswordCalls_retryReplies (n : Nat) : setPasswordCalls (retryReplies n) = 0 := by
  induction n with
  | zero => rfl
  | succ n ih =>
    rw [retryReplies, setPasswordCalls_append, ih]
    rfl

theorem passCalls_of_append (s s1 : Control) (l : List Event) (h : s1.trace = s.trace ++ l) :
    passCalls s s1 = l := by
  simp [passCalls, h]

/-- The routine `confirmPasswordAttempts` leaves `g_password` alone, does not call
`set_password`, and leaves the target mode only on success. -/
theorem confirm_frame (recvStr : ReceiveString) (t : Nat) (s : Control) (ok : Bool)
    (s1 : Control) (h : confirmPasswordAttempts recvStr t s = some (ok, s1)) :
    s1.g_password = s.g_password ∧
    (∃ l, s1.trace = s.trace ++ l ∧ setPasswordCalls l = 0) ∧
    s1.HMI_status = (if ok = true then t else MODE_ALARM_MODE) := by
  rcases confirm_outcome recvStr t s ok s1 h with
    ⟨hok, k, bufs, rx1, _, _, _, _, _, hs⟩ | ⟨hok, bufs, rx1, _, _, hs⟩
  · subst hs; subst hok
    refine ⟨rfl, ⟨_, rfl, ?_⟩, rfl⟩
    rw [setPasswordCalls_append, setPasswordCalls_retryReplies]
    rfl
  · subst hs; subst hok
    refine ⟨rfl, ⟨_, rfl, ?_⟩, rfl⟩
    rw [setPasswordCalls_append, setPasswordCalls_retryReplies]
    rfl

/-- A pass of the super loop that starts outside `FirstBoot` leaves `g_password` alone and
does not call `set_password`; it ends in `FirstBoot` only from `MainMenu`, on a request other
than open-door, when `confirmPasswordAttempts(MODE_FIRST_BOOT)` returns `TRUE`. -/
theorem pass_outside_first_boot (recvStr : ReceiveString) (s s1 : Control)
    (hmode : s.HMI_status ≠ MODE_FIRST_BOOT) (h : control_main_step recvStr s = some s1) :
    s1.g_password = s.g_password ∧ setPasswordCalls (passCalls s s1) = 0 ∧
    (s1.HMI_status = MODE_FIRST_BOOT →
      s.HMI_status = MODE_NORMAL_BOOT_MAIN ∧
      ∃ rx0 request rx1, awaitSync s.rx = some rx0 ∧
        UART_receiveByte rx0 = some (request, rx1) ∧ request ≠ OPEN_DOOR_REQUEST ∧
        confirmPasswordAttempts recvStr MODE_FIRST_BOOT { s with rx := rx1 } =
          some (true, s1)) := by
  unfold control_main_step at h
  rw [if_neg hmode] at h
  by_cases hl : s.HMI_status = MODE_NORMAL_BOOT_LOCKED
  · rw [if_pos hl] at h
    cases hc : confirmPasswordAttempts recvStr MODE_NORMAL_BOOT_MAIN s with
    | none => rw [hc] at h; cases h
    | some r =>
      obtain ⟨ok, s2⟩ := r
      rw [hc] at h
      have e : s2 = s1 := by simpa using h
      subst e
      obtain ⟨hg, ⟨l, hl1, hl2⟩, hst⟩ := confirm_frame recvStr _ s ok s2 hc
      refine ⟨hg, by rw [passCalls_of_append s s2 l hl1]; exact hl2, fun hfb => ?_⟩
      rw [hst] at hfb
      cases ok
      · exact absurd hfb (by decide)
      · exact absurd hfb (by decide)
  · rw [if_neg hl] at h
    by_cases hm : s.HMI_status = MODE_NORMAL_BOOT_MAIN
    · rw [if_pos hm] at h
      unfold control_case_MODE_NORMAL_BOOT_MAIN at h
      cases hs : awaitSync s.rx with
      | none => simp [hs] at h
      | some rx0 =>
        simp only [hs] at h
        cases hr : UART_receiveByte rx0 with
        | none => simp [hr] at h
        | some q =>
          obtain ⟨request, rx1⟩ := q
          simp only [hr] at h
          by_cases ho : request = OPEN_DOOR_REQUEST
          · rw [if_pos ho] at h
            cases hc : confirmPasswordAttempts recvStr MODE_NORMAL_BOOT_MAIN
                { s with rx := rx1 } with
            | none => rw [hc] at h; cases h
            | some r =>
              obtain ⟨ok, s2⟩ := r
              rw [hc] at h
              obtain ⟨hg, ⟨l, hl1, hl2⟩, hst⟩ := confirm_frame recvStr _ _ ok s2 hc
              cases ok
              · have e : s2 = s1 := by simpa using h
                subst e
                refine ⟨hg, by rw [passCalls_of_append s s2 l hl1]; exact hl2, fun hfb => ?_⟩
                rw [hst] at hfb
                exact absurd hfb (by decide)
              · have e : open_door_sequence s2 = s1 := by simpa using h
                rw [open_door_sequence_trace] at e
                subst e
                refine ⟨hg, ?_, fun hfb => ?_⟩
                · rw [passCalls_of_append s _ (l ++ doorEvents)
                    (by simp only [hl1, List.append_assoc]),
                    setPasswordCalls_append, hl2]
                  rfl
                · have hfb2 : s2.HMI_status = MODE_FIRST_BOOT := hfb
                  rw [hst] at hfb2
                  exact absurd hfb2 (by decide)
          · rw [if_neg ho] at h
            cases hc : confirmPasswordAttempts recvStr MODE_FIRST_BOOT
                { s with rx := rx1 } with
            | none => rw [hc] at h; cases h
            | some r =>
              obtain ⟨ok, s2⟩ := r
              rw [hc] at h
              have e : s2 = s1 := by simpa using h
              subst e
              obtain ⟨hg, ⟨l, hl1, hl2⟩, hst⟩ := confirm_frame recvStr _ _ ok s2 hc
              refine ⟨hg, by rw [passCalls_of_append s s2 l hl1]; exact hl2, fun hfb => ?_⟩
              cases ok
              · rw [hst] at hfb
                exact absurd hfb (by decide)
              · exact ⟨hm, rx0, request, rx1, rfl, hr, ho, hc⟩
    · rw [if_neg hm] at h
      by_cases ha : s.HMI_status = MODE_ALARM_MODE
      · rw [if_pos ha] at h
        have e : control_case_MODE_ALARM_MODE s = s1 := by simpa using h
        subst e
        refine ⟨rfl, ?_, fun hfb => ?_⟩
        swap
        · have hfb2 : MODE_NORMAL_BOOT_MAIN = MODE_FIRST_BOOT := hfb
          exact absurd hfb2 (by decide)
        rw [passCalls_of_append s _ [Event.Buzzer_ON, Event.delay_sec 60, Event.Buzzer_OFF,
          Event.UART_sendByte SYNC_HANDSHAKE, Event.UART_sendByte MODE_NORMAL_BOOT_MAIN]
          (by simp [control_case_MODE_ALARM_MODE, Control.call, Control.UART_sendByte])]
        rfl
      · rw [if_neg ha] at h
        have e : s = s1 := by simpa using h
        subst e
        refine ⟨rfl, ?_, fun hfb => absurd hfb hmode⟩
        rw [passCalls_of_append s s [] (by simp)]
        rfl

/-- A pass of the super loop that starts in `FirstBoot` and calls `set_password`, or changes
`g_password`, ends in `MainMenu`. -/
theorem pass_first_boot (recvStr : ReceiveString) (s s1 : Control)
    (hmode : s.HMI_status = MODE_FIRST_BOOT) (h : control_main_step recvStr s = some s1)
    (hw : setPasswordCalls (passCalls s s1) ≠ 0 ∨ s1.g_password ≠ s.g_password) :
    s1.HMI_status = MODE_NORMAL_BOOT_MAIN := by
  unfold control_main_step at h
  rw [if_pos hmode] at h
  unfold control_case_MODE_FIRST_BOOT at h
  cases h1 : awaitSync s.rx with
  | none => simp [h1] at h
  | some rx1 =>
    simp only [h1] at h
    cases h2 : recvStr s.g_pass_buffer1 rx1 with
    | none => simp [h2] at h
    | some q =>
      obtain ⟨b1, rx2⟩ := q
      simp only [h2] at h
      cases h3 : awaitSync rx2 with
      | none => simp [h3] at h
      | some rx3 =>
        simp only [h3] at h
        cases h4 : recvStr s.g_pass_buffer2 rx3 with
        | none => simp [h4] at h
        | some q2 =>
          obtain ⟨b2, rx4⟩ := q2
          simp only [h4] at h
          have e : first_boot_decide
              { s with g_pass_buffer1 := b1, g_pass_buffer2 := b2, rx := rx4 } = s1 := by
            simpa using h
          subst e
          unfold first_boot_decide at hw ⊢
          by_cases hc : pass_compare b1 b2 = true
          · simp only [hc, if_true]
            rfl
          · simp only [hc] at hw
            rcases hw with hw | hw
            · exact absurd (by
                rw [passCalls_of_append s _
                  [Event.UART_sendByte SYNC_HANDSHAKE, Event.UART_sendByte ERROR]
                  (by simp [Control.UART_sendByte])]
                rfl) hw
            · exact absurd rfl hw

theorem control_run_add (recvStr : ReceiveString) : ∀ (a b : Nat) (s : Control),
    control_run recvStr (a + b) s = (control_run recvStr a s).bind (control_run recvStr b) := by
  intro a
  induction a with
  | zero => intro b s; simp [control_run]
  | succ a ih =>
    intro b s
    rw [show a + 1 + b = (a + b) + 1 by omega]
    simp only [control_run]
    cases control_main_step recvStr s with
    | none => rfl
    | some s1 => exact ih b s1

theorem control_run_one (recvStr : ReceiveString) (s : Control) :
    control_run recvStr 1 s = control_main_step recvStr s := by
  simp only [control_run]
  cases control_main_step recvStr s <;> rfl

/-- A run that starts outside `FirstBoot` and ends in `FirstBoot` contains a pass that
enters `FirstBoot`. -/
theorem control_run_enters (recvStr : ReceiveString) : ∀ (d : Nat) (s t : Control),
    control_run recvStr d s = some t → s.HMI_status ≠ MODE_FIRST_BOOT →
    t.HMI_status = MODE_FIRST_BOOT →
    ∃ m sm sm1, m < d ∧ control_run recvStr m s = some sm ∧
      control_main_step recvStr sm = some sm1 ∧ sm.HMI_status ≠ MODE_FIRST_BOOT ∧
      sm1.HMI_status = MODE_FIRST_BOOT := by
  intro d
  induction d with
  | zero =>
    intro s t h hs ht
    have e : s = t := by simpa [control_run] using h
    subst e
    exact absurd ht hs
  | succ d ih =>
    intro s t h hs ht
    simp only [control_run] at h
    cases h1 : control_main_step recvStr s with
    | none => rw [h1] at h; cases h
    | some s1 =>
      rw [h1] at h
      by_cases hfb : s1.HMI_status = MODE_FIRST_BOOT
      · exact ⟨0, s, s1, by omega, rfl, h1, hs, hfb⟩
      · obtain ⟨m, sm, sm1, hm, hrun, hstep, ha, hb⟩ := ih s1 t h hfb ht
        refine ⟨m + 1, sm, sm1, by omega, ?_, hstep, ha, hb⟩
        simp only [control_run, h1]
        exact hrun

theorem EEPROM_writeByte_result (a d : Nat) (b : EepromBus) :
    (EEPROM_writeByte a d b).1 = SUCCESS ∨ (EEPROM_writeByte a d b).1 = ERROR := by
  rcases EEPROM_writeByte_cases a d b with ⟨h, _⟩ | ⟨h, _⟩
  · exact Or.inl h
  · exact Or.inr h

/-- The loop of `EEPROM_writeString` from index `i` when every byte write from `i` on
succeeds. -/
theorem EEPROM_writeString_loop_success (a : Nat) (str : List Nat) (size : Nat)
    (b : EepromBus) (hsize : size < 256) : ∀ (fuel i : Nat), i ≤ size → size - i ≤ fuel →
    (∀ j, i ≤ j → j < size → byteWriteResult a str j b = SUCCESS) →
    EEPROM_writeString_loop a str size fuel i (writeBytes a str i b) =
      (SUCCESS, writeBytes a str size b) := by
  intro fuel
  induction fuel with
  | zero =>
    intro i hi hf _
    have e : i = size := by omega
    subst e
    rfl
  | succ fuel ih =>
    intro i hi hf hall
    rw [EEPROM_writeString_loop]
    by_cases hlt : i < size
    · rw [if_pos hlt]
      have hr : (EEPROM_writeByte ((a + i) % 65536) (str.getD i 0)
          (writeBytes a str i b)).1 = SUCCESS := hall i (le_refl i) hlt
      simp only []
      rw [if_neg (by rw [hr]; decide)]
      have e : (i + 1) % 256 = i + 1 := Nat.mod_eq_of_lt (by omega)
      rw [e]
      exact ih (i + 1) (by omega) (by omega) (fun j hj hjs => hall j (by omega) hjs)
    · rw [if_neg hlt]
      have e : i = size := by omega
      subst e
      rfl

/-- The loop of `EEPROM_writeString` from index `i` when the byte write at index `k` is the
first to fail. -/
theorem EEPROM_writeString_loop_failure (a : Nat) (str : List Nat) (size : Nat)
    (b : EepromBus) (hsize : size < 256) (k : Nat) (hk : k < size)
    (hfail : byteWriteResult a str k b ≠ SUCCESS) :
    ∀ (fuel i : Nat), i ≤ k → k - i < fuel →
    (∀ j, i ≤ j → j < k → byteWriteResult a str j b = SUCCESS) →
    EEPROM_writeString_loop a str size fuel i (writeBytes a str i b) =
      (ERROR, writeBytes a str (k + 1) b) := by
  intro fuel
  induction fuel with
  | zero => intro i _ hf _; omega
  | succ fuel ih =>
    intro i hi hf hall
    rw [EEPROM_writeString_loop]
    rw [if_pos (by omega : i < size)]
    simp only []
    by_cases hik : i = k
    · subst hik
      have hr : (EEPROM_writeByte ((a + i) % 65536) (str.getD i 0)
          (writeBytes a str i b)).1 = ERROR := by
        rcases EEPROM_writeByte_result ((a + i) % 65536) (str.getD i 0)
          (writeBytes a str i b) with h | h
        · exact absurd h hfail
        · exact h
      rw [if_pos (by rw [hr]; rfl)]
      rfl
    · have hr : (EEPROM_writeByte ((a + i) % 65536) (str.getD i 0)
          (writeBytes a str i b)).1 = SUCCESS := hall i (le_refl i) (by omega)
      rw [if_neg (by rw [hr]; decide)]
      have e : (i + 1) % 256 = i + 1 := Nat.mod_eq_of_lt (by omega)
      rw [e]
      exact ih (i + 1) (by omega) (by omega) (fun j hj hjk => hall j (by omega) hjk)

/-- The memory after `k` byte writes that all succeed. -/
theorem writeBytes_mem (a : Nat) (str : List Nat) (b : EepromBus) : ∀ (k : Nat), k ≤ 256 →
    (∀ i, i < k → byteWriteResult a str i b = SUCCESS) →
    (∀ i, i < k → eepromByte (writeBytes a str k b) ((a + i) % 65536) = str.getD i 0) ∧
    (∀ d w, (∀ i, i < k → ¬ (d = slave_w_3addr ((a + i) % 65536) ∧
        w = ((a + i) % 65536) % 256)) → (writeBytes a str k b).mem d w = b.mem d w) := by
  intro k
  induction k with
  | zero =>
    intro _ _
    exact ⟨fun i hi => absurd hi (Nat.not_lt_zero i), fun d w _ => rfl⟩
  | succ k ih =>
    intro hk hall
    obtain ⟨ih1, ih2⟩ := ih (by omega) (fun i hi => hall i (by omega))
    have hmem : (writeBytes a str (k + 1) b).mem =
        fun d w => if d = slave_w_3addr ((a + k) % 65536) ∧ w = ((a + k) % 65536) % 256
          then str.getD k 0 else (writeBytes a str k b).mem d w := by
      rcases EEPROM_writeByte_cases ((a + k) % 65536) (str.getD k 0)
        (writeBytes a str k b) with ⟨_, hm⟩ | ⟨he, _⟩
      · exact hm
      · have hs : byteWriteResult a str k b = SUCCESS := hall k (by omega)
        have hs2 : (EEPROM_writeByte ((a + k) % 65536) (str.getD k 0)
            (writeBytes a str k b)).1 = SUCCESS := hs
        rw [he] at hs2
        exact absurd hs2 (by decide)
    refine ⟨fun i hi => ?_, fun d w hdw => ?_⟩
    · unfold eepromByte
      rw [hmem]
      by_cases hik : i = k
      · subst hik
        simp
      · have hne : ((a + i) % 65536) % 256 ≠ ((a + k) % 65536) % 256 := by omega
        have := ih1 i (by omega)
        unfold eepromByte at this
        simp only [hne, and_false, if_false]
        exact this
    · rw [hmem]
      simp only [hdw k (by omega), if_false]
      exact ih2 d w (fun i hi => hdw i (by omega))

theorem delay_sec_rounded_eq (a_sec : Nat) (h : a_sec < 7812) :
    delay_sec_rounded a_sec = (a_sec : Int) := by
  unfold delay_sec_rounded TIMER_PRESCALER_VALUE F_CPU TIMER_TOP_VALUE
  have ha : (a_sec : ℚ) < 7812 := by exact_mod_cast h
  have h0 : (0 : ℚ) ≤ (a_sec : ℚ) := Nat.cast_nonneg a_sec
  have hx : (a_sec : ℚ) / ((1024 / ((8000000 : ℕ) : ℚ)) * ((7812 : ℕ) : ℚ)) =
      (a_sec : ℚ) + (a_sec : ℚ) / 15624 := by
    push_cast
    field_simp
    ring
  rw [hx, round_eq, Int.floor_eq_iff]
  push_cast
  constructor
  · have : (0 : ℚ) ≤ (a_sec : ℚ) / 15624 := div_nonneg h0 (by norm_num)
    linarith
  · have : (a_sec : ℚ) / 15624 < 1 / 2 := by
      rw [div_lt_iff₀ (by norm_num)]
      linarith
    linarith

theorem buzzerCommands_append (l1 l2 : List Event) :
    buzzerCommands (l1 ++ l2) = buzzerCommands l1 ++ buzzerCommands l2 := by
  induction l1 with
  | nil => rfl
  | cons e l ih => cases e <;> simp [buzzerCommands, ih]

theorem buzzerCommands_retryReplies (n : Nat) : buzzerCommands (retryReplies n) = [] := by
  induction n with
  | zero => rfl
  | succ n ih =>
    rw [retryReplies, buzzerCommands_append, ih]
    rfl

/-- The two outcomes of the decision of the `FirstBoot` branch. -/
theorem first_boot_decide_cases (s : Control) :
    (matches5 s.g_pass_buffer1 s.g_pass_buffer2 ∧
      first_boot_decide s =
        { s with
          g_password := set_password_loop s.g_pass_buffer1 (PASSWORD_LENGTH - 2) 0 s.g_password,
          HMI_status := MODE_NORMAL_BOOT_MAIN,
          trace := s.trace ++ enrollCalls
            (set_password_loop s.g_pass_buffer1 (PASSWORD_LENGTH - 2) 0 s.g_password) }) ∨
    (¬ matches5 s.g_pass_buffer1 s.g_pass_buffer2 ∧
      first_boot_decide s =
        { s with trace := s.trace ++
            [Event.UART_sendByte SYNC_HANDSHAKE, Event.UART_sendByte ERROR] }) := by
  by_cases hm : matches5 s.g_pass_buffer1 s.g_pass_buffer2
  · refine Or.inl ⟨hm, ?_⟩
    have hp := (pass_compare_iff _ _).2 hm
    simp only [first_boot_decide, hp, if_true, set_password, Control.call,
      Control.UART_sendByte, enrollCalls, List.append_assoc, List.singleton_append,
      List.cons_append, List.nil_append]
  · refine Or.inr ⟨hm, ?_⟩
    have hp := (pass_compare_false_iff _ _).2 hm
    simp only [first_boot_decide, hp, Bool.false_eq_true, if_false, Control.UART_sendByte,
      List.append_assoc, List.singleton_append, List.cons_append, List.nil_append]

/-- What a returning pass of the super loop has done, by the mode it started in. -/
theorem control_main_step_cases (recvStr : ReceiveString) (s s1 : Control)
    (h : control_main_step recvStr s = some s1) :
    (s.HMI_status = MODE_FIRST_BOOT ∧ ∃ b1 b2 rx1 rx2 rx3 rx4,
      awaitSync s.rx = some rx1 ∧ recvStr s.g_pass_buffer1 rx1 = some (b1, rx2) ∧
      awaitSync rx2 = some rx3 ∧ recvStr s.g_pass_buffer2 rx3 = some (b2, rx4) ∧
      s1 = first_boot_decide { s with g_pass_buffer1 := b1, g_pass_buffer2 := b2, rx := rx4 }) ∨
    (s.HMI_status = MODE_NORMAL_BOOT_LOCKED ∧
      ∃ ok, confirmPasswordAttempts recvStr MODE_NORMAL_BOOT_MAIN s = some (ok, s1)) ∨
    (s.HMI_status = MODE_NORMAL_BOOT_MAIN ∧ ∃ rx0 request rx1 ok s2,
      awaitSync s.rx = some rx0 ∧ UART_receiveByte rx0 = some (request, rx1) ∧
      ((request = OPEN_DOOR_REQUEST ∧
          confirmPasswordAttempts recvStr MODE_NORMAL_BOOT_MAIN { s with rx := rx1 } =
            some (ok, s2) ∧
          s1 = if ok = true then open_door_sequence s2 else s2) ∨
        (request ≠ OPEN_DOOR_REQUEST ∧
          confirmPasswordAttempts recvStr MODE_FIRST_BOOT { s with rx := rx1 } =
            some (ok, s2) ∧
          s1 = s2))) ∨
    (s.HMI_status = MODE_ALARM_MODE ∧ s1 = control_case_MODE_ALARM_MODE s) ∨
    (s.HMI_status ≠ MODE_FIRST_BOOT ∧ s.HMI_status ≠ MODE_NORMAL_BOOT_LOCKED ∧
      s.HMI_status ≠ MODE_NORMAL_BOOT_MAIN ∧ s.HMI_status ≠ MODE_ALARM_MODE ∧ s1 = s) := by
  unfold control_main_step at h
  by_cases hf : s.HMI_status = MODE_FIRST_BOOT
  · rw [if_pos hf] at h
    refine Or.inl ⟨hf, ?_⟩
    unfold control_case_MODE_FIRST_BOOT at h
    cases h1 : awaitSync s.rx with
    | none => simp [h1] at h
    | some rx1 =>
      simp only [h1] at h
      cases h2 : recvStr s.g_pass_buffer1 rx1 with
      | none => simp [h2] at h
      | some q =>
        obtain ⟨b1, rx2⟩ := q
        simp only [h2] at h
        cases h3 : awaitSync rx2 with
        | none => simp [h3] at h
        | some rx3 =>
          simp only [h3] at h
          cases h4 : recvStr s.g_pass_buffer2 rx3 with
          | none => simp [h4] at h
          | some q2 =>
            obtain ⟨b2, rx4⟩ := q2
            simp only [h4] at h
            exact ⟨b1, b2, rx1, rx2, rx3, rx4, rfl, h2, h3, h4, (Option.some.inj h).symm⟩
  · rw [if_neg hf] at h
    refine Or.inr ?_
    by_cases hl : s.HMI_status = MODE_NORMAL_BOOT_LOCKED
    · rw [if_pos hl] at h
      refine Or.inl ⟨hl, ?_⟩
      cases hc : confirmPasswordAttempts recvStr MODE_NORMAL_BOOT_MAIN s with
      | none => simp [hc] at h
      | some r =>
        obtain ⟨ok, s2⟩ := r
        simp only [hc] at h
        have e : s2 = s1 := Option.some.inj h
        subst e
        exact ⟨ok, rfl⟩
    · rw [if_neg hl] at h
      refine Or.inr ?_
      by_cases hm : s.HMI_status = MODE_NORMAL_BOOT_MAIN
      · rw [if_pos hm] at h
        refine Or.inl ⟨hm, ?_⟩
        unfold control_case_MODE_NORMAL_BOOT_MAIN at h
        cases hs : awaitSync s.rx with
        | none => simp [hs] at h
        | some rx0 =>
          simp only [hs] at h
          cases hr : UART_receiveByte rx0 with
          | none => simp [hr] at h
          | some q =>
            obtain ⟨request, rx1⟩ := q
            simp only [hr] at h
            by_cases ho : request = OPEN_DOOR_REQUEST
            · rw [if_pos ho] at h
              cases hc : confirmPasswordAttempts recvStr MODE_NORMAL_BOOT_MAIN
                  { s with rx := rx1 } with
              | none => simp [hc] at h
              | some r =>
                obtain ⟨ok, s2⟩ := r
                simp only [hc] at h
                refine ⟨rx0, request, rx1, ok, s2, rfl, hr, Or.inl ⟨ho, hc, ?_⟩⟩
                cases ok
                · simpa using h.symm
                · simpa using h.symm
            · rw [if_neg ho] at h
              cases hc : confirmPasswordAttempts recvStr MODE_FIRST_BOOT
                  { s with rx := rx1 } with
              | none => simp [hc] at h
              | some r =>
                obtain ⟨ok, s2⟩ := r
                simp only [hc] at h
                exact ⟨rx0, request, rx1, ok, s2, rfl, hr,
                  Or.inr ⟨ho, hc, (Option.some.inj h).symm⟩⟩
      · rw [if_neg hm] at h
        refine Or.inr ?_
        by_cases ha : s.HMI_status = MODE_ALARM_MODE
        · rw [if_pos ha] at h
          exact Or.inl ⟨ha, (Option.some.inj h).symm⟩
        · rw [if_neg ha] at h
          exact Or.inr ⟨hf, hl, hm, ha, (Option.some.inj h).symm⟩

theorem control_run_succ_right (recvStr : ReceiveString) (n : Nat) (s : Control) :
    control_run recvStr (n + 1) s =
      (control_run recvStr n s).bind (control_main_step recvStr) := by
  rw [control_run_add]
  congr 1
  funext u
  exact control_run_one recvStr u

/-- The mode after a returning pass that started in `FirstBoot`, `MainMenu` or `Alarm` is
one of these three. -/
theorem pass_mode_closed (recvStr : ReceiveString) (s s1 : Control)
    (h : control_main_step recvStr s = some s1)
    (hs : s.HMI_status = MODE_FIRST_BOOT ∨ s.HMI_status = MODE_NORMAL_BOOT_MAIN ∨
      s.HMI_status = MODE_ALARM_MODE) :
    s1.HMI_status = MODE_FIRST_BOOT ∨ s1.HMI_status = MODE_NORMAL_BOOT_MAIN ∨
      s1.HMI_status = MODE_ALARM_MODE := by
  rcases control_main_step_cases recvStr s s1 h with
    ⟨hf, b1, b2, rx1, rx2, rx3, rx4, _, _, _, _, e⟩ | ⟨hl, _⟩ |
    ⟨hm, rx0, request, rx1, ok, s2, _, _, hreq⟩ | ⟨ha, e⟩ | ⟨_, _, _, _, e⟩
  · subst e
    rcases first_boot_decide_cases
      { s with g_pass_buffer1 := b1, g_pass_buffer2 := b2, rx := rx4 } with ⟨_, e⟩ | ⟨_, e⟩
    · rw [e]
      exact Or.inr (Or.inl rfl)
    · rw [e]
      exact Or.inl hf
  · rcases hs with hs | hs | hs <;> rw [hl] at hs <;> exact absurd hs (by decide)
  · rcases hreq with ⟨_, hc, e⟩ | ⟨_, hc, e⟩
    · obtain ⟨_, _, hst⟩ := confirm_frame recvStr _ _ ok s2 hc
      subst e
      cases ok
      · rw [if_neg (by decide), hst]
        exact Or.inr (Or.inr rfl)
      · rw [if_pos rfl, open_door_sequence_trace]
        exact Or.inr (Or.inl hst)
    · obtain ⟨_, _, hst⟩ := confirm_frame recvStr _ _ ok s2 hc
      subst e
      cases ok
      · rw [hst]
        exact Or.inr (Or.inr rfl)
      · rw [hst]
        exact Or.inl rfl
  · subst e
    exact Or.inr (Or.inl rfl)
  · subst e
    exact hs

/-- The mode at the head of the super loop, in a run from power-up. -/
theorem control_run_mode (recvStr : ReceiveString) (rx : List Nat) : ∀ (n : Nat) (s : Control),
    control_run recvStr n (control_boot rx) = some s →
    s.HMI_status = MODE_FIRST_BOOT ∨ s.HMI_status = MODE_NORMAL_BOOT_MAIN ∨
      s.HMI_status = MODE_ALARM_MODE := by
  intro n
  induction n with
  | zero =>
    intro s h
    have e : control_boot rx = s := by simpa [control_run] using h
    subst e
    exact Or.inl rfl
  | succ n ih =>
    intro s h
    rw [control_run_succ_right] at h
    cases hn : control_run recvStr n (control_boot rx) with
    | none => simp [hn] at h
    | some u =>
      rw [hn, Option.some_bind] at h
      exact pass_mode_closed recvStr u s h (ih u hn)

/-- The calls of a returning `confirmPasswordAttempts` are `UART_sendByte` calls only. -/
theorem confirm_sends_only (recvStr : ReceiveString) (t : Nat) (s : Control) (ok : Bool)
    (s1 : Control) (h : confirmPasswordAttempts recvStr t s = some (ok, s1)) :
    ∃ l, s1.trace = s.trace ++ l ∧ motorCommands l = [] ∧ buzzerCommands l = [] := by
  rcases confirm_outcome recvStr t s ok s1 h with
    ⟨_, k, bufs, rx1, _, _, _, _, _, hs⟩ | ⟨_, bufs, rx1, _, _, hs⟩
  · subst hs
    refine ⟨_, rfl, ?_, ?_⟩
    · rw [motorCommands_append, motorCommands_retryReplies]
      rfl
    · rw [buzzerCommands_append, buzzerCommands_retryReplies]
      rfl
  · subst hs
    refine ⟨_, rfl, ?_, ?_⟩
    · rw [motorCommands_append, motorCommands_retryReplies]
      rfl
    · rw [buzzerCommands_append, buzzerCommands_retryReplies]
      rfl

/-- The motor and buzzer commands of one returning pass of the super loop. -/
theorem pass_actuators (recvStr : ReceiveString) (s s1 : Control)
    (h : control_main_step recvStr s = some s1) :
    ∃ l, s1.trace = s.trace ++ l ∧
      (motorCommands l = [] ∨
        motorCommands l = [DcMotor_State.CW, DcMotor_State.STOP, DcMotor_State.ACW,
          DcMotor_State.STOP]) ∧
      (buzzerCommands l = [] ∨ buzzerCommands l = [true, false]) := by
  rcases control_main_step_cases recvStr s s1 h with
    ⟨_, b1, b2, rx1, rx2, rx3, rx4, _, _, _, _, e⟩ | ⟨_, ok, hc⟩ |
    ⟨_, rx0, request, rx1, ok, s2, _, _, hreq⟩ | ⟨_, e⟩ | ⟨_, _, _, _, e⟩
  · subst e
    rcases first_boot_decide_cases
      { s with g_pass_buffer1 := b1, g_pass_buffer2 := b2, rx := rx4 } with ⟨_, e⟩ | ⟨_, e⟩
    · rw [e]
      exact ⟨_, rfl, Or.inl rfl, Or.inl rfl⟩
    · rw [e]
      exact ⟨_, rfl, Or.inl rfl, Or.inl rfl⟩
  · obtain ⟨l, hl, hm, hb⟩ := confirm_sends_only recvStr _ s ok s1 hc
    exact ⟨l, hl, Or.inl hm, Or.inl hb⟩
  · rcases hreq with ⟨_, hc, e⟩ | ⟨_, hc, e⟩
    · obtain ⟨l, hl, hm, hb⟩ := confirm_sends_only recvStr _ _ ok s2 hc
      subst e
      cases ok
      · rw [if_neg (by decide)]
        exact ⟨l, hl, Or.inl hm, Or.inl hb⟩
      · rw [if_pos rfl, open_door_sequence_trace]
        refine ⟨l ++ doorEvents, ?_, Or.inr ?_, Or.inl ?_⟩
        · show s2.trace ++ doorEvents = s.trace ++ (l ++ doorEvents)
          rw [hl]
          exact List.append_assoc _ _ _
        · rw [motorCommands_append, hm]
          rfl
        · rw [buzzerCommands_append, hb]
          rfl
    · obtain ⟨l, hl, hm, hb⟩ := confirm_sends_only recvStr _ _ ok s2 hc
      subst e
      exact ⟨l, hl, Or.inl hm, Or.inl hb⟩
  · subst e
    exact ⟨[Event.Buzzer_ON, Event.delay_sec 60, Event.Buzzer_OFF,
      Event.UART_sendByte SYNC_HANDSHAKE, Event.UART_sendByte MODE_NORMAL_BOOT_MAIN],
      by simp [control_case_MODE_ALARM_MODE, Control.call, Control.UART_sendByte],
      Or.inl rfl, Or.inr rfl⟩
  · subst e
    exact ⟨[], by simp, Or.inl rfl, Or.inl rfl⟩

/-- The last motor command and the last buzzer command at the head of the super loop, in a
run from any state whose last commands, if any, are `STOP` and `Buzzer_OFF`. -/
theorem control_run_actuators (recvStr : ReceiveString) : ∀ (n : Nat) (s0 s : Control),
    control_run recvStr n s0 = some s →
    ((motorCommands s0.trace).getLast? = none ∨
      (motorCommands s0.trace).getLast? = some DcMotor_State.STOP) →
    ((buzzerCommands s0.trace).getLast? = none ∨
      (buzzerCommands s0.trace).getLast? = some false) →
    ((motorCommands s.trace).getLast? = none ∨
      (motorCommands s.trace).getLast? = some DcMotor_State.STOP) ∧
    ((buzzerCommands s.trace).getLast? = none ∨
      (buzzerCommands s.trace).getLast? = some false) := by
  intro n
  induction n with
  | zero =>
    intro s0 s h hm hb
    have e : s0 = s := by simpa [control_run] using h
    subst e
    exact ⟨hm, hb⟩
  | succ n ih =>
    intro s0 s h hm hb
    simp only [control_run] at h
    cases h1 : control_main_step recvStr s0 with
    | none => simp [h1] at h
    | some u =>
      simp only [h1] at h
      obtain ⟨l, hl, hlm, hlb⟩ := pass_actuators recvStr s0 u h1
      refine ih u s h ?_ ?_
      · rw [hl, motorCommands_append]
        rcases hlm with e | e
        · rw [e, List.append_nil]
          exact hm
        · rw [e]
          exact Or.inr (by simp [List.getLast?_append])
      · rw [hl, buzzerCommands_append]
        rcases hlb with e | e
        · rw [e, List.append_nil]
          exact hb
        · rw [e]
          exact Or.inr (by simp [List.getLast?_append])

theorem set_password_loop_length (a g : List Nat) (hlen : 5 ≤ g.length) :
    5 ≤ (set_password_loop a (PASSWORD_LENGTH - 2) 0 g).length := by
  rw [set_password_loop_eq a g hlen]
  simp

/-- A returning pass keeps `g_password` an array of at least five slots. -/
theorem pass_password_length (recvStr : ReceiveString) (s s1 : Control)
    (h : control_main_step recvStr s = some s1) (hlen : 5 ≤ s.g_password.length) :
    5 ≤ s1.g_password.length := by
  by_cases hf : s.HMI_status = MODE_FIRST_BOOT
  · rcases control_main_step_cases recvStr s s1 h with
      ⟨_, b1, b2, rx1, rx2, rx3, rx4, _, _, _, _, e⟩ | ⟨hl, _⟩ | ⟨hm, _⟩ | ⟨ha, _⟩ |
      ⟨hn, _⟩
    · subst e
      rcases first_boot_decide_cases
        { s with g_pass_buffer1 := b1, g_pass_buffer2 := b2, rx := rx4 } with ⟨_, e⟩ | ⟨_, e⟩
      · rw [e]
        exact set_password_loop_length b1 s.g_password hlen
      · rw [e]
        exact hlen
    · rw [hf] at hl
      exact absurd hl (by decide)
    · rw [hf] at hm
      exact absurd hm (by decide)
    · rw [hf] at ha
      exact absurd ha (by decide)
    · exact absurd hf hn
  · rw [(pass_outside_first_boot recvStr s s1 hf h).1]
    exact hlen

theorem control_run_password_length (recvStr : ReceiveString) : ∀ (n : Nat) (s0 s : Control),
    control_run recvStr n s0 = some s → 5 ≤ s0.g_password.length →
    5 ≤ s.g_password.length := by
  intro n
  induction n with
  | zero =>
    intro s0 s h hlen
    have e : s0 = s := by simpa [control_run] using h
    subst e
    exact hlen
  | succ n ih =>
    intro s0 s h hlen
    simp only [control_run] at h
    cases h1 : control_main_step recvStr s0 with
    | none => simp [h1] at h
    | some u =>
      simp only [h1] at h
      exact ih u s h (pass_password_length recvStr s0 u h1 hlen)

/-- A pass that starts in `FirstBoot` and ends elsewhere is a successful enrollment: it ends
in `MainMenu`, has called `set_password` once, and `g_password` agrees with capture #1 on
the five password slots. -/
theorem pass_enrolls (recvStr : ReceiveString) (s s1 : Control)
    (h : control_main_step recvStr s = some s1) (hf : s.HMI_status = MODE_FIRST_BOOT)
    (hne : s1.HMI_status ≠ MODE_FIRST_BOOT) (hlen : 5 ≤ s.g_password.length) :
    s1.HMI_status = MODE_NORMAL_BOOT_MAIN ∧ setPasswordCalls (passCalls s s1) = 1 ∧
    ∃ rx1 b1 rx2, awaitSync s.rx = some rx1 ∧
      recvStr s.g_pass_buffer1 rx1 = some (b1, rx2) ∧
      ∀ i, i < 5 → s1.g_password.getD i 0 = b1.getD i 0 := by
  rcases control_main_step_cases recvStr s s1 h with
    ⟨_, b1, b2, rx1, rx2, rx3, rx4, h1, h2, _, _, e⟩ | ⟨hl, _⟩ | ⟨hm, _⟩ | ⟨ha, _⟩ |
    ⟨hn, _⟩
  · subst e
    rcases first_boot_decide_cases
      { s with g_pass_buffer1 := b1, g_pass_buffer2 := b2, rx := rx4 } with ⟨_, e⟩ | ⟨_, e⟩
    · rw [e]
      refine ⟨rfl, ?_, rx1, b1, rx2, h1, h2, ?_⟩
      · rw [passCalls_of_append s _ _ rfl]
        rfl
      · exact set_password_loop_matches5 b1 s.g_password hlen
    · rw [e] at hne
      exact absurd hf hne
  · rw [hf] at hl
    exact absurd hl (by decide)
  · rw [hf] at hm
    exact absurd hm (by decide)
  · rw [hf] at ha
    exact absurd ha (by decide)
  · exact absurd hf hn

/-- Outside `FirstBoot`, at the head of the super loop, `g_password` holds capture #1 of the
most recent successful enrollment. -/
theorem control_run_enrolled (recvStr : ReceiveString) (rx : List Nat) :
    ∀ (n : Nat) (s : Control), control_run recvStr n (control_boot rx) = some s →
    s.HMI_status ≠ MODE_FIRST_BOOT →
    ∃ j sj sj1 rx1 b1 rx2, j < n ∧
      control_run recvStr j (control_boot rx) = some sj ∧
      control_main_step recvStr sj = some sj1 ∧
      sj.HMI_status = MODE_FIRST_BOOT ∧ sj1.HMI_status = MODE_NORMAL_BOOT_MAIN ∧
      awaitSync sj.rx = some rx1 ∧ recvStr sj.g_pass_buffer1 rx1 = some (b1, rx2) ∧
      setPasswordCalls (passCalls sj sj1) = 1 ∧
      (∀ i, i < 5 → s.g_password.getD i 0 = b1.getD i 0) ∧
      ∀ m sm sm1, j < m → m < n → control_run recvStr m (control_boot rx) = some sm →
        control_main_step recvStr sm = some sm1 →
        setPasswordCalls (passCalls sm sm1) = 0 ∧ sm1.g_password = sm.g_password := by
  intro n
  induction n with
  | zero =>
    intro s h hne
    have e : control_boot rx = s := by simpa [control_run] using h
    subst e
    exact absurd rfl hne
  | succ n ih =>
    intro s h hne
    rw [control_run_succ_right] at h
    cases hn : control_run recvStr n (control_boot rx) with
    | none => simp [hn] at h
    | some u =>
      rw [hn, Option.some_bind] at h
      by_cases hf : u.HMI_status = MODE_FIRST_BOOT
      · have hlen := control_run_password_length recvStr n (control_boot rx) u hn
          (by show 5 ≤ 7; omega)
        obtain ⟨hm, hc, rx1, b1, rx2, h1, h2, h5⟩ := pass_enrolls recvStr u s h hf hne hlen
        exact ⟨n, u, s, rx1, b1, rx2, by omega, hn, h, hf, hm, h1, h2, hc, h5,
          fun m sm sm1 hjm hmn _ _ => by omega⟩
      · obtain ⟨j, sj, sj1, rx1, b1, rx2, hj, hrj, hsj, hfj, hmj, h1, h2, hc, h5, hrec⟩ :=
          ih u hn hf
        obtain ⟨hg, hw, _⟩ := pass_outside_first_boot recvStr u s hf h
        refine ⟨j, sj, sj1, rx1, b1, rx2, by omega, hrj, hsj, hfj, hmj, h1, h2, hc, ?_, ?_⟩
        · intro i hi
          rw [hg]
          exact h5 i hi
        · intro m sm sm1 hjm hmn hrm hsm
          by_cases hmn2 : m < n
          · exact hrec m sm sm1 hjm hmn2 hrm hsm
          · have e : m = n := by omega
            subst e
            rw [hn] at hrm
            have e2 : u = sm := Option.some.inj hrm
            subst e2
            rw [h] at hsm
            have e3 : s = sm1 := Option.some.inj hsm
            subst e3
            exact ⟨hw, hg⟩

theorem sends_only_retryReplies (n : Nat) :
    ∀ e, e ∈ retryReplies n → ∃ d, e = Event.UART_sendByte d := by
  induction n with
  | zero => intro e he; simp [retryReplies] at he
  | succ n ih =>
    intro e he
    rw [retryReplies, List.mem_append] at he
    rcases he with he | he
    · simp only [retryReply, List.mem_cons, List.mem_singleton, List.not_mem_nil,
        or_false] at he
      rcases he with he | he
      · exact ⟨_, he⟩
      · exact ⟨_, he⟩
    · exact ih e he

/-- What a returning `confirmPasswordAttempts` leaves unchanged. -/
theorem confirm_changes (recvStr : ReceiveString) (t : Nat) (s : Control) (ok : Bool)
    (s1 : Control) (h : confirmPasswordAttempts recvStr t s = some (ok, s1)) :
    s1.g_password = s.g_password ∧ s1.g_pass_buffer2 = s.g_pass_buffer2 ∧
    ∃ l, s1.trace = s.trace ++ l ∧ ∀ e, e ∈ l → ∃ d, e = Event.UART_sendByte d := by
  rcases confirm_outcome recvStr t s ok s1 h with
    ⟨_, k, bufs, rx1, _, _, _, _, _, hs⟩ | ⟨_, bufs, rx1, _, _, hs⟩
  · subst hs
    refine ⟨rfl, rfl, _, rfl, fun e he => ?_⟩
    rw [List.mem_append] at he
    rcases he with he | he
    · exact sends_only_retryReplies _ e he
    · simp only [List.mem_cons, List.mem_singleton, List.not_mem_nil, or_false] at he
      rcases he with he | he
      · exact ⟨_, he⟩
      · exact ⟨_, he⟩
  · subst hs
    refine ⟨rfl, rfl, _, rfl, fun e he => ?_⟩
    rw [List.mem_append] at he
    rcases he with he | he
    · exact sends_only_retryReplies _ e he
    · simp only [List.mem_cons, List.mem_singleton, List.not_mem_nil, or_false] at he
      rcases he with he | he
      · exact ⟨_, he⟩
      · exact ⟨_, he⟩

theorem replayEeprom_sends_only (l : List Event)
    (h : ∀ e, e ∈ l → ∃ d, e = Event.UART_sendByte d) (b : EepromBus) :
    replayEeprom l b = ([], b) := by
  induction l with
  | nil => rfl
  | cons e l ih =>
    obtain ⟨d, hd⟩ := h e (List.mem_cons_self _ _)
    subst hd
    simp only [replayEeprom]
    exact ih (fun e he => h e (List.mem_cons_of_mem _ he))

theorem setPasswordCalls_sends_only (l : List Event)
    (h : ∀ e, e ∈ l → ∃ d, e = Event.UART_sendByte d) : setPasswordCalls l = 0 := by
  induction l with
  | nil => rfl
  | cons e l ih =>
    obtain ⟨d, hd⟩ := h e (List.mem_cons_self _ _)
    subst hd
    simp only [setPasswordCalls]
    exact ih (fun e he => h e (List.mem_cons_of_mem _ he))

/-- One step of `firstMatch`. -/
theorem firstMatch_succ (recvStr : ReceiveString) (g : List Nat) (n : Nat)
    (buf rx : List Nat) (r : Option Nat)
    (h : firstMatch recvStr g (n + 1) buf rx = some r) :
    ∃ rx1 b rx2, awaitSync rx = some rx1 ∧ recvStr buf rx1 = some (b, rx2) ∧
      ((matches5 b g ∧ r = some 0) ∨
        (¬ matches5 b g ∧ ∃ r1, firstMatch recvStr g n b rx2 = some r1 ∧
          r = r1.map (fun k => k + 1))) := by
  rw [firstMatch] at h
  cases h1 : awaitSync rx with
  | none => simp [h1] at h
  | some rx1 =>
    simp only [h1] at h
    cases h2 : recvStr buf rx1 with
    | none => simp [h2] at h
    | some q =>
      obtain ⟨b, rx2⟩ := q
      simp only [h2] at h
      refine ⟨rx1, b, rx2, rfl, h2, ?_⟩
      by_cases hm : matches5 b g
      · rw [if_pos ((pass_compare_iff b g).2 hm)] at h
        exact Or.inl ⟨hm, (Option.some.inj h).symm⟩
      · have hp : ¬ pass_compare b g = true := fun hp => hm ((pass_compare_iff b g).1 hp)
        rw [if_neg hp] at h
        refine Or.inr ⟨hm, ?_⟩
        cases h3 : firstMatch recvStr g n b rx2 with
        | none => simp [h3] at h
        | some r1 =>
          cases r1 with
          | none =>
            simp only [h3] at h
            exact ⟨none, rfl, (Option.some.inj h).symm⟩
          | some k =>
            simp only [h3] at h
            exact ⟨some k, rfl, (Option.some.inj h).symm⟩

/-- The routine `confirmPasswordAttempts` by the index of the first matching attempt. -/
theorem confirm_of_firstMatch (recvStr : ReceiveString) (t : Nat) (s : Control)
    (r : Option Nat)
    (h : firstMatch recvStr s.g_password 3 s.g_pass_buffer1 s.rx = some r) :
    ∃ s1, confirmPasswordAttempts recvStr t s = some (r.isSome, s1) ∧
      s1.HMI_status = (if r.isSome = true then t else MODE_ALARM_MODE) ∧
      s1.trace = s.trace ++ confirmReplies t r := by
  obtain ⟨rx1, b1, rx2, ha1, hb1, hc1⟩ := firstMatch_succ recvStr _ 2 _ _ r h
  rcases hc1 with ⟨hm1, hr⟩ | ⟨hm1, r1, h1, hr⟩
  · subst hr
    exact ⟨_, confirm_loop_hit recvStr t 3 0 s rx1 b1 rx2 (by omega) ha1 hb1 hm1, rfl, rfl⟩
  · have e1 := confirm_loop_miss recvStr t 3 0 s rx1 b1 rx2 (by omega) ha1 hb1 hm1
    obtain ⟨rx3, b2, rx4, ha2, hb2, hc2⟩ := firstMatch_succ recvStr _ 1 _ _ r1 h1
    rcases hc2 with ⟨hm2, hr1⟩ | ⟨hm2, r2, h2, hr1⟩
    · subst hr1
      subst hr
      refine ⟨_, e1.trans (confirm_loop_hit recvStr t 2 1 _ rx3 b2 rx4 (by omega) ha2 hb2
        hm2), rfl, ?_⟩
      simp [confirmReplies, retryReplies, List.append_assoc]
    · have e2 := confirm_loop_miss recvStr t 2 1
        { s with g_pass_buffer1 := b1, rx := rx2, HMI_status := MODE_NORMAL_BOOT_LOCKED,
                 trace := s.trace ++ retryReply } rx3 b2 rx4 (by omega) ha2 hb2 hm2
      obtain ⟨rx5, b3, rx6, ha3, hb3, hc3⟩ := firstMatch_succ recvStr _ 0 _ _ r2 h2
      rcases hc3 with ⟨hm3, hr2⟩ | ⟨hm3, r3, h3, hr2⟩
      · subst hr2
        subst hr1
        subst hr
        refine ⟨_, e1.trans (e2.trans (confirm_loop_hit recvStr t 1 2 _ rx5 b3 rx6
          (by omega) ha3 hb3 hm3)), rfl, ?_⟩
        simp [confirmReplies, retryReplies, List.append_assoc]
      · have e0 : r3 = none := by
          rw [firstMatch] at h3
          exact (Option.some.inj h3).symm
        subst e0
        subst hr2
        subst hr1
        subst hr
        refine ⟨_, e1.trans (e2.trans (confirm_loop_miss_last recvStr t 0 _ rx5 b3 rx6
          ha3 hb3 hm3)), rfl, ?_⟩
        simp [confirmReplies, retryReplies, List.append_assoc]

/-! ## Bounded authentication on the back node -/

/-- C1: when the first of the received attempt buffers that agrees with the stored password
on its five password bytes is the `k`-th, `1 ≤ k ≤ 3`, `confirmPasswordAttempts t` returns
`TRUE` after exactly `k` receptions (the pending bytes are those left by the `k`-th), the
mode is `t`, `g_pass_buffer1` holds the `k`-th attempt, nothing else changes, and the calls
made are `k - 1` times (send `ERROR`, send `Locked`) followed by send `SUCCESS`, send `t`. -/
theorem confirmPasswordAttempts_success (recvStr : ReceiveString) (t : Nat) (s : Control)
    (k : Nat) (bufs : List (List Nat)) (rx' : List Nat)
    (hk1 : 1 ≤ k) (hk3 : k ≤ MAX_PASSWORD_TRIES)
    (hrecv : receiveAttempts recvStr k s.g_pass_buffer1 s.rx = some (bufs, rx'))
    (hmiss : ∀ j, j + 1 < k → ¬ matches5 (bufs.getD j []) s.g_password)
    (hhit : matches5 (bufs.getD (k - 1) []) s.g_password) :
    confirmPasswordAttempts recvStr t s =
      some (true, { s with g_pass_buffer1 := bufs.getD (k - 1) [], rx := rx', HMI_status := t,
                           trace := s.trace ++ (retryReplies (k - 1) ++
                             [Event.UART_sendByte SUCCESS, Event.UART_sendByte t]) }) :=
  confirm_success_of_receive recvStr t s k bufs rx' hk1 hk3 hrecv hmiss hhit

/-- Witness of C1 (Scenario 5): password `"12345"`, attempts `"99999#"` then `"12345#"`,
target `FirstBoot`: success on the second attempt, replies `0x00 0x00 0x01 0xFF`. -/
theorem confirmPasswordAttempts_success_witness :
    confirmPasswordAttempts receiveUntilEOS MODE_FIRST_BOOT exampleControl =
      some (true, { exampleControl with
        g_pass_buffer1 := [49, 50, 51, 52, 53, 35, 0], rx := [],
        HMI_status := MODE_FIRST_BOOT,
        trace := [Event.UART_sendByte 0, Event.UART_sendByte 0,
                  Event.UART_sendByte 1, Event.UART_sendByte 0xFF] }) :=
  confirmPasswordAttempts_success receiveUntilEOS MODE_FIRST_BOOT exampleControl 2
    [[57, 57, 57, 57, 57, 35, 0], [49, 50, 51, 52, 53, 35, 0]] []
    (by decide) (by decide) (by decide)
    (fun j hj => by
      have hj0 : j = 0 := by omega
      subst hj0
      decide)
    (by decide)

/-- C2: when none of the first three received attempt buffers agrees with the stored
password on its five password bytes, `confirmPasswordAttempts t` returns `FALSE` after
exactly three receptions, the mode is `Alarm`, and the calls made are the six sends
`ERROR, Locked, ERROR, Locked, ERROR, Alarm`. -/
theorem confirmPasswordAttempts_alarm (recvStr : ReceiveString) (t : Nat) (s : Control)
    (bufs : List (List Nat)) (rx' : List Nat)
    (hrecv : receiveAttempts recvStr MAX_PASSWORD_TRIES s.g_pass_buffer1 s.rx =
      some (bufs, rx'))
    (hmiss : ∀ j, j < MAX_PASSWORD_TRIES → ¬ matches5 (bufs.getD j []) s.g_password) :
    confirmPasswordAttempts recvStr t s =
      some (false, { s with g_pass_buffer1 := bufs.getD 2 [], rx := rx',
                            HMI_status := MODE_ALARM_MODE,
                            trace := s.trace ++
                              [Event.UART_sendByte ERROR,
                               Event.UART_sendByte MODE_NORMAL_BOOT_LOCKED,
                               Event.UART_sendByte ERROR,
                               Event.UART_sendByte MODE_NORMAL_BOOT_LOCKED,
                               Event.UART_sendByte ERROR,
                               Event.UART_sendByte MODE_ALARM_MODE] }) :=
  confirm_alarm_of_receive recvStr t s bufs rx' hrecv hmiss

/-- Witness of C2 (Scenario 3): password `"12345"`, attempts `"99999#"`, `"12346#"`,
`"00000#"`: failure, mode `Alarm`, replies `0x00 0x00 0x00 0x00 0x00 0x03`. -/
theorem confirmPasswordAttempts_alarm_witness :
    confirmPasswordAttempts receiveUntilEOS MODE_NORMAL_BOOT_MAIN exampleControlWrong =
      some (false, { exampleControlWrong with
        g_pass_buffer1 := [48, 48, 48, 48, 48, 35, 0], rx := [],
        HMI_status := MODE_ALARM_MODE,
        trace := [Event.UART_sendByte 0, Event.UART_sendByte 0,
                  Event.UART_sendByte 0, Event.UART_sendByte 0,
                  Event.UART_sendByte 0, Event.UART_sendByte 3] }) :=
  confirmPasswordAttempts_alarm receiveUntilEOS MODE_NORMAL_BOOT_MAIN exampleControlWrong
    [[57, 57, 57, 57, 57, 35, 0], [49, 50, 51, 52, 54, 35, 0], [48, 48, 48, 48, 48, 35, 0]] []
    (by decide)
    (fun j hj => by
      have hj3 : j = 0 ∨ j = 1 ∨ j = 2 := by simp only [MAX_PASSWORD_TRIES] at hj; omega
      rcases hj3 with h | h | h <;> subst h <;> decide)

/-! ## Enrollment on the back node -/

/-- C3: in `FirstBoot`, with `b1` and `b2` the contents of the two arrays after the two
receptions, the back node's pass returns, and it (replies `SYNC`, `SUCCESS`, sets the mode
to `MainMenu` and makes `g_password[0..4]` equal to `b1[0..4]`) if and only if `b1` and
`b2` agree on the five password bytes; otherwise it replies `SYNC`, `ERROR`. -/
theorem first_boot_enrollment_iff (recvStr : ReceiveString) (s : Control)
    (b1 b2 rx1 rx2 rx3 rx4 : List Nat) (hmode : s.HMI_status = MODE_FIRST_BOOT)
    (hlen : s.g_password.length = PASSWORD_LENGTH)
    (h1 : awaitSync s.rx = some rx1) (h2 : recvStr s.g_pass_buffer1 rx1 = some (b1, rx2))
    (h3 : awaitSync rx2 = some rx3) (h4 : recvStr s.g_pass_buffer2 rx3 = some (b2, rx4)) :
    ∃ s', control_main_step recvStr s = some s' ∧
      s'.g_pass_buffer1 = b1 ∧ s'.g_pass_buffer2 = b2 ∧
      ((txBytes (s'.trace.drop s.trace.length) = [SYNC_HANDSHAKE, SUCCESS] ∧
          s'.HMI_status = MODE_NORMAL_BOOT_MAIN ∧ matches5 s'.g_password b1) ↔
        ∀ i, i < 5 → b1.getD i 0 = b2.getD i 0) ∧
      ((¬ ∀ i, i < 5 → b1.getD i 0 = b2.getD i 0) →
        txBytes (s'.trace.drop s.trace.length) = [SYNC_HANDSHAKE, ERROR]) := by
  refine ⟨_, control_first_boot_eq recvStr s b1 b2 rx1 rx2 rx3 rx4 hmode h1 h2 h3 h4, ?_⟩
  have hlen5 : 5 ≤ s.g_password.length := by rw [hlen]; decide
  by_cases hm : matches5 b1 b2
  · have hp := (pass_compare_iff b1 b2).2 hm
    have hset := set_password_loop_matches5 b1 s.g_password hlen5
    simp only [first_boot_decide, hp, if_true, set_password, Control.call,
      Control.UART_sendByte, List.append_assoc, List.drop_left, List.singleton_append,
      txBytes, true_and]
    exact ⟨⟨fun _ => hm, fun _ => hset⟩, fun hn => absurd hm hn⟩
  · have hp := (pass_compare_false_iff b1 b2).2 hm
    simp only [first_boot_decide, hp, Bool.false_eq_true, if_false, Control.UART_sendByte,
      List.append_assoc, List.drop_left, List.singleton_append, txBytes, true_and]
    refine ⟨⟨fun h => ?_, fun h => absurd h hm⟩, fun _ => trivial⟩
    have h0 := h.1
    simp [SUCCESS, ERROR] at h0

/-- Witness of C3 (Scenario 1): the captures `"12345#"` and `"12345#"`. -/
theorem first_boot_enrollment_iff_witness :
    ∃ s', control_main_step receiveUntilEOS exampleEnroll = some s' ∧
      s'.g_pass_buffer1 = [49, 50, 51, 52, 53, 35, 0] ∧
      s'.g_pass_buffer2 = [49, 50, 51, 52, 53, 35, 0] ∧
      ((txBytes (s'.trace.drop exampleEnroll.trace.length) = [SYNC_HANDSHAKE, SUCCESS] ∧
          s'.HMI_status = MODE_NORMAL_BOOT_MAIN ∧
          matches5 s'.g_password [49, 50, 51, 52, 53, 35, 0]) ↔
        ∀ i, i < 5 → [49, 50, 51, 52, 53, 35, 0].getD i 0 =
          [49, 50, 51, 52, 53, 35, 0].getD i 0) ∧
      ((¬ ∀ i, i < 5 → [49, 50, 51, 52, 53, 35, 0].getD i 0 =
          [49, 50, 51, 52, 53, 35, 0].getD i 0) →
        txBytes (s'.trace.drop exampleEnroll.trace.length) = [SYNC_HANDSHAKE, ERROR]) :=
  first_boot_enrollment_iff receiveUntilEOS exampleEnroll
    [49, 50, 51, 52, 53, 35, 0] [49, 50, 51, 52, 53, 35, 0]
    [49, 50, 51, 52, 53, 35, 0xED, 49, 50, 51, 52, 53, 35]
    [0xED, 49, 50, 51, 52, 53, 35] [49, 50, 51, 52, 53, 35] []
    (by decide) (by decide) (by decide) (by decide) (by decide) (by decide)

/-- C4: in `FirstBoot`, when the two captures `b1` and `b2` differ at an index `i < 5`, the
back node's pass returns with the mode still `FirstBoot`, `g_password` unchanged, and the
two sends `SYNC`, `ERROR` as its only calls (no EEPROM write); apart from the two arrays
and the consumed bytes, the state is the one before the pass. -/
theorem first_boot_mismatch_atomic (recvStr : ReceiveString) (s : Control)
    (b1 b2 rx1 rx2 rx3 rx4 : List Nat) (i : Nat) (hmode : s.HMI_status = MODE_FIRST_BOOT)
    (h1 : awaitSync s.rx = some rx1) (h2 : recvStr s.g_pass_buffer1 rx1 = some (b1, rx2))
    (h3 : awaitSync rx2 = some rx3) (h4 : recvStr s.g_pass_buffer2 rx3 = some (b2, rx4))
    (hi : i < 5) (hne : b1.getD i 0 ≠ b2.getD i 0) :
    control_main_step recvStr s =
      some { g_password := s.g_password, g_pass_buffer1 := b1, g_pass_buffer2 := b2,
             HMI_status := MODE_FIRST_BOOT, rx := rx4,
             trace := s.trace ++ [Event.UART_sendByte SYNC_HANDSHAKE,
               Event.UART_sendByte ERROR] } := by
  rw [control_first_boot_eq recvStr s b1 b2 rx1 rx2 rx3 rx4 hmode h1 h2 h3 h4]
  have hm : ¬ matches5 b1 b2 := fun h => hne (h i hi)
  have hp := (pass_compare_false_iff b1 b2).2 hm
  simp [first_boot_decide, hp, Control.UART_sendByte, hmode]

/-- Witness of C4 (Scenario 2): the captures `"12345#"` and `"54321#"`. -/
theorem first_boot_mismatch_atomic_witness :
    control_main_step receiveUntilEOS exampleEnrollMismatch =
      some { g_password := zeroBuffer, g_pass_buffer1 := [49, 50, 51, 52, 53, 35, 0],
             g_pass_buffer2 := [53, 52, 51, 50, 49, 35, 0],
             HMI_status := MODE_FIRST_BOOT, rx := [],
             trace := [Event.UART_sendByte SYNC_HANDSHAKE, Event.UART_sendByte ERROR] } :=
  first_boot_mismatch_atomic receiveUntilEOS exampleEnrollMismatch
    [49, 50, 51, 52, 53, 35, 0] [53, 52, 51, 50, 49, 35, 0]
    [49, 50, 51, 52, 53, 35, 0xED, 53, 52, 51, 50, 49, 35]
    [0xED, 53, 52, 51, 50, 49, 35] [53, 52, 51, 50, 49, 35] [] 0
    (by decide) (by decide) (by decide) (by decide) (by decide) (by decide) (by decide)

/-! ## The back node in `MainMenu` and `Alarm` -/

/-- C5: in a `MainMenu` pass of the back node that reads the request byte `request`: when
the pass returns, a motor command is among its calls only if `request` is
`OPEN_DOOR_REQUEST` and one of at most three received attempts agrees with the stored
password; and when it ends in `Alarm`, or `request` is not the open-door code, the pass
issues no motor command and sends no `SYNC` byte. A pass that never returns is blocked
inside the authentication, which precedes every motor command. -/
theorem main_menu_motor_safety (recvStr : ReceiveString) (s : Control) (rx1 : List Nat)
    (request : Nat) (rx2 : List Nat) (hmode : s.HMI_status = MODE_NORMAL_BOOT_MAIN)
    (hsync : awaitSync s.rx = some rx1) (hreq : UART_receiveByte rx1 = some (request, rx2)) :
    (∀ s', control_main_step recvStr s = some s' →
      (motorCommands (s'.trace.drop s.trace.length) ≠ [] →
        request = OPEN_DOOR_REQUEST ∧ ∃ k bufs rx', 1 ≤ k ∧ k ≤ MAX_PASSWORD_TRIES ∧
          receiveAttempts recvStr k s.g_pass_buffer1 rx2 = some (bufs, rx') ∧
          matches5 (bufs.getD (k - 1) []) s.g_password) ∧
      ((s'.HMI_status = MODE_ALARM_MODE ∨ request ≠ OPEN_DOOR_REQUEST) →
        motorCommands (s'.trace.drop s.trace.length) = [] ∧
        SYNC_HANDSHAKE ∉ txBytes (s'.trace.drop s.trace.length))) ∧
    (control_main_step recvStr s = none →
      confirmPasswordAttempts recvStr
        (if request = OPEN_DOOR_REQUEST then MODE_NORMAL_BOOT_MAIN else MODE_FIRST_BOOT)
        { s with rx := rx2 } = none) := by
  refine ⟨fun s' hstep => ?_, fun hnone => ?_⟩
  rotate_left
  · rw [control_main_menu_eq recvStr s rx1 request rx2 hmode hsync hreq] at hnone
    by_cases hr : request = OPEN_DOOR_REQUEST
    · simp only [hr, if_true] at hnone ⊢
      cases hc : confirmPasswordAttempts recvStr MODE_NORMAL_BOOT_MAIN { s with rx := rx2 } with
      | none => rfl
      | some p =>
        obtain ⟨ok, s2⟩ := p
        cases ok <;> simp [hc] at hnone
    · simp only [hr, if_false] at hnone ⊢
      cases hc : confirmPasswordAttempts recvStr MODE_FIRST_BOOT { s with rx := rx2 } with
      | none => rfl
      | some p => simp [hc] at hnone
  · rw [control_main_menu_eq recvStr s rx1 request rx2 hmode hsync hreq] at hstep
    by_cases hr : request = OPEN_DOOR_REQUEST
    · simp only [hr, if_true] at hstep
      cases hc : confirmPasswordAttempts recvStr MODE_NORMAL_BOOT_MAIN { s with rx := rx2 } with
      | none => simp [hc] at hstep
      | some p =>
        obtain ⟨ok, s2⟩ := p
        rcases confirm_outcome _ _ _ _ _ hc with
          ⟨hok, k, bufs, rx', hk1, hk3, hrecv, _, hhit, hs2⟩ | ⟨hok, bufs, rx', _, _, hs2⟩
        · subst hok
          simp only [hc, Option.some.injEq] at hstep
          subst hstep
          subst hs2
          refine ⟨fun _ => ⟨hr, k, bufs, rx', hk1, hk3, hrecv, hhit⟩, fun h => ?_⟩
          rcases h with h | h
          · simp [open_door_sequence_trace, MODE_NORMAL_BOOT_MAIN, MODE_ALARM_MODE] at h
          · exact absurd hr h
        · subst hok
          simp only [hc, Option.some.injEq] at hstep
          subst hstep
          subst hs2
          have hm : motorCommands (retryReplies 2 ++ [Event.UART_sendByte ERROR,
              Event.UART_sendByte MODE_ALARM_MODE]) = [] := by
            simp [motorCommands_append, motorCommands_retryReplies, motorCommands]
          simp only [List.drop_left]
          refine ⟨fun h => absurd hm h, fun _ => ⟨hm, ?_⟩⟩
          simp [txBytes_append, txBytes_retryReplies, txBytes, SYNC_HANDSHAKE, ERROR,
            MODE_ALARM_MODE, MODE_NORMAL_BOOT_LOCKED]
    · simp only [hr, if_false] at hstep
      cases hc : confirmPasswordAttempts recvStr MODE_FIRST_BOOT { s with rx := rx2 } with
      | none => simp [hc] at hstep
      | some p =>
        obtain ⟨ok, s2⟩ := p
        simp only [hc, Option.some.injEq] at hstep
        subst hstep
        rcases confirm_outcome _ _ _ _ _ hc with
          ⟨_, k, bufs, rx', _, _, _, _, _, hs2⟩ | ⟨_, bufs, rx', _, _, hs2⟩
        · subst hs2
          have hm : motorCommands (retryReplies (k - 1) ++ [Event.UART_sendByte SUCCESS,
              Event.UART_sendByte MODE_FIRST_BOOT]) = [] := by
            simp [motorCommands_append, motorCommands_retryReplies, motorCommands]
          simp only [List.drop_left]
          refine ⟨fun h => absurd hm h, fun _ => ⟨hm, ?_⟩⟩
          simp [txBytes_append, txBytes_retryReplies, txBytes, SYNC_HANDSHAKE, SUCCESS,
            MODE_FIRST_BOOT]
        · subst hs2
          have hm : motorCommands (retryReplies 2 ++ [Event.UART_sendByte ERROR,
              Event.UART_sendByte MODE_ALARM_MODE]) = [] := by
            simp [motorCommands_append, motorCommands_retryReplies, motorCommands]
          simp only [List.drop_left]
          refine ⟨fun h => absurd hm h, fun _ => ⟨hm, ?_⟩⟩
          simp [txBytes_append, txBytes_retryReplies, txBytes, SYNC_HANDSHAKE, ERROR,
            MODE_ALARM_MODE, MODE_NORMAL_BOOT_LOCKED]

/-- Witness of C5: password `"12345"`, open-door request, correct first attempt. -/
theorem main_menu_motor_safety_witness :
    (∀ s', control_main_step receiveUntilEOS exampleOpenDoor = some s' →
      (motorCommands (s'.trace.drop exampleOpenDoor.trace.length) ≠ [] →
        4 = OPEN_DOOR_REQUEST ∧ ∃ k bufs rx', 1 ≤ k ∧ k ≤ MAX_PASSWORD_TRIES ∧
          receiveAttempts receiveUntilEOS k exampleOpenDoor.g_pass_buffer1
            [0xED, 49, 50, 51, 52, 53, 35] = some (bufs, rx') ∧
          matches5 (bufs.getD (k - 1) []) exampleOpenDoor.g_password) ∧
      ((s'.HMI_status = MODE_ALARM_MODE ∨ 4 ≠ OPEN_DOOR_REQUEST) →
        motorCommands (s'.trace.drop exampleOpenDoor.trace.length) = [] ∧
        SYNC_HANDSHAKE ∉ txBytes (s'.trace.drop exampleOpenDoor.trace.length))) ∧
    (control_main_step receiveUntilEOS exampleOpenDoor = none →
      confirmPasswordAttempts receiveUntilEOS
        (if 4 = OPEN_DOOR_REQUEST then MODE_NORMAL_BOOT_MAIN else MODE_FIRST_BOOT)
        { exampleOpenDoor with rx := [0xED, 49, 50, 51, 52, 53, 35] } = none) :=
  main_menu_motor_safety receiveUntilEOS exampleOpenDoor
    [4, 0xED, 49, 50, 51, 52, 53, 35] 4 [0xED, 49, 50, 51, 52, 53, 35]
    (by decide) (by decide) (by decide)

/-- C6: when the back node in `MainMenu` receives the sync byte and `OPEN_DOOR_REQUEST` and
the authentication succeeds (on the `k`-th attempt), the pass returns and its calls after
the replies of the authentication (which end with send `SUCCESS`, send `MainMenu`) are, in
this order: motor `CW`, `delay_sec(15)`, motor `STOP`, `delay_sec(3)`, send `SYNC`, motor
`ACW`, `delay_sec(15)`, motor `STOP`, send `SYNC`. The pass sends exactly two `SYNC` bytes
and its last motor command is `STOP`. -/
theorem open_door_events (recvStr : ReceiveString) (s : Control) (rx1 rx2 : List Nat)
    (k : Nat) (bufs : List (List Nat)) (rx' : List Nat)
    (hmode : s.HMI_status = MODE_NORMAL_BOOT_MAIN)
    (hsync : awaitSync s.rx = some rx1)
    (hreq : UART_receiveByte rx1 = some (OPEN_DOOR_REQUEST, rx2))
    (hk1 : 1 ≤ k) (hk3 : k ≤ MAX_PASSWORD_TRIES)
    (hrecv : receiveAttempts recvStr k s.g_pass_buffer1 rx2 = some (bufs, rx'))
    (hmiss : ∀ j, j + 1 < k → ¬ matches5 (bufs.getD j []) s.g_password)
    (hhit : matches5 (bufs.getD (k - 1) []) s.g_password) :
    ∃ s', control_main_step recvStr s = some s' ∧
      s'.trace = (s.trace ++ (retryReplies (k - 1) ++
          [Event.UART_sendByte SUCCESS, Event.UART_sendByte MODE_NORMAL_BOOT_MAIN])) ++
        [Event.DcMotor_Rotate DcMotor_State.CW, Event.delay_sec 15,
         Event.DcMotor_Rotate DcMotor_State.STOP, Event.delay_sec 3,
         Event.UART_sendByte SYNC_HANDSHAKE,
         Event.DcMotor_Rotate DcMotor_State.ACW, Event.delay_sec 15,
         Event.DcMotor_Rotate DcMotor_State.STOP, Event.UART_sendByte SYNC_HANDSHAKE] ∧
      (txBytes (s'.trace.drop s.trace.length)).count SYNC_HANDSHAKE = 2 ∧
      (motorCommands (s'.trace.drop s.trace.length)).getLast? = some DcMotor_State.STOP := by
  have hc := confirm_success_of_receive recvStr MODE_NORMAL_BOOT_MAIN { s with rx := rx2 } k
    bufs rx' hk1 hk3 hrecv hmiss hhit
  rw [control_main_menu_eq recvStr s rx1 OPEN_DOOR_REQUEST rx2 hmode hsync hreq]
  simp only [if_true, hc, open_door_sequence_trace]
  refine ⟨_, rfl, rfl, ?_, ?_⟩
  · simp only [List.append_assoc, List.drop_left, txBytes_append, txBytes_retryReplies]
    simp [txBytes, doorEvents, SYNC_HANDSHAKE, SUCCESS, MODE_NORMAL_BOOT_MAIN, List.count_replicate]
  · simp only [List.append_assoc, List.drop_left, motorCommands_append,
      motorCommands_retryReplies]
    simp [motorCommands, doorEvents]

/-- Witness of C6 (Scenario 4): password `"12345"`, open-door request, correct first
attempt. -/
theorem open_door_events_witness :
    ∃ s', control_main_step receiveUntilEOS exampleOpenDoor = some s' ∧
      s'.trace = (exampleOpenDoor.trace ++ (retryReplies (1 - 1) ++
          [Event.UART_sendByte SUCCESS, Event.UART_sendByte MODE_NORMAL_BOOT_MAIN])) ++
        [Event.DcMotor_Rotate DcMotor_State.CW, Event.delay_sec 15,
         Event.DcMotor_Rotate DcMotor_State.STOP, Event.delay_sec 3,
         Event.UART_sendByte SYNC_HANDSHAKE,
         Event.DcMotor_Rotate DcMotor_State.ACW, Event.delay_sec 15,
         Event.DcMotor_Rotate DcMotor_State.STOP, Event.UART_sendByte SYNC_HANDSHAKE] ∧
      (txBytes (s'.trace.drop exampleOpenDoor.trace.length)).count SYNC_HANDSHAKE = 2 ∧
      (motorCommands (s'.trace.drop exampleOpenDoor.trace.length)).getLast? =
        some DcMotor_State.STOP :=
  open_door_events receiveUntilEOS exampleOpenDoor [4, 0xED, 49, 50, 51, 52, 53, 35]
    [0xED, 49, 50, 51, 52, 53, 35] 1 [[49, 50, 51, 52, 53, 35, 0]] []
    (by decide) (by decide) (by decide) (by decide) (by decide) (by decide)
    (fun j hj => by omega) (by decide)

/-- C9: the back node's `Alarm` pass performs exactly buzzer on, `delay_sec(60)`, buzzer
off, mode := `MainMenu`, send `SYNC`, send the `MainMenu` code; the front node's `Alarm`
pass discards the bytes before the first `SYNC` and adopts the byte after it as its mode;
so when the front node receives what the back node sent, both end in `MainMenu`. -/
theorem alarm_exchange (recvStr : ReceiveString) (c : Control) (h : Hmi) (pre : List Nat)
    (hc : c.HMI_status = MODE_ALARM_MODE) (hh : h.HMI_status = MODE_ALARM_MODE)
    (hpre : SYNC_HANDSHAKE ∉ pre) :
    control_main_step recvStr c =
      some { c with HMI_status := MODE_NORMAL_BOOT_MAIN,
                    trace := c.trace ++ [Event.Buzzer_ON, Event.delay_sec 60, Event.Buzzer_OFF,
                      Event.UART_sendByte SYNC_HANDSHAKE,
                      Event.UART_sendByte MODE_NORMAL_BOOT_MAIN] } ∧
    (∀ m rest, hmi_main_step { h with rx := pre ++ SYNC_HANDSHAKE :: m :: rest } =
      some { h with HMI_status := m, rx := rest }) ∧
    ∃ c' h', control_main_step recvStr c = some c' ∧
      hmi_main_step { h with rx := pre ++ txBytes (c'.trace.drop c.trace.length) } = some h' ∧
      c'.HMI_status = MODE_NORMAL_BOOT_MAIN ∧ h'.HMI_status = MODE_NORMAL_BOOT_MAIN ∧
      h'.rx = [] := by
  have hback : control_main_step recvStr c =
      some { c with HMI_status := MODE_NORMAL_BOOT_MAIN,
                    trace := c.trace ++ [Event.Buzzer_ON, Event.delay_sec 60, Event.Buzzer_OFF,
                      Event.UART_sendByte SYNC_HANDSHAKE,
                      Event.UART_sendByte MODE_NORMAL_BOOT_MAIN] } := by
    simp [control_main_step, hc, control_case_MODE_ALARM_MODE, Control.call,
      Control.UART_sendByte, MODE_ALARM_MODE, MODE_FIRST_BOOT, MODE_NORMAL_BOOT_LOCKED,
      MODE_NORMAL_BOOT_MAIN]
  have hfront : ∀ m rest, hmi_main_step { h with rx := pre ++ SYNC_HANDSHAKE :: m :: rest } =
      some { h with HMI_status := m, rx := rest } := by
    intro m rest
    simp [hmi_main_step, hh, hmi_case_MODE_ALARM_MODE, awaitSync_append pre _ hpre,
      UART_receiveByte, MODE_ALARM_MODE, MODE_FIRST_BOOT, MODE_NORMAL_BOOT_LOCKED,
      MODE_NORMAL_BOOT_MAIN]
  refine ⟨hback, hfront, _, { h with HMI_status := MODE_NORMAL_BOOT_MAIN, rx := [] }, hback,
    ?_, rfl, rfl, rfl⟩
  simp only [List.drop_left, txBytes]
  exact hfront MODE_NORMAL_BOOT_MAIN []

/-- Witness of C9. -/
theorem alarm_exchange_witness :
    control_main_step receiveUntilEOS exampleAlarm =
      some { exampleAlarm with
        HMI_status := MODE_NORMAL_BOOT_MAIN,
        trace := exampleAlarm.trace ++ [Event.Buzzer_ON, Event.delay_sec 60,
          Event.Buzzer_OFF, Event.UART_sendByte SYNC_HANDSHAKE,
          Event.UART_sendByte MODE_NORMAL_BOOT_MAIN] } ∧
    (∀ m rest, hmi_main_step { exampleHmiAlarm with rx := [0, 3] ++ SYNC_HANDSHAKE :: m :: rest } =
      some { exampleHmiAlarm with HMI_status := m, rx := rest }) ∧
    ∃ c' h', control_main_step receiveUntilEOS exampleAlarm = some c' ∧
      hmi_main_step { exampleHmiAlarm with
        rx := [0, 3] ++ txBytes (c'.trace.drop exampleAlarm.trace.length) } = some h' ∧
      c'.HMI_status = MODE_NORMAL_BOOT_MAIN ∧ h'.HMI_status = MODE_NORMAL_BOOT_MAIN ∧
      h'.rx = [] :=
  alarm_exchange receiveUntilEOS exampleAlarm exampleHmiAlarm [0, 3]
    (by decide) (by decide) (by decide)

/-- C10: in `MainMenu` the back node discards the incoming bytes up to and including the
first `SYNC` and reads the next byte `r` as the request: when `r` is `OPEN_DOOR_REQUEST` the
pass is the bounded authentication with target `MainMenu` (followed by the door sequence
when it returns `TRUE`), and for every other `r`, `CHANGE_PASS_REQUEST` included, it is the
bounded authentication with target `FirstBoot`. -/
theorem main_menu_request_dispatch (recvStr : ReceiveString) (s : Control)
    (pre : List Nat) (r : Nat) (rest : List Nat)
    (hmode : s.HMI_status = MODE_NORMAL_BOOT_MAIN) (hpre : SYNC_HANDSHAKE ∉ pre)
    (hrx : s.rx = pre ++ SYNC_HANDSHAKE :: r :: rest) :
    (r = OPEN_DOOR_REQUEST →
      control_main_step recvStr s =
        match confirmPasswordAttempts recvStr MODE_NORMAL_BOOT_MAIN { s with rx := rest } with
        | none => none
        | some (true, s2) => some (open_door_sequence s2)
        | some (false, s2) => some s2) ∧
    (r ≠ OPEN_DOOR_REQUEST →
      control_main_step recvStr s =
        match confirmPasswordAttempts recvStr MODE_FIRST_BOOT { s with rx := rest } with
        | none => none
        | some (_, s2) => some s2) ∧
    CHANGE_PASS_REQUEST ≠ OPEN_DOOR_REQUEST := by
  have hsync : awaitSync s.rx = some (r :: rest) := by
    rw [hrx]; exact awaitSync_append pre _ hpre
  have e := control_main_menu_eq recvStr s (r :: rest) r rest hmode hsync rfl
  refine ⟨fun hr => ?_, fun hr => ?_, by decide⟩
  · rw [e, if_pos hr]
  · rw [e, if_neg hr]

/-- Witness of C10: two stray bytes, then `SYNC`, `CHANGE_PASS_REQUEST`. -/
theorem main_menu_request_dispatch_witness :
    ((5 : Nat) = OPEN_DOOR_REQUEST →
      control_main_step receiveUntilEOS exampleChangePass =
        match confirmPasswordAttempts receiveUntilEOS MODE_NORMAL_BOOT_MAIN
          { exampleChangePass with rx := [0xED, 49, 50, 51, 52, 53, 35] } with
        | none => none
        | some (true, s2) => some (open_door_sequence s2)
        | some (false, s2) => some s2) ∧
    ((5 : Nat) ≠ OPEN_DOOR_REQUEST →
      control_main_step receiveUntilEOS exampleChangePass =
        match confirmPasswordAttempts receiveUntilEOS MODE_FIRST_BOOT
          { exampleChangePass with rx := [0xED, 49, 50, 51, 52, 53, 35] } with
        | none => none
        | some (_, s2) => some s2) ∧
    CHANGE_PASS_REQUEST ≠ OPEN_DOOR_REQUEST :=
  main_menu_request_dispatch receiveUntilEOS exampleChangePass [7, 9] 5
    [0xED, 49, 50, 51, 52, 53, 35] (by decide) (by decide) (by decide)

/-! ## The two nodes together -/

/-- C7: `attemptPassword` on the front node composed with `confirmPasswordAttempts t` on the
back node (for every target `t`, `MainMenu` and `FirstBoot` included) over a lossless
channel, the back node's `UART_receiveString` stopping at the first `'#'`. For every stored
password and every key sequence of at least three entries, none of the keys being the sync
byte: there is a number `n` between 1 and 3 such that the back node, receiving exactly the
`n` passwords the front node sends, consumes `n` attempts and returns, and the front node,
receiving exactly the replies of the back node, sends those `n` passwords, reads every
reply and returns; then the two mode variables are equal (both `t`, or both `Alarm`). -/
theorem attempt_confirm_lockstep (recvStr : ReceiveString) (hrecv : ReceivesToEOS recvStr)
    (t : Nat) (c : Control) (h : Hmi) (keys : List Nat)
    (hkeys : ∀ k, k ∈ keys → k ≠ SYNC_HANDSHAKE) (hlen : 15 ≤ keys.length)
    (hbuf : bufferReady h.g_password_buffer) :
    ∃ n ok c' h', 1 ≤ n ∧ n ≤ MAX_PASSWORD_TRIES ∧
      confirmPasswordAttempts recvStr t { c with rx := passwordFrames (keys.take (5 * n)) } =
        some (ok, c') ∧
      (∃ bufs, receiveAttempts recvStr n c.g_pass_buffer1
        (passwordFrames (keys.take (5 * n))) = some (bufs, c'.rx)) ∧
      SYNC_HANDSHAKE ∉ c'.rx ∧
      attemptPassword { h with keys := keys, rx := txBytes (c'.trace.drop c.trace.length) } =
        some h' ∧
      h'.tx = h.tx ++ passwordFrames (keys.take (5 * n)) ∧ h'.keys = keys.drop (5 * n) ∧
      h'.rx = [] ∧
      h'.HMI_status = c'.HMI_status ∧
      (c'.HMI_status = t ∨ c'.HMI_status = MODE_ALARM_MODE) := by
  obtain ⟨n, ok, c', replies, hn1, hn3, hC, hR, hsync, htrace, _, hmode, hfront⟩ :=
    lockstep_core recvStr hrecv t c h keys hkeys hlen hbuf
  obtain ⟨h', hA, htx, hks, hrx, hst, _⟩ := hfront []
  refine ⟨n, ok, c', h', hn1, hn3, hC, hR, hsync, ?_, htx, hks, hrx, hst, ?_⟩
  · rw [htrace, List.drop_left]
    simpa using hA
  · rcases hmode with ⟨_, hm⟩ | ⟨_, hm⟩
    · exact Or.inl hm
    · exact Or.inr hm

/-- Witness of C7: stored password `"12345"`, entries `99999`, `12345`, `00000`, target
`FirstBoot`. -/
theorem attempt_confirm_lockstep_witness :
    ∃ n ok c' h', 1 ≤ n ∧ n ≤ MAX_PASSWORD_TRIES ∧
      confirmPasswordAttempts receiveUntilEOS MODE_FIRST_BOOT
        { exampleControlIdle with rx := passwordFrames (exampleKeys.take (5 * n)) } =
        some (ok, c') ∧
      (∃ bufs, receiveAttempts receiveUntilEOS n exampleControlIdle.g_pass_buffer1
        (passwordFrames (exampleKeys.take (5 * n))) = some (bufs, c'.rx)) ∧
      SYNC_HANDSHAKE ∉ c'.rx ∧
      attemptPassword { exampleHmiIdle with
        keys := exampleKeys,
        rx := txBytes (c'.trace.drop exampleControlIdle.trace.length) } = some h' ∧
      h'.tx = exampleHmiIdle.tx ++ passwordFrames (exampleKeys.take (5 * n)) ∧
      h'.keys = exampleKeys.drop (5 * n) ∧
      h'.rx = [] ∧
      h'.HMI_status = c'.HMI_status ∧
      (c'.HMI_status = MODE_FIRST_BOOT ∨ c'.HMI_status = MODE_ALARM_MODE) :=
  attempt_confirm_lockstep receiveUntilEOS receiveUntilEOS_receivesToEOS MODE_FIRST_BOOT
    exampleControlIdle exampleHmiIdle exampleKeys (by decide) (by decide)
    ⟨0, 0, 0, 0, 0, rfl⟩

/-- C8: the open-door exchange, the front node typing `'+'` and then `keys`, the back node
receiving exactly what the front node sends and the front node exactly what the back node
sends. With `ok` the result of `confirmPasswordAttempts` and `h1` the front node after
`attemptPassword`: the back node sends after the authentication exactly two `SYNC` bytes
when `ok` is `TRUE` and nothing otherwise; the front node then waits for a sync byte twice
when its mode is not `Alarm` and not at all when it is; its mode is not `Alarm` exactly
when `ok` is `TRUE`; and the front node's pass returns having read every byte sent. -/
theorem open_door_sync_agreement (recvStr : ReceiveString) (hrecv : ReceivesToEOS recvStr)
    (c : Control) (h : Hmi) (keys : List Nat)
    (hkeys : ∀ k, k ∈ keys → k ≠ SYNC_HANDSHAKE) (hlen : 15 ≤ keys.length)
    (hbuf : bufferReady h.g_password_buffer)
    (hc : c.HMI_status = MODE_NORMAL_BOOT_MAIN) (hh : h.HMI_status = MODE_NORMAL_BOOT_MAIN) :
    ∃ n ok c1 c' h1 h', 1 ≤ n ∧ n ≤ MAX_PASSWORD_TRIES ∧
      confirmPasswordAttempts recvStr MODE_NORMAL_BOOT_MAIN
        { c with rx := passwordFrames (keys.take (5 * n)) } = some (ok, c1) ∧
      control_main_step recvStr
        { c with rx := SYNC_HANDSHAKE :: OPEN_DOOR_REQUEST ::
            passwordFrames (keys.take (5 * n)) } = some c' ∧
      (txBytes (c'.trace.drop c1.trace.length)).count SYNC_HANDSHAKE =
        (if ok = true then 2 else 0) ∧
      (ok = false → c'.trace = c1.trace) ∧
      attemptPassword { h with
        keys := keys,
        rx := txBytes (c'.trace.drop c.trace.length),
        tx := h.tx ++ [SYNC_HANDSHAKE] ++ [OPEN_DOOR_REQUEST] } = some h1 ∧
      h1.rx = txBytes (c'.trace.drop c1.trace.length) ∧
      hmi_open_door_wait h1 =
        (awaitSyncs (if h1.HMI_status ≠ MODE_ALARM_MODE then 2 else 0) h1.rx).map
          (fun r => { h1 with rx := r }) ∧
      (h1.HMI_status ≠ MODE_ALARM_MODE ↔ ok = true) ∧
      hmi_main_step { h with
        keys := 43 :: keys,
        rx := txBytes (c'.trace.drop c.trace.length) } = some h' ∧
      h'.rx = [] ∧ h'.HMI_status = c'.HMI_status := by
  obtain ⟨n, ok, c1, replies, hn1, hn3, hC, _, _, htrace, _, hmode, hfront⟩ :=
    lockstep_core recvStr hrecv MODE_NORMAL_BOOT_MAIN c
      { h with tx := h.tx ++ [SYNC_HANDSHAKE] ++ [OPEN_DOOR_REQUEST] } keys hkeys hlen hbuf
  have hback := control_main_menu_eq recvStr
    { c with rx := SYNC_HANDSHAKE :: OPEN_DOOR_REQUEST :: passwordFrames (keys.take (5 * n)) }
    (OPEN_DOOR_REQUEST :: passwordFrames (keys.take (5 * n))) OPEN_DOOR_REQUEST
    (passwordFrames (keys.take (5 * n))) hc (by simp [awaitSync]) rfl
  simp only [if_true] at hback
  have hC' : confirmPasswordAttempts recvStr MODE_NORMAL_BOOT_MAIN
      { g_password := c.g_password, g_pass_buffer1 := c.g_pass_buffer1,
        g_pass_buffer2 := c.g_pass_buffer2, HMI_status := c.HMI_status,
        rx := passwordFrames (keys.take (5 * n)), trace := c.trace } = some (ok, c1) := hC
  rw [hC'] at hback
  have hfrontStep : ∀ rx, hmi_main_step { h with keys := 43 :: keys, rx := rx } =
      match attemptPassword { h with
        keys := keys, rx := rx,
        tx := h.tx ++ [SYNC_HANDSHAKE] ++ [OPEN_DOOR_REQUEST] } with
      | none => none
      | some h4 => hmi_open_door_wait h4 := by
    intro rx
    simp [hmi_main_step, hh, hmi_case_MODE_NORMAL_BOOT_MAIN, awaitPlusMinus,
      Hmi.UART_sendByte, MODE_NORMAL_BOOT_MAIN, MODE_FIRST_BOOT, MODE_NORMAL_BOOT_LOCKED]
  rcases hmode with ⟨hok, hm⟩ | ⟨hok, hm⟩
  · subst hok
    obtain ⟨h1, hA, _, _, hrx, hst, _⟩ := hfront [SYNC_HANDSHAKE, SYNC_HANDSHAKE]
    have hne : h1.HMI_status ≠ MODE_ALARM_MODE := by
      rw [hst, hm]; decide
    have hall : txBytes ((open_door_sequence c1).trace.drop c.trace.length) =
        txBytes replies ++ [SYNC_HANDSHAKE, SYNC_HANDSHAKE] := by
      rw [open_door_sequence_trace, htrace]
      simp [txBytes_append, txBytes_doorEvents]
    have hafter : txBytes ((open_door_sequence c1).trace.drop c1.trace.length) =
        [SYNC_HANDSHAKE, SYNC_HANDSHAKE] := by
      rw [open_door_sequence_trace]
      simp [txBytes_doorEvents]
    have hwait : hmi_open_door_wait h1 = some { h1 with rx := [] } := by
      simp [hmi_open_door_wait, hne, hrx, awaitSync]
    refine ⟨n, true, c1, open_door_sequence c1, h1, { h1 with rx := [] }, hn1, hn3, hC,
      hback, ?_, (fun hf => by cases hf), ?_, ?_, hmi_open_door_wait_eq h1, ?_, ?_, rfl, ?_⟩
    · rw [hafter]; decide
    · rw [hall]; exact hA
    · rw [hafter]; exact hrx
    · exact ⟨fun _ => rfl, fun _ => hne⟩
    · rw [hfrontStep, hall]
      have hA' : attemptPassword { h with
          keys := keys, rx := txBytes replies ++ [SYNC_HANDSHAKE, SYNC_HANDSHAKE],
          tx := h.tx ++ [SYNC_HANDSHAKE] ++ [OPEN_DOOR_REQUEST] } = some h1 := hA
      rw [hA']
      exact hwait
    · show h1.HMI_status = (open_door_sequence c1).HMI_status
      rw [open_door_sequence_trace]
      exact hst
  · subst hok
    obtain ⟨h1, hA, _, _, hrx, hst, _⟩ := hfront []
    have hal : h1.HMI_status = MODE_ALARM_MODE := by rw [hst, hm]
    have hall : txBytes (c1.trace.drop c.trace.length) = txBytes replies ++ [] := by
      rw [htrace]
      simp
    have hafter : txBytes (c1.trace.drop c1.trace.length) = [] := by
      simp [txBytes]
    have hwait : hmi_open_door_wait h1 = some h1 := by
      simp [hmi_open_door_wait, hal]
    refine ⟨n, false, c1, c1, h1, h1, hn1, hn3, hC, hback, ?_, fun _ => rfl, ?_, ?_,
      hmi_open_door_wait_eq h1, ?_, ?_, hrx, hst⟩
    · rw [hafter]; decide
    · rw [hall]; exact hA
    · rw [hafter]; exact hrx
    · exact ⟨fun hn => absurd hal hn, fun hf => by cases hf⟩
    · rw [hfrontStep, hall]
      have hA' : attemptPassword { h with
          keys := keys, rx := txBytes replies ++ [],
          tx := h.tx ++ [SYNC_HANDSHAKE] ++ [OPEN_DOOR_REQUEST] } = some h1 := hA
      rw [hA']
      exact hwait

/-- Witness of C8: stored password `"12345"`, key `'+'`, entries `99999`, `12345`,
`00000`. -/
theorem open_door_sync_agreement_witness :
    ∃ n ok c1 c' h1 h', 1 ≤ n ∧ n ≤ MAX_PASSWORD_TRIES ∧
      confirmPasswordAttempts receiveUntilEOS MODE_NORMAL_BOOT_MAIN
        { exampleControlIdle with rx := passwordFrames (exampleKeys.take (5 * n)) } =
        some (ok, c1) ∧
      control_main_step receiveUntilEOS
        { exampleControlIdle with
          rx := SYNC_HANDSHAKE :: OPEN_DOOR_REQUEST ::
            passwordFrames (exampleKeys.take (5 * n)) } = some c' ∧
      (txBytes (c'.trace.drop c1.trace.length)).count SYNC_HANDSHAKE =
        (if ok = true then 2 else 0) ∧
      (ok = false → c'.trace = c1.trace) ∧
      attemptPassword { exampleHmiIdle with
        keys := exampleKeys,
        rx := txBytes (c'.trace.drop exampleControlIdle.trace.length),
        tx := exampleHmiIdle.tx ++ [SYNC_HANDSHAKE] ++ [OPEN_DOOR_REQUEST] } = some h1 ∧
      h1.rx = txBytes (c'.trace.drop c1.trace.length) ∧
      hmi_open_door_wait h1 =
        (awaitSyncs (if h1.HMI_status ≠ MODE_ALARM_MODE then 2 else 0) h1.rx).map
          (fun r => { h1 with rx := r }) ∧
      (h1.HMI_status ≠ MODE_ALARM_MODE ↔ ok = true) ∧
      hmi_main_step { exampleHmiIdle with
        keys := 43 :: exampleKeys,
        rx := txBytes (c'.trace.drop exampleControlIdle.trace.length) } = some h' ∧
      h'.rx = [] ∧ h'.HMI_status = c'.HMI_status :=
  open_door_sync_agreement receiveUntilEOS receiveUntilEOS_receivesToEOS exampleControlIdle
    exampleHmiIdle exampleKeys (by decide) (by decide) ⟨0, 0, 0, 0, 0, rfl⟩ (by decide)
    (by decide)

/-! ## The comparison and the transmission of a password -/

/-- C11: `pass_compare(a, b)` returns `TRUE` if and only if `a[i] = b[i]` for every
`i < 5`, and its result does not depend on the bytes in slots 5 and 6: overwriting them in
either array leaves the result the same. -/
theorem pass_compare_five_bytes (a b : List Nat) :
    (pass_compare a b = true ↔ ∀ i, i < 5 → a.getD i 0 = b.getD i 0) ∧
    ∀ x5 x6 y5 y6,
      pass_compare ((a.set 5 x5).set 6 x6) ((b.set 5 y5).set 6 y6) = pass_compare a b := by
  refine ⟨pass_compare_iff a b, fun x5 x6 y5 y6 => ?_⟩
  have hiff : matches5 ((a.set 5 x5).set 6 x6) ((b.set 5 y5).set 6 y6) ↔ matches5 a b := by
    constructor
    · intro h i hi
      have := h i hi
      rwa [getD_set_framing a x5 x6 i hi, getD_set_framing b y5 y6 i hi] at this
    · intro h i hi
      rw [getD_set_framing a x5 x6 i hi, getD_set_framing b y5 y6 i hi]
      exact h i hi
  cases hc : pass_compare a b with
  | true => exact (pass_compare_iff _ _).2 (hiff.2 ((pass_compare_iff a b).1 hc))
  | false =>
    exact (pass_compare_false_iff _ _).2
      (fun h => (pass_compare_false_iff a b).1 hc (hiff.1 h))

/-- C14: with the front node's buffer initialised as in `main` (slot 5 holds `'#'`, slot 6
the null byte), for every five keys `k0 .. k4` returned by the keypad `getSendPasswordSync`
returns and has transmitted exactly seven bytes: `SYNC`, the five characters `ci`
(`ki + '0'` when `ki < 10`, `ki` otherwise), and `'#'`. None of the characters is zero, and
the buffer is left with slots 5 and 6 as before. -/
theorem getSendPasswordSync_frame (h : Hmi) (k0 k1 k2 k3 k4 : Nat) (ks : List Nat)
    (hbuf : bufferReady h.g_password_buffer)
    (hkeys : h.keys = k0 :: k1 :: k2 :: k3 :: k4 :: ks) :
    ∃ h', getSendPasswordSync h = some h' ∧
      h'.tx = h.tx ++ [SYNC_HANDSHAKE,
        if k0 < 10 then k0 + 48 else k0, if k1 < 10 then k1 + 48 else k1,
        if k2 < 10 then k2 + 48 else k2, if k3 < 10 then k3 + 48 else k3,
        if k4 < 10 then k4 + 48 else k4, UART_EOS] ∧
      (h'.tx.drop h.tx.length).length = 7 ∧
      (∀ k, (if k < 10 then k + 48 else k) ≠ 0) ∧
      h'.keys = ks ∧ bufferReady h'.g_password_buffer := by
  obtain ⟨a0, a1, a2, a3, a4, hb⟩ := hbuf
  refine ⟨_, getSendPasswordSync_eq h a0 a1 a2 a3 a4 k0 k1 k2 k3 k4 ks hb hkeys, ?_, ?_, ?_,
    rfl, ⟨_, _, _, _, _, rfl⟩⟩
  · simp only [passwordFrame, keyChar_eq]
  · simp [passwordFrame]
  · intro k
    split <;> omega

/-- Witness of C14: the keys `1 2 3 4 5` are sent as `0xED "12345#"`. -/
theorem getSendPasswordSync_frame_witness :
    ∃ h', getSendPasswordSync { exampleHmiIdle with keys := [1, 2, 3, 4, 5] } = some h' ∧
      h'.tx = exampleHmiIdle.tx ++ [SYNC_HANDSHAKE,
        if 1 < 10 then 1 + 48 else 1, if 2 < 10 then 2 + 48 else 2,
        if 3 < 10 then 3 + 48 else 3, if 4 < 10 then 4 + 48 else 4,
        if 5 < 10 then 5 + 48 else 5, UART_EOS] ∧
      (h'.tx.drop exampleHmiIdle.tx.length).length = 7 ∧
      (∀ k, (if k < 10 then k + 48 else k) ≠ 0) ∧
      h'.keys = [] ∧ bufferReady h'.g_password_buffer :=
  getSendPasswordSync_frame { exampleHmiIdle with keys := [1, 2, 3, 4, 5] } 1 2 3 4 5 []
    ⟨0, 0, 0, 0, 0, rfl⟩ rfl

/-! ## The reception of a string -/

/-- C13 does not hold of the code: the loop of `UART_receiveString` tests the slot after
the increment, that is the prior content of the next slot, not the byte just received. The
destination array holds `"99999#"` and the null byte, the incoming bytes are
`1 2 # 4 5 # 0xED`, so the first `'#'` is at position 2. The routine does not stop after
the three bytes up to that `'#'`: it consumes five bytes, and slot 2 holds `'#'`, not the
null byte (which goes to slot 5). Hence the statement of C13 is false for arrays of seven
slots. -/
theorem UART_receiveString_stops_late :
    UART_receiveString [57, 57, 57, 57, 57, 35, 0] [49, 50, 35, 52, 53, 35, 0xED] =
      some ([49, 50, 35, 52, 53, 0, 0], [35, 0xED]) ∧
    ¬ ∀ (str pre post : List Nat), str.length = 7 → UART_EOS ∉ pre → pre.length + 1 < 7 →
      ∃ str', UART_receiveString str (pre ++ UART_EOS :: post) = some (str', post) ∧
        (∀ j, j < pre.length → str'.getD j 0 = pre.getD j 0) ∧
        str'.getD pre.length 0 = 0 := by
  refine ⟨UART_receiveString_on_full_array, fun hall => ?_⟩
  obtain ⟨str', h, _, _⟩ := hall [57, 57, 57, 57, 57, 35, 0] [49, 50] [52, 53, 35, 0xED]
    (by decide) (by decide) (by decide)
  have e : ([49, 50] : List Nat) ++ UART_EOS :: [52, 53, 35, 0xED] =
      [49, 50, 35, 52, 53, 35, 0xED] := by decide
  rw [e, UART_receiveString_on_full_array] at h
  simp at h

/-! ## Short inputs -/

/-- C12, as stated, fails: an input whose `'#'` arrives after two characters is accepted.
(1) With a reception that stops at the first `'#'`, from power-up: the captures `12#` and
`12#` enrol the password, and the open-door request with the attempt `12#` then runs the
door sequence. (2) The arrays hold `"99999#"` in `FirstBoot` after the enrollment of
`99999` and a successful change-password authentication. (3) From such arrays, with the
`UART_receiveString` of `HMI_ECU/uart.c`, the captures `1 2 # 4 5 #` enrol the password
`12#45`. -/
theorem short_input_accepted :
    control_run receiveUntilEOS 2
        (control_boot [0xED, 49, 50, 35, 0xED, 49, 50, 35, 0xED, 4, 0xED, 49, 50, 35]) =
      some { g_password := [49, 50, 35, 0, 0, 0, 0], g_pass_buffer1 := [49, 50, 35, 0, 0, 0, 0],
             g_pass_buffer2 := [49, 50, 35, 0, 0, 0, 0], HMI_status := MODE_NORMAL_BOOT_MAIN,
             rx := [],
             trace := [Event.UART_sendByte SYNC_HANDSHAKE, Event.UART_sendByte SUCCESS,
               Event.EEPROM_writeString 0x0320 [49, 50, 35, 0, 0, 0, 0] 5,
               Event.UART_sendByte SUCCESS, Event.UART_sendByte MODE_NORMAL_BOOT_MAIN] ++
               doorEvents } ∧
    control_run receiveUntilEOS 2
        (control_boot ([0xED, 57, 57, 57, 57, 57, 35, 0xED, 57, 57, 57, 57, 57, 35, 0xED, 5,
          0xED, 57, 57, 57, 57, 57, 35] ++ exampleStaleArrays.rx)) =
      some { exampleStaleArrays with
        trace := [Event.UART_sendByte SYNC_HANDSHAKE, Event.UART_sendByte SUCCESS,
          Event.EEPROM_writeString 0x0320 [57, 57, 57, 57, 57, 0, 0] 5,
          Event.UART_sendByte SUCCESS, Event.UART_sendByte MODE_FIRST_BOOT] } ∧
    control_main_step UART_receiveString exampleStaleArrays =
      some { g_password := [49, 50, 35, 52, 53, 0, 0],
             g_pass_buffer1 := [49, 50, 35, 52, 53, 0, 0],
             g_pass_buffer2 := [49, 50, 35, 52, 53, 0, 0],
             HMI_status := MODE_NORMAL_BOOT_MAIN, rx := [35],
             trace := [Event.UART_sendByte SYNC_HANDSHAKE, Event.UART_sendByte SUCCESS,
               Event.EEPROM_writeString 0x0320 [49, 50, 35, 52, 53, 0, 0] 5] } := by
  refine ⟨by decide, by decide, by decide⟩

/-- C12, amended: whether a received input is accepted depends only on the five password
slots of the receiving array after the reception, wherever the terminator arrived. With
`b1` the contents of `g_pass_buffer1` after its reception: an enrollment ends in `MainMenu`
with the reply `SYNC`, `SUCCESS` exactly when `b1` agrees on slots 0 to 4 with the second
capture `b2`; bounded authentication accepts the attempt (returns `TRUE` with the reply
`SUCCESS`, `t`) when `b1` agrees on slots 0 to 4 with `g_password`, and otherwise answers
`ERROR`, `Locked` and goes on with its second round. -/
theorem acceptance_by_five_slots (recvStr : ReceiveString) (s : Control)
    (b1 rx1 rx2 : List Nat)
    (h1 : awaitSync s.rx = some rx1) (h2 : recvStr s.g_pass_buffer1 rx1 = some (b1, rx2)) :
    (∀ b2 rx3 rx4, s.HMI_status = MODE_FIRST_BOOT → awaitSync rx2 = some rx3 →
      recvStr s.g_pass_buffer2 rx3 = some (b2, rx4) →
      ∃ s', control_main_step recvStr s = some s' ∧
        (s'.HMI_status = MODE_NORMAL_BOOT_MAIN ↔ ∀ i, i < 5 → b1.getD i 0 = b2.getD i 0) ∧
        (txBytes (s'.trace.drop s.trace.length) = [SYNC_HANDSHAKE, SUCCESS] ↔
          ∀ i, i < 5 → b1.getD i 0 = b2.getD i 0)) ∧
    (∀ t, (∀ i, i < 5 → b1.getD i 0 = s.g_password.getD i 0) →
      confirmPasswordAttempts recvStr t s =
        some (true, { s with g_pass_buffer1 := b1, rx := rx2, HMI_status := t,
                             trace := s.trace ++ [Event.UART_sendByte SUCCESS,
                               Event.UART_sendByte t] })) ∧
    (∀ t, (¬ ∀ i, i < 5 → b1.getD i 0 = s.g_password.getD i 0) →
      confirmPasswordAttempts recvStr t s =
        confirmPasswordAttempts_loop recvStr t 3 1
          { s with g_pass_buffer1 := b1, rx := rx2, HMI_status := MODE_NORMAL_BOOT_LOCKED,
                   trace := s.trace ++ [Event.UART_sendByte ERROR,
                     Event.UART_sendByte MODE_NORMAL_BOOT_LOCKED] }) := by
  refine ⟨fun b2 rx3 rx4 hmode h3 h4 => ?_, fun t hm => ?_, fun t hm => ?_⟩
  · refine ⟨_, control_first_boot_eq recvStr s b1 b2 rx1 rx2 rx3 rx4 hmode h1 h2 h3 h4, ?_⟩
    by_cases hm : matches5 b1 b2
    · have hp := (pass_compare_iff b1 b2).2 hm
      simp only [first_boot_decide, hp, if_true, set_password, Control.call,
        Control.UART_sendByte, List.append_assoc, List.drop_left, List.singleton_append,
        txBytes, true_iff]
      exact ⟨hm, hm⟩
    · have hp := (pass_compare_false_iff b1 b2).2 hm
      simp only [first_boot_decide, hp, Bool.false_eq_true, if_false, Control.UART_sendByte,
        List.append_assoc, List.drop_left, List.singleton_append, txBytes, hmode]
      refine ⟨⟨fun h => ?_, fun h => absurd h hm⟩, ⟨fun h => ?_, fun h => absurd h hm⟩⟩
      · exact absurd h (by decide)
      · exact absurd h (by decide)
  · exact confirm_loop_hit recvStr t 3 0 s rx1 b1 rx2 (by omega) h1 h2 hm
  · exact confirm_loop_miss recvStr t 3 0 s rx1 b1 rx2 (by omega) h1 h2 hm

/-- Witness of C12, amended: the reception of `1 2 # 4 5` by the `UART_receiveString` of
`HMI_ECU/uart.c` into an array holding `"99999#"`. -/
theorem acceptance_by_five_slots_witness :
    (∀ b2 rx3 rx4, exampleStaleArrays.HMI_status = MODE_FIRST_BOOT →
      awaitSync [35, 0xED, 49, 50, 35, 52, 53, 35] = some rx3 →
      UART_receiveString exampleStaleArrays.g_pass_buffer2 rx3 = some (b2, rx4) →
      ∃ s', control_main_step UART_receiveString exampleStaleArrays = some s' ∧
        (s'.HMI_status = MODE_NORMAL_BOOT_MAIN ↔
          ∀ i, i < 5 → [49, 50, 35, 52, 53, 0, 0].getD i 0 = b2.getD i 0) ∧
        (txBytes (s'.trace.drop exampleStaleArrays.trace.length) =
            [SYNC_HANDSHAKE, SUCCESS] ↔
          ∀ i, i < 5 → [49, 50, 35, 52, 53, 0, 0].getD i 0 = b2.getD i 0)) ∧
    (∀ t, (∀ i, i < 5 → [49, 50, 35, 52, 53, 0, 0].getD i 0 =
        exampleStaleArrays.g_password.getD i 0) →
      confirmPasswordAttempts UART_receiveString t exampleStaleArrays =
        some (true, { exampleStaleArrays with
          g_pass_buffer1 := [49, 50, 35, 52, 53, 0, 0],
          rx := [35, 0xED, 49, 50, 35, 52, 53, 35], HMI_status := t,
          trace := exampleStaleArrays.trace ++ [Event.UART_sendByte SUCCESS,
            Event.UART_sendByte t] })) ∧
    (∀ t, (¬ ∀ i, i < 5 → [49, 50, 35, 52, 53, 0, 0].getD i 0 =
        exampleStaleArrays.g_password.getD i 0) →
      confirmPasswordAttempts UART_receiveString t exampleStaleArrays =
        confirmPasswordAttempts_loop UART_receiveString t 3 1
          { exampleStaleArrays with
            g_pass_buffer1 := [49, 50, 35, 52, 53, 0, 0],
            rx := [35, 0xED, 49, 50, 35, 52, 53, 35],
            HMI_status := MODE_NORMAL_BOOT_LOCKED,
            trace := exampleStaleArrays.trace ++ [Event.UART_sendByte ERROR,
              Event.UART_sendByte MODE_NORMAL_BOOT_LOCKED] }) :=
  acceptance_by_five_slots UART_receiveString exampleStaleArrays [49, 50, 35, 52, 53, 0, 0]
    [49, 50, 35, 52, 53, 35, 0xED, 49, 50, 35, 52, 53, 35]
    [35, 0xED, 49, 50, 35, 52, 53, 35] (by decide) (by decide)

/-! ## The enrollment exchange -/

/-- C15: in `FirstBoot` the front node sends its two captures, discards the incoming bytes
up to and including the first `SYNC` and reads one result byte `m`: on `SUCCESS` its mode
becomes `MainMenu`, on `ERROR` it stays `FirstBoot`. Composed with the back node's
`FirstBoot` pass over a lossless channel (each node receiving exactly what the other
sends, the back node's `UART_receiveString` stopping at the first `'#'`, no key being the
sync byte), both passes return and the two nodes end in the same mode. -/
theorem enrollment_exchange (recvStr : ReceiveString) (hrecv : ReceivesToEOS recvStr)
    (c : Control) (h : Hmi) (keys : List Nat)
    (hkeys : ∀ k, k ∈ keys → k ≠ SYNC_HANDSHAKE) (hlen : 10 ≤ keys.length)
    (hbuf : bufferReady h.g_password_buffer)
    (hc : c.HMI_status = MODE_FIRST_BOOT) (hh : h.HMI_status = MODE_FIRST_BOOT) :
    (∀ pre m rest, SYNC_HANDSHAKE ∉ pre →
      ∃ h', hmi_main_step { h with keys := keys, rx := pre ++ SYNC_HANDSHAKE :: m :: rest } =
          some h' ∧
        h'.tx = h.tx ++ passwordFrames (keys.take 10) ∧ h'.rx = rest ∧
        (m = SUCCESS → h'.HMI_status = MODE_NORMAL_BOOT_MAIN) ∧
        (m = ERROR → h'.HMI_status = MODE_FIRST_BOOT)) ∧
    ∃ c' h', control_main_step recvStr { c with rx := passwordFrames (keys.take 10) } =
        some c' ∧
      hmi_main_step { h with keys := keys, rx := txBytes (c'.trace.drop c.trace.length) } =
        some h' ∧
      h'.tx = h.tx ++ passwordFrames (keys.take 10) ∧ h'.rx = [] ∧
      h'.HMI_status = c'.HMI_status ∧
      (c'.HMI_status = MODE_NORMAL_BOOT_MAIN ∨ c'.HMI_status = MODE_FIRST_BOOT) := by
  obtain ⟨a0, a1, a2, a3, a4, hbuf⟩ := hbuf
  match keys, hkeys, hlen with
  | k0 :: k1 :: k2 :: k3 :: k4 :: j0 :: j1 :: j2 :: j3 :: j4 :: more, hkeys, _ =>
    have hk : ∀ k, k ∈ [k0, k1, k2, k3, k4, j0, j1, j2, j3, j4] → k ≠ SYNC_HANDSHAKE := by
      intro k hk
      apply hkeys k
      simp only [List.mem_cons, List.not_mem_nil, or_false] at hk
      simp only [List.mem_cons]
      tauto
    have hfront : ∀ pre m rest, SYNC_HANDSHAKE ∉ pre →
        hmi_main_step { h with
          keys := k0 :: k1 :: k2 :: k3 :: k4 :: j0 :: j1 :: j2 :: j3 :: j4 :: more,
          rx := pre ++ SYNC_HANDSHAKE :: m :: rest } =
        some { g_password_buffer :=
                 [keyChar j0, keyChar j1, keyChar j2, keyChar j3, keyChar j4, UART_EOS, 0],
               HMI_status := if m ≠ 0 then MODE_NORMAL_BOOT_MAIN else MODE_FIRST_BOOT,
               password_match := 0, keys := more, rx := rest,
               tx := (h.tx ++ passwordFrame k0 k1 k2 k3 k4) ++
                 passwordFrame j0 j1 j2 j3 j4 } :=
      fun pre m rest hpre =>
        hmi_first_boot_eq _ a0 a1 a2 a3 a4 k0 k1 k2 k3 k4 j0 j1 j2 j3 j4 more pre m rest hh
          hbuf rfl hpre rfl
    have hframes : passwordFrames
        (List.take 10 (k0 :: k1 :: k2 :: k3 :: k4 :: j0 :: j1 :: j2 :: j3 :: j4 :: more)) =
        passwordFrame k0 k1 k2 k3 k4 ++ (passwordFrame j0 j1 j2 j3 j4 ++ []) := rfl
    refine ⟨fun pre m rest hpre => ⟨_, hfront pre m rest hpre, ?_, rfl, ?_, ?_⟩, ?_⟩
    · rw [hframes]
      simp
    · intro hm
      simp [hm, SUCCESS]
    · intro hm
      simp [hm, ERROR]
    · obtain ⟨b1, b2, l, hback⟩ := control_first_boot_on_frames recvStr hrecv c
        k0 k1 k2 k3 k4 j0 j1 j2 j3 j4 hk hc
      rw [hframes]
      by_cases hm : pass_compare b1 b2 = true
      · have hnew : txBytes ((first_boot_decide
            { c with g_pass_buffer1 := b1, g_pass_buffer2 := b2, rx := l }).trace.drop
            c.trace.length) = [] ++ SYNC_HANDSHAKE :: SUCCESS :: [] := by
          simp [first_boot_decide, hm, set_password, Control.call, Control.UART_sendByte,
            txBytes]
        refine ⟨_,
          { g_password_buffer :=
              [keyChar j0, keyChar j1, keyChar j2, keyChar j3, keyChar j4, UART_EOS, 0],
            HMI_status := if SUCCESS ≠ 0 then MODE_NORMAL_BOOT_MAIN else MODE_FIRST_BOOT,
            password_match := 0, keys := more, rx := [],
            tx := (h.tx ++ passwordFrame k0 k1 k2 k3 k4) ++ passwordFrame j0 j1 j2 j3 j4 },
          hback, ?_, ?_, rfl, ?_, ?_⟩
        · rw [hnew]
          exact hfront [] SUCCESS [] (by simp)
        · simp
        · simp [first_boot_decide, hm, set_password, Control.call, Control.UART_sendByte,
            SUCCESS]
        · left
          simp [first_boot_decide, hm, set_password, Control.call, Control.UART_sendByte]
      · have hm' : pass_compare b1 b2 = false := by
          cases hp : pass_compare b1 b2 with
          | true => exact absurd hp hm
          | false => rfl
        have hnew : txBytes ((first_boot_decide
            { c with g_pass_buffer1 := b1, g_pass_buffer2 := b2, rx := l }).trace.drop
            c.trace.length) = [] ++ SYNC_HANDSHAKE :: ERROR :: [] := by
          simp [first_boot_decide, hm', Control.UART_sendByte, txBytes]
        refine ⟨_,
          { g_password_buffer :=
              [keyChar j0, keyChar j1, keyChar j2, keyChar j3, keyChar j4, UART_EOS, 0],
            HMI_status := if ERROR ≠ 0 then MODE_NORMAL_BOOT_MAIN else MODE_FIRST_BOOT,
            password_match := 0, keys := more, rx := [],
            tx := (h.tx ++ passwordFrame k0 k1 k2 k3 k4) ++ passwordFrame j0 j1 j2 j3 j4 },
          hback, ?_, ?_, rfl, ?_, ?_⟩
        · rw [hnew]
          exact hfront [] ERROR [] (by simp)
        · simp
        · simp [first_boot_decide, hm', Control.UART_sendByte, ERROR, hc]
        · right
          simp [first_boot_decide, hm', Control.UART_sendByte, hc]

/-- Witness of C15: the keys `1 2 3 4 5` typed twice on a fresh system. -/
theorem enrollment_exchange_witness :
    (∀ pre m rest, SYNC_HANDSHAKE ∉ pre →
      ∃ h', hmi_main_step { exampleHmiBoot with
          keys := [1, 2, 3, 4, 5, 1, 2, 3, 4, 5],
          rx := pre ++ SYNC_HANDSHAKE :: m :: rest } = some h' ∧
        h'.tx = exampleHmiBoot.tx ++
          passwordFrames ([1, 2, 3, 4, 5, 1, 2, 3, 4, 5].take 10) ∧ h'.rx = rest ∧
        (m = SUCCESS → h'.HMI_status = MODE_NORMAL_BOOT_MAIN) ∧
        (m = ERROR → h'.HMI_status = MODE_FIRST_BOOT)) ∧
    ∃ c' h', control_main_step receiveUntilEOS
        { control_boot [] with
          rx := passwordFrames ([1, 2, 3, 4, 5, 1, 2, 3, 4, 5].take 10) } = some c' ∧
      hmi_main_step { exampleHmiBoot with
        keys := [1, 2, 3, 4, 5, 1, 2, 3, 4, 5],
        rx := txBytes (c'.trace.drop (control_boot []).trace.length) } = some h' ∧
      h'.tx = exampleHmiBoot.tx ++ passwordFrames ([1, 2, 3, 4, 5, 1, 2, 3, 4, 5].take 10) ∧
      h'.rx = [] ∧
      h'.HMI_status = c'.HMI_status ∧
      (c'.HMI_status = MODE_NORMAL_BOOT_MAIN ∨ c'.HMI_status = MODE_FIRST_BOOT) :=
  enrollment_exchange receiveUntilEOS receiveUntilEOS_receivesToEOS (control_boot [])
    exampleHmiBoot [1, 2, 3, 4, 5, 1, 2, 3, 4, 5] (by decide) (by decide)
    ⟨0, 0, 0, 0, 0, rfl⟩ (by decide) (by decide)

/-! ## The front node in `MainMenu` -/

/-- C16: in `MainMenu` the front node ignores every key before the first `'+'` or `'-'`
(with `pre` those keys and `k` that first `'+'` or `'-'`): its pass is then what follows
the sends of `SYNC` and of the request code, `OPEN_DOOR_REQUEST` for `'+'` and
`CHANGE_PASS_REQUEST` for `'-'`, from a state in which nothing else has been sent and the
keys after `k` are pending; so the bytes of every returning pass begin with `SYNC` and
that code. On keys that hold neither `'+'` nor `'-'` the pass does not get past the key
loop. -/
theorem hmi_main_menu_request (h : Hmi) (pre : List Nat) (k : Nat) (rest : List Nat)
    (hmode : h.HMI_status = MODE_NORMAL_BOOT_MAIN)
    (hpre : ∀ x, x ∈ pre → x ≠ 43 ∧ x ≠ 45) (hk : k = 43 ∨ k = 45)
    (hkeys : h.keys = pre ++ k :: rest) :
    (k = 43 → hmi_main_step h =
      match attemptPassword { h with
          keys := rest, tx := h.tx ++ [SYNC_HANDSHAKE, OPEN_DOOR_REQUEST] } with
      | none => none
      | some h4 => hmi_open_door_wait h4) ∧
    (k = 45 → hmi_main_step h =
      attemptPassword { h with
        keys := rest, tx := h.tx ++ [SYNC_HANDSHAKE, CHANGE_PASS_REQUEST] }) ∧
    (∀ h', hmi_main_step h = some h' →
      ∃ more, h'.tx = h.tx ++ SYNC_HANDSHAKE ::
        (if k = 43 then OPEN_DOOR_REQUEST else CHANGE_PASS_REQUEST) :: more) ∧
    (∀ keys, (∀ x, x ∈ keys → x ≠ 43 ∧ x ≠ 45) →
      hmi_main_step { h with keys := keys } = none) := by
  have hkey := awaitPlusMinus_append pre k rest hpre hk
  have hplus : k = 43 → hmi_main_step h =
      match attemptPassword { h with
          keys := rest, tx := h.tx ++ [SYNC_HANDSHAKE, OPEN_DOOR_REQUEST] } with
      | none => none
      | some h4 => hmi_open_door_wait h4 := by
    intro hk43
    subst hk43
    simp [hmi_main_step, hmode, hmi_case_MODE_NORMAL_BOOT_MAIN, hkeys, hkey,
      Hmi.UART_sendByte, MODE_NORMAL_BOOT_MAIN, MODE_FIRST_BOOT, MODE_NORMAL_BOOT_LOCKED]
  have hminus : k = 45 → hmi_main_step h =
      attemptPassword { h with
        keys := rest, tx := h.tx ++ [SYNC_HANDSHAKE, CHANGE_PASS_REQUEST] } := by
    intro hk45
    subst hk45
    simp [hmi_main_step, hmode, hmi_case_MODE_NORMAL_BOOT_MAIN, hkeys, hkey,
      Hmi.UART_sendByte, MODE_NORMAL_BOOT_MAIN, MODE_FIRST_BOOT, MODE_NORMAL_BOOT_LOCKED]
  refine ⟨hplus, hminus, fun h' hs => ?_, fun keys hkeys' => ?_⟩
  · rcases hk with hk43 | hk45
    · rw [hplus hk43] at hs
      cases ha : attemptPassword { h with
          keys := rest, tx := h.tx ++ [SYNC_HANDSHAKE, OPEN_DOOR_REQUEST] } with
      | none => simp [ha] at hs
      | some h4 =>
        simp only [ha] at hs
        obtain ⟨more, hmore⟩ := attemptPassword_loop_tx _ _ _ ha
        refine ⟨more, ?_⟩
        rw [hmi_open_door_wait_tx h4 h' hs, hmore, if_pos hk43]
        simp
    · rw [hminus hk45] at hs
      obtain ⟨more, hmore⟩ := attemptPassword_loop_tx _ _ _ hs
      refine ⟨more, ?_⟩
      rw [hmore, if_neg (by omega)]
      simp
  · simp [hmi_main_step, hmode, hmi_case_MODE_NORMAL_BOOT_MAIN,
      awaitPlusMinus_none keys hkeys', MODE_NORMAL_BOOT_MAIN, MODE_FIRST_BOOT,
      MODE_NORMAL_BOOT_LOCKED]

/-- Witness of C16: the keys `7`, `'*'`, `'-'` followed by the password keys `1 2 3 4 5`,
with the reply `SUCCESS`, `FirstBoot` pending. -/
theorem hmi_main_menu_request_witness :
    ((45 : Nat) = 43 → hmi_main_step exampleHmiMenu =
      match attemptPassword { exampleHmiMenu with
          keys := [1, 2, 3, 4, 5],
          tx := exampleHmiMenu.tx ++ [SYNC_HANDSHAKE, OPEN_DOOR_REQUEST] } with
      | none => none
      | some h4 => hmi_open_door_wait h4) ∧
    ((45 : Nat) = 45 → hmi_main_step exampleHmiMenu =
      attemptPassword { exampleHmiMenu with
        keys := [1, 2, 3, 4, 5],
        tx := exampleHmiMenu.tx ++ [SYNC_HANDSHAKE, CHANGE_PASS_REQUEST] }) ∧
    (∀ h', hmi_main_step exampleHmiMenu = some h' →
      ∃ more, h'.tx = exampleHmiMenu.tx ++ SYNC_HANDSHAKE ::
        (if (45 : Nat) = 43 then OPEN_DOOR_REQUEST else CHANGE_PASS_REQUEST) :: more) ∧
    (∀ keys, (∀ x, x ∈ keys → x ≠ 43 ∧ x ≠ 45) →
      hmi_main_step { exampleHmiMenu with keys := keys } = none) :=
  hmi_main_menu_request exampleHmiMenu [7, 42] 45 [1, 2, 3, 4, 5] (by decide) (by decide)
    (by decide) (by decide)

/-! ## The delay callback and the power-up -/

/-- C17 does not hold of the code: with `timer_ticks = n`, the counter at 0 and
`delay_over` clear, the flag is still clear after each of the first `n` callbacks and is
set by callback number `n + 1`. -/
theorem delay_over_one_callback_late (n : Nat) (hn : n < 256) :
    (∀ k, k ≤ n →
      (callbacks k { tick := 0, timer_ticks := n, delay_over := false }).delay_over = false) ∧
    (callbacks (n + 1) { tick := 0, timer_ticks := n, delay_over := false }).delay_over =
      true ∧
    (callbacks (n + 1) { tick := 0, timer_ticks := n, delay_over := false }).tick = 0 := by
  refine ⟨fun k hk => ?_, ?_, ?_⟩
  · have e := callbacks_count k 0 n (by omega) hn
    rw [e]
  · have e : callbacks (n + 1) { tick := 0, timer_ticks := n, delay_over := false } =
        Control_Delay_Callback (callbacks n { tick := 0, timer_ticks := n, delay_over := false })
        := by
      have hgen : ∀ (k : Nat) (d : DelayState),
          callbacks (k + 1) d = Control_Delay_Callback (callbacks k d) := by
        intro k
        induction k with
        | zero => intro d; rfl
        | succ k ih => intro d; exact ih (Control_Delay_Callback d)
      exact hgen n _
    rw [e, callbacks_count n 0 n (by omega) hn]
    simp [Control_Delay_Callback]
  · have hgen : ∀ (k : Nat) (d : DelayState),
        callbacks (k + 1) d = Control_Delay_Callback (callbacks k d) := by
      intro k
      induction k with
      | zero => intro d; rfl
      | succ k ih => intro d; exact ih (Control_Delay_Callback d)
    rw [hgen n _, callbacks_count n 0 n (by omega) hn]
    simp [Control_Delay_Callback]

/-- The failing input of C17: `delay_sec(15)` sets `timer_ticks = 15`; the flag is clear
after 15 callbacks and set by the 16th. -/
theorem delay_over_one_callback_late_witness :
    (∀ k, k ≤ 15 →
      (callbacks k { tick := 0, timer_ticks := 15, delay_over := false }).delay_over =
        false) ∧
    (callbacks (15 + 1) { tick := 0, timer_ticks := 15, delay_over := false }).delay_over =
      true ∧
    (callbacks (15 + 1) { tick := 0, timer_ticks := 15, delay_over := false }).tick = 0 :=
  delay_over_one_callback_late 15 (by decide)

/-- C19 does not hold of the code: the EEPROM holds the enrolled password `"12345"` at
`0x0320 .. 0x0324`, and after the power-up the password the back node compares against is
all zero, the mode is `FirstBoot` and the bus has not been used; the five bytes of
`g_password` differ from the five stored bytes. -/
theorem power_up_ignores_eeprom :
    (∀ i, i < 5 → eepromByte exampleEnrolledBus (EEPROM_PASSWORD_ADDRESS + i) = 49 + i) ∧
    (∀ rx, (control_power_up exampleEnrolledBus rx).1.g_password = [0, 0, 0, 0, 0, 0, 0] ∧
      (control_power_up exampleEnrolledBus rx).1.HMI_status = MODE_FIRST_BOOT ∧
      (control_power_up exampleEnrolledBus rx).2.status = exampleEnrolledBus.status ∧
      ¬ ∀ i, i < 5 → (control_power_up exampleEnrolledBus rx).1.g_password.getD i 0 =
        eepromByte exampleEnrolledBus (EEPROM_PASSWORD_ADDRESS + i)) := by
  refine ⟨fun i hi => ?_, fun rx => ⟨rfl, rfl, rfl, fun hall => ?_⟩⟩
  · have h5 : i = 0 ∨ i = 1 ∨ i = 2 ∨ i = 3 ∨ i = 4 := by omega
    rcases h5 with h | h | h | h | h <;> subst h <;> decide
  · have h0 : (control_boot rx).g_password.getD 0 0 =
        eepromByte exampleEnrolledBus (EEPROM_PASSWORD_ADDRESS + 0) := hall 0 (by omega)
    have h1 : (control_boot rx).g_password.getD 0 0 = 0 := rfl
    have h2 : eepromByte exampleEnrolledBus (EEPROM_PASSWORD_ADDRESS + 0) = 49 := by decide
    rw [h1, h2] at h0
    exact absurd h0 (by decide)

/-! ## Repeated enrollment -/

/-- C20: enrollment is idempotent on the stored password. For every capture `P`, the
successful enrollment pass with the captures (`P`, `P`), run once and then any number `n`
of times more, each time from `FirstBoot`, leaves the same `g_password` as the single run,
with `g_password[0..4] = P[0..4]`; and on every EEPROM bus on which all the
`EEPROM_writeString` calls of these passes return `SUCCESS`, the five bytes at
`0x0320 .. 0x0324` are `P[0..4]` afterwards, whatever `n`. -/
theorem enrollment_idempotent (P : List Nat) (s : Control) (n : Nat)
    (hlen : s.g_password.length = PASSWORD_LENGTH) :
    (enrollTimes P (n + 1) s).g_password = (enrollWith P s).g_password ∧
    (∀ i, i < 5 → (enrollTimes P (n + 1) s).g_password.getD i 0 = P.getD i 0) ∧
    (enrollTimes P (n + 1) s).HMI_status = MODE_NORMAL_BOOT_MAIN ∧
    ∀ b : EepromBus,
      (∀ r, r ∈ (replayEeprom ((enrollTimes P (n + 1) s).trace.drop s.trace.length) b).1 →
        r = SUCCESS) →
      ∀ i, i < 5 →
        eepromByte (replayEeprom ((enrollTimes P (n + 1) s).trace.drop s.trace.length) b).2
          (EEPROM_PASSWORD_ADDRESS + i) = P.getD i 0 := by
  have h5 : 5 ≤ s.g_password.length := by rw [hlen]; decide
  rw [enrollTimes_eq P n s h5, enrollWith_eq P s h5]
  refine ⟨rfl, fun i hi => storedAfter_getD P _ i hi, rfl, fun b hall i hi => ?_⟩
  simp only [List.drop_left] at hall ⊢
  rw [replayEeprom_repeat (storedAfter P s.g_password) n b hall i hi]
  exact storedAfter_getD P _ i hi

/-- Witness of C20: the capture `"12345#"` enrolled three times on a fresh back node. -/
theorem enrollment_idempotent_witness :
    (enrollTimes [49, 50, 51, 52, 53, 35, 0] (2 + 1) (control_boot [])).g_password =
      (enrollWith [49, 50, 51, 52, 53, 35, 0] (control_boot [])).g_password ∧
    (∀ i, i < 5 →
      (enrollTimes [49, 50, 51, 52, 53, 35, 0] (2 + 1) (control_boot [])).g_password.getD i 0 =
        [49, 50, 51, 52, 53, 35, 0].getD i 0) ∧
    (enrollTimes [49, 50, 51, 52, 53, 35, 0] (2 + 1) (control_boot [])).HMI_status =
      MODE_NORMAL_BOOT_MAIN ∧
    ∀ b : EepromBus,
      (∀ r, r ∈ (replayEeprom ((enrollTimes [49, 50, 51, 52, 53, 35, 0] (2 + 1)
          (control_boot [])).trace.drop (control_boot []).trace.length) b).1 →
        r = SUCCESS) →
      ∀ i, i < 5 →
        eepromByte (replayEeprom ((enrollTimes [49, 50, 51, 52, 53, 35, 0] (2 + 1)
          (control_boot [])).trace.drop (control_boot []).trace.length) b).2
          (EEPROM_PASSWORD_ADDRESS + i) = [49, 50, 51, 52, 53, 35, 0].getD i 0 :=
  enrollment_idempotent [49, 50, 51, 52, 53, 35, 0] (control_boot []) 2 (by decide)

/-! ## Overwrites of the stored password -/

/-- C18: in every execution of the back node from boot, whatever `UART_receiveString` does
and whatever bytes arrive, a pass of the super loop that overwrites the stored password
(calls `set_password`, or changes `g_password` at all) starts in `FirstBoot`, never in
`MainMenu`, `Locked` or `Alarm`; and for every earlier pass `j` that called `set_password`
there is a pass `m` strictly between the two that started in `MainMenu`, received a request
other than open-door, and in which `confirmPasswordAttempts(MODE_FIRST_BOOT)` returned
`TRUE`. The first `set_password` call of the execution has no earlier one and is free. -/
theorem set_password_guarded (recvStr : ReceiveString) (rx : List Nat) (k : Nat)
    (sk sk1 : Control)
    (hk : control_run recvStr k (control_boot rx) = some sk)
    (hstep : control_main_step recvStr sk = some sk1)
    (hw : setPasswordCalls (passCalls sk sk1) ≠ 0 ∨ sk1.g_password ≠ sk.g_password) :
    sk.HMI_status = MODE_FIRST_BOOT ∧
    ∀ j sj sj1, j < k → control_run recvStr j (control_boot rx) = some sj →
      control_main_step recvStr sj = some sj1 →
      setPasswordCalls (passCalls sj sj1) ≠ 0 →
      ∃ m sm sm1 rx0 request rx1, j < m ∧ m < k ∧
        control_run recvStr m (control_boot rx) = some sm ∧
        control_main_step recvStr sm = some sm1 ∧
        sm.HMI_status = MODE_NORMAL_BOOT_MAIN ∧
        awaitSync sm.rx = some rx0 ∧ UART_receiveByte rx0 = some (request, rx1) ∧
        request ≠ OPEN_DOOR_REQUEST ∧
        confirmPasswordAttempts recvStr MODE_FIRST_BOOT { sm with rx := rx1 } =
          some (true, sm1) := by
  have hfbk : sk.HMI_status = MODE_FIRST_BOOT := by
    by_contra hne
    obtain ⟨hg, hc, _⟩ := pass_outside_first_boot recvStr sk sk1 hne hstep
    rcases hw with hw | hw
    · exact hw hc
    · exact hw hg
  refine ⟨hfbk, fun j sj sj1 hjk hj hjstep hjw => ?_⟩
  have hfbj : sj.HMI_status = MODE_FIRST_BOOT := by
    by_contra hne
    exact hjw (pass_outside_first_boot recvStr sj sj1 hne hjstep).2.1
  have hmain : sj1.HMI_status = MODE_NORMAL_BOOT_MAIN :=
    pass_first_boot recvStr sj sj1 hfbj hjstep (Or.inl hjw)
  have hj1 : control_run recvStr (j + 1) (control_boot rx) = some sj1 := by
    rw [control_run_add, hj, Option.some_bind, control_run_one, hjstep]
  obtain ⟨d, hd⟩ : ∃ d, k = j + 1 + d := ⟨k - (j + 1), by omega⟩
  subst hd
  have hrest : control_run recvStr d sj1 = some sk := by
    rw [control_run_add, hj1, Option.some_bind] at hk
    exact hk
  have hne : sj1.HMI_status ≠ MODE_FIRST_BOOT := by
    rw [hmain]
    decide
  obtain ⟨m, sm, sm1, hm, hrun, hmstep, ha, hb⟩ :=
    control_run_enters recvStr d sj1 sk hrest hne hfbk
  obtain ⟨_, _, hin⟩ := pass_outside_first_boot recvStr sm sm1 ha hmstep
  obtain ⟨hmm, rx0, request, rx1, h1, h2, h3, h4⟩ := hin hb
  refine ⟨j + 1 + m, sm, sm1, rx0, request, rx1, by omega, by omega, ?_, hmstep, hmm,
    h1, h2, h3, h4⟩
  rw [control_run_add, hj1, Option.some_bind]
  exact hrun

/-- Witness of C18: on `exampleChangeRx` the third pass (pass 2) overwrites the password
`"12345"` with `"67890"`; the change-password authentication is pass 1. -/
theorem set_password_guarded_witness :
    exampleBeforeChange.HMI_status = MODE_FIRST_BOOT ∧
    ∀ j sj sj1, j < 2 →
      control_run receiveUntilEOS j (control_boot exampleChangeRx) = some sj →
      control_main_step receiveUntilEOS sj = some sj1 →
      setPasswordCalls (passCalls sj sj1) ≠ 0 →
      ∃ m sm sm1 rx0 request rx1, j < m ∧ m < 2 ∧
        control_run receiveUntilEOS m (control_boot exampleChangeRx) = some sm ∧
        control_main_step receiveUntilEOS sm = some sm1 ∧
        sm.HMI_status = MODE_NORMAL_BOOT_MAIN ∧
        awaitSync sm.rx = some rx0 ∧ UART_receiveByte rx0 = some (request, rx1) ∧
        request ≠ OPEN_DOOR_REQUEST ∧
        confirmPasswordAttempts receiveUntilEOS MODE_FIRST_BOOT { sm with rx := rx1 } =
          some (true, sm1) :=
  set_password_guarded receiveUntilEOS exampleChangeRx 2 exampleBeforeChange
    exampleAfterChange (by decide) (by decide) (Or.inl (by decide))

/-! ## The EEPROM string routines -/

/-- C21: for every address, array, size (a `uint8`) and bus, `EEPROM_writeString` returns
`SUCCESS` if and only if every one of the `size` byte writes succeeds; and when the write
at index `k` is the first to fail, it returns `ERROR`, the bus is the one that write left
(no write at an index above `k` has been attempted), the bytes `str[0..k-1]` are stored at
`a_addr .. a_addr+k-1`, and every other memory cell is as before. -/
theorem EEPROM_writeString_first_failure (a : Nat) (str : List Nat) (size : Nat)
    (b : EepromBus) (hsize : size < 256) :
    ((EEPROM_writeString a str size b).1 = SUCCESS ↔
      ∀ i, i < size → byteWriteResult a str i b = SUCCESS) ∧
    ∀ k, k < size → (∀ i, i < k → byteWriteResult a str i b = SUCCESS) →
      byteWriteResult a str k b ≠ SUCCESS →
      EEPROM_writeString a str size b = (ERROR, writeBytes a str (k + 1) b) ∧
      (∀ i, i < k →
        eepromByte (EEPROM_writeString a str size b).2 ((a + i) % 65536) = str.getD i 0) ∧
      (∀ d w, (∀ i, i < k → ¬ (d = slave_w_3addr ((a + i) % 65536) ∧
          w = ((a + i) % 65536) % 256)) →
        (EEPROM_writeString a str size b).2.mem d w = b.mem d w) := by
  have hfailure : ∀ k, k < size → (∀ i, i < k → byteWriteResult a str i b = SUCCESS) →
      byteWriteResult a str k b ≠ SUCCESS →
      EEPROM_writeString a str size b = (ERROR, writeBytes a str (k + 1) b) := by
    intro k hk hall hfail
    exact EEPROM_writeString_loop_failure a str size b hsize k hk hfail size 0 (by omega)
      (by omega) (fun j _ hj => hall j hj)
  refine ⟨⟨fun hs => ?_, fun hall => ?_⟩, fun k hk hall hfail => ?_⟩
  · by_contra hne
    push_neg at hne
    have hex : ∃ k, k < size ∧ byteWriteResult a str k b ≠ SUCCESS := by
      obtain ⟨i, hi, hr⟩ := hne
      exact ⟨i, hi, hr⟩
    classical
    have hk := Nat.find_spec hex
    have hmin : ∀ i, i < Nat.find hex → byteWriteResult a str i b = SUCCESS := by
      intro i hi
      by_contra hr
      exact Nat.find_min hex hi ⟨by omega, hr⟩
    rw [hfailure (Nat.find hex) hk.1 hmin hk.2] at hs
    have hs2 : ERROR = SUCCESS := hs
    exact absurd hs2 (by decide)
  · have e := EEPROM_writeString_loop_success a str size b hsize size 0 (by omega) (by omega)
      (fun j _ hj => hall j hj)
    have e2 : EEPROM_writeString a str size b = (SUCCESS, writeBytes a str size b) := e
    rw [e2]
  · have e := hfailure k hk hall hfail
    have hmemk : (writeBytes a str (k + 1) b).mem = (writeBytes a str k b).mem := by
      rcases EEPROM_writeByte_cases ((a + k) % 65536) (str.getD k 0)
        (writeBytes a str k b) with ⟨hs, _⟩ | ⟨_, hm⟩
      · exact absurd hs hfail
      · exact hm
    obtain ⟨h1, h2⟩ := writeBytes_mem a str b k (by omega) hall
    refine ⟨e, fun i hi => ?_, fun d w hdw => ?_⟩
    · rw [e]
      have := h1 i hi
      unfold eepromByte at this ⊢
      show (writeBytes a str (k + 1) b).mem _ _ = _
      rw [hmemk]
      exact this
    · rw [e]
      show (writeBytes a str (k + 1) b).mem d w = _
      rw [hmemk]
      exact h2 d w hdw

/-- Witness of C21: the write of `"12345"` at `0x0320` on a bus on which the third byte
write fails. -/
theorem EEPROM_writeString_first_failure_witness :
    ((EEPROM_writeString 0x0320 [49, 50, 51, 52, 53, 35, 0] 5 exampleFailingBus).1 = SUCCESS ↔
      ∀ i, i < 5 → byteWriteResult 0x0320 [49, 50, 51, 52, 53, 35, 0] i exampleFailingBus =
        SUCCESS) ∧
    ∀ k, k < 5 →
      (∀ i, i < k → byteWriteResult 0x0320 [49, 50, 51, 52, 53, 35, 0] i exampleFailingBus =
        SUCCESS) →
      byteWriteResult 0x0320 [49, 50, 51, 52, 53, 35, 0] k exampleFailingBus ≠ SUCCESS →
      EEPROM_writeString 0x0320 [49, 50, 51, 52, 53, 35, 0] 5 exampleFailingBus =
        (ERROR, writeBytes 0x0320 [49, 50, 51, 52, 53, 35, 0] (k + 1) exampleFailingBus) ∧
      (∀ i, i < k →
        eepromByte (EEPROM_writeString 0x0320 [49, 50, 51, 52, 53, 35, 0] 5
          exampleFailingBus).2 ((0x0320 + i) % 65536) =
          [49, 50, 51, 52, 53, 35, 0].getD i 0) ∧
      (∀ d w, (∀ i, i < k → ¬ (d = slave_w_3addr ((0x0320 + i) % 65536) ∧
          w = ((0x0320 + i) % 65536) % 256)) →
        (EEPROM_writeString 0x0320 [49, 50, 51, 52, 53, 35, 0] 5 exampleFailingBus).2.mem d w =
          exampleFailingBus.mem d w) :=
  EEPROM_writeString_first_failure 0x0320 [49, 50, 51, 52, 53, 35, 0] 5 exampleFailingBus
    (by decide)

/-- C22 does not hold of the code: reading five bytes from `0x0320` into an array of
zeros, the read at index 1 being the first to fail. When it fails at its last status test,
`EEPROM_readString` returns `ERROR` and the element at index 1 holds `'2'`, the byte taken
from the data register before that test: it is not left unchanged. When it fails at an
earlier step the element at index 1 is left as it was. -/
theorem EEPROM_readString_overwrites_failed_slot :
    (EEPROM_readString 0x0320 [0, 0, 0, 0, 0, 0, 0] 5 exampleReadLateFailure).1 = ERROR ∧
    (EEPROM_readString 0x0320 [0, 0, 0, 0, 0, 0, 0] 5 exampleReadLateFailure).2.1 =
      [49, 50, 0, 0, 0, 0, 0] ∧
    (EEPROM_readByte 0x0320 0 exampleReadLateFailure).1 = SUCCESS ∧
    (EEPROM_readByte 0x0321 0 (EEPROM_readByte 0x0320 0 exampleReadLateFailure).2.2).1 =
      ERROR ∧
    (EEPROM_readString 0x0320 [0, 0, 0, 0, 0, 0, 0] 5 exampleReadLateFailure).2.1.getD 1 0 ≠
      ([0, 0, 0, 0, 0, 0, 0] : List Nat).getD 1 0 ∧
    (EEPROM_readString 0x0320 [0, 0, 0, 0, 0, 0, 0] 5 exampleReadEarlyFailure).1 = ERROR ∧
    (EEPROM_readString 0x0320 [0, 0, 0, 0, 0, 0, 0] 5 exampleReadEarlyFailure).2.1 =
      [49, 0, 0, 0, 0, 0, 0] := by
  refine ⟨by decide, by decide, by decide, by decide, by decide, by decide, by decide⟩

/-! ## The timer driver -/

/-- C23 does not hold of the code for timer 2: `Timer_resume(TIMER2_ID)` restores the
clock-select bits from `Timer0_Current_Clock`. After reset, timer 2 is initialised in
compare mode with the prescaler 7 (its control register is `0x8F`) and stopped (`0x88`);
the resume leaves `0x88`, the timer stays stopped. Timers 0 and 1 with the same
configuration get their control register back, and so does every prescaler below 8 in
either mode. -/
theorem Timer_resume_timer2_wrong_clock :
    (Timer_init (exampleTimerConfig 2 7 1) timerReset).TCCR2 = 0x8F ∧
    (Timer_stop 2 (Timer_init (exampleTimerConfig 2 7 1) timerReset)).TCCR2 = 0x88 ∧
    (Timer_resume 2 (Timer_stop 2 (Timer_init (exampleTimerConfig 2 7 1) timerReset))).TCCR2 =
      0x88 ∧
    (∀ p, p < 8 → ∀ m, m < 2 →
      (Timer_resume 0 (Timer_stop 0 (Timer_init (exampleTimerConfig 0 p m) timerReset))).TCCR0 =
        (Timer_init (exampleTimerConfig 0 p m) timerReset).TCCR0 ∧
      (Timer_resume 1 (Timer_stop 1
          (Timer_init (exampleTimerConfig 1 p m) timerReset))).TCCR1B =
        (Timer_init (exampleTimerConfig 1 p m) timerReset).TCCR1B) := by
  refine ⟨by decide, by decide, by decide, by decide⟩

/-- C24 does not hold of the code for timer 2: `Timer_DeInit(TIMER2_ID)` on three running
timers leaves timer 2's control register (`0x8F`, the timer keeps running) and counter as
they were, and zeroes the control register and the counter of timer 0. It does zero
`OCR2` and clear the two interrupt-enable bits of timer 2 only. `Timer_DeInit` of timer 0
and of timer 1 leave timer 2's registers alone. -/
theorem Timer_DeInit_timer2_wrong_registers :
    (Timer_DeInit 2 exampleTimersRunning).TCCR2 = 0x8F ∧
    (Timer_DeInit 2 exampleTimersRunning).TCNT2 = 17 ∧
    (Timer_DeInit 2 exampleTimersRunning).TCCR0 = 0 ∧
    (Timer_DeInit 2 exampleTimersRunning).TCNT0 = 0 ∧
    exampleTimersRunning.TCCR0 = 0x8D ∧ exampleTimersRunning.TCNT0 = 42 ∧
    (Timer_DeInit 2 exampleTimersRunning).OCR2 = 0 ∧
    (Timer_DeInit 2 exampleTimersRunning).TIMSK = 0x12 ∧
    Timer_DeInit 0 exampleTimersRunning =
      { exampleTimersRunning with TCCR0 := 0, TCNT0 := 0, OCR0 := 0, TIMSK := 0x90 } ∧
    Timer_DeInit 1 exampleTimersRunning =
      { exampleTimersRunning with TCCR1A := 0, TCCR1B := 0, TCNT1 := 0, OCR1A := 0,
                                  TIMSK := 0x82 } := by
  refine ⟨by decide, by decide, by decide, by decide, by decide, by decide, by decide,
    by decide, by decide, by decide⟩

/-! ## The tick count of a delay -/

/-- C25: for every second count `a_sec` in `0 .. 255`, the tick count of `delay_sec`,
`round(a_sec / ((1024 / 8000000) * 7812))` in exact arithmetic, is `a_sec`, and so is the
value stored in the 8-bit `timer_ticks`: nothing wraps. The delays of 15 s, 3 s and 60 s
request 15, 3 and 60 ticks. -/
theorem delay_sec_ticks_exact (a_sec : Nat) (h : a_sec < 256) :
    delay_sec_rounded a_sec = (a_sec : Int) ∧ delay_sec_timer_ticks a_sec = a_sec ∧
    delay_sec_timer_ticks 15 = 15 ∧ delay_sec_timer_ticks 3 = 3 ∧
    delay_sec_timer_ticks 60 = 60 := by
  have hgen : ∀ a, a < 256 → delay_sec_timer_ticks a = a := by
    intro a ha
    unfold delay_sec_timer_ticks
    rw [delay_sec_rounded_eq a (by omega), Int.toNat_ofNat]
    exact Nat.mod_eq_of_lt ha
  exact ⟨delay_sec_rounded_eq a_sec (by omega), hgen a_sec h, hgen 15 (by omega),
    hgen 3 (by omega), hgen 60 (by omega)⟩

/-- Witness of C25: the longest delay a `uint8` can request. -/
theorem delay_sec_ticks_exact_witness :
    delay_sec_rounded 255 = ((255 : Nat) : Int) ∧ delay_sec_timer_ticks 255 = 255 ∧
    delay_sec_timer_ticks 15 = 15 ∧ delay_sec_timer_ticks 3 = 3 ∧
    delay_sec_timer_ticks 60 = 60 :=
  delay_sec_ticks_exact 255 (by decide)

/-! ## The modes at the head of the super loop -/

/-- C26: in every execution of the back node from power-up, whatever `UART_receiveString`
does and whatever bytes arrive, the mode at the head of the super loop (after any number
`n` of passes) is `FirstBoot`, `MainMenu` or `Alarm` and never `Locked`; and every return
of `confirmPasswordAttempts(t)` leaves the mode `t` when it returns `TRUE` and `Alarm` when
it returns `FALSE`. -/
theorem dispatch_never_locked (recvStr : ReceiveString) (rx : List Nat) (n : Nat)
    (s : Control) (h : control_run recvStr n (control_boot rx) = some s) :
    (s.HMI_status = MODE_FIRST_BOOT ∨ s.HMI_status = MODE_NORMAL_BOOT_MAIN ∨
      s.HMI_status = MODE_ALARM_MODE) ∧
    s.HMI_status ≠ MODE_NORMAL_BOOT_LOCKED ∧
    ∀ t c ok c1, confirmPasswordAttempts recvStr t c = some (ok, c1) →
      c1.HMI_status = if ok = true then t else MODE_ALARM_MODE := by
  have hm := control_run_mode recvStr rx n s h
  refine ⟨hm, fun hl => ?_, fun t c ok c1 hc => (confirm_frame recvStr t c ok c1 hc).2.2⟩
  rcases hm with hm | hm | hm <;> rw [hl] at hm <;> exact absurd hm (by decide)

/-- Witness of C26: the back node after the first two passes on `exampleChangeRx`. -/
theorem dispatch_never_locked_witness :
    (exampleBeforeChange.HMI_status = MODE_FIRST_BOOT ∨
      exampleBeforeChange.HMI_status = MODE_NORMAL_BOOT_MAIN ∨
      exampleBeforeChange.HMI_status = MODE_ALARM_MODE) ∧
    exampleBeforeChange.HMI_status ≠ MODE_NORMAL_BOOT_LOCKED ∧
    ∀ t c ok c1, confirmPasswordAttempts receiveUntilEOS t c = some (ok, c1) →
      c1.HMI_status = if ok = true then t else MODE_ALARM_MODE :=
  dispatch_never_locked receiveUntilEOS exampleChangeRx 2 exampleBeforeChange (by decide)

/-! ## The actuators at the head of the super loop -/

/-- C27: in every execution of the back node from power-up, after any number `n` of passes
of the super loop, the last motor command issued, if any, is `STOP`, and the last buzzer
command issued, if any, is `Buzzer_OFF`. -/
theorem actuators_idle_at_loop_head (recvStr : ReceiveString) (rx : List Nat) (n : Nat)
    (s : Control) (h : control_run recvStr n (control_boot rx) = some s) :
    ((motorCommands s.trace).getLast? = none ∨
      (motorCommands s.trace).getLast? = some DcMotor_State.STOP) ∧
    ((buzzerCommands s.trace).getLast? = none ∨
      (buzzerCommands s.trace).getLast? = some false) :=
  control_run_actuators recvStr n (control_boot rx) s h (Or.inl rfl) (Or.inl rfl)

/-- Witness of C27: the back node after an enrollment, a door sequence, three failed
attempts and the alarm. -/
theorem actuators_idle_at_loop_head_witness :
    ((motorCommands exampleAfterAlarm.trace).getLast? = none ∨
      (motorCommands exampleAfterAlarm.trace).getLast? = some DcMotor_State.STOP) ∧
    ((buzzerCommands exampleAfterAlarm.trace).getLast? = none ∨
      (buzzerCommands exampleAfterAlarm.trace).getLast? = some false) :=
  actuators_idle_at_loop_head receiveUntilEOS exampleDoorAlarmRx 4 exampleAfterAlarm
    (by decide)

/-! ## The stored password outside `FirstBoot` -/

/-- C28: in every execution of the back node from power-up, whenever the mode at the head
of the super loop (after `n` passes) is not `FirstBoot`, an earlier pass `j` was a successful
enrollment (it started in `FirstBoot`, ended in `MainMenu` and called `set_password` once),
no pass after it has called `set_password` or changed `g_password`, and `g_password[0..4]`
equals the first five bytes of its capture #1, the array `b1` that `UART_receiveString`
left in `g_pass_buffer1`. Bounded authentication runs only in passes that start outside
`FirstBoot`, hence only after such an enrollment. -/
theorem password_is_last_enrollment (recvStr : ReceiveString) (rx : List Nat) (n : Nat)
    (s : Control) (h : control_run recvStr n (control_boot rx) = some s)
    (hmode : s.HMI_status ≠ MODE_FIRST_BOOT) :
    ∃ j sj sj1 rx1 b1 rx2, j < n ∧
      control_run recvStr j (control_boot rx) = some sj ∧
      control_main_step recvStr sj = some sj1 ∧
      sj.HMI_status = MODE_FIRST_BOOT ∧ sj1.HMI_status = MODE_NORMAL_BOOT_MAIN ∧
      awaitSync sj.rx = some rx1 ∧ recvStr sj.g_pass_buffer1 rx1 = some (b1, rx2) ∧
      setPasswordCalls (passCalls sj sj1) = 1 ∧
      (∀ i, i < 5 → s.g_password.getD i 0 = b1.getD i 0) ∧
      ∀ m sm sm1, j < m → m < n → control_run recvStr m (control_boot rx) = some sm →
        control_main_step recvStr sm = some sm1 →
        setPasswordCalls (passCalls sm sm1) = 0 ∧ sm1.g_password = sm.g_password :=
  control_run_enrolled recvStr rx n s h hmode

/-- Witness of C28: the back node after four passes on `exampleDoorAlarmRx`; the enrollment
is pass 0. -/
theorem password_is_last_enrollment_witness :
    ∃ j sj sj1 rx1 b1 rx2, j < 4 ∧
      control_run receiveUntilEOS j (control_boot exampleDoorAlarmRx) = some sj ∧
      control_main_step receiveUntilEOS sj = some sj1 ∧
      sj.HMI_status = MODE_FIRST_BOOT ∧ sj1.HMI_status = MODE_NORMAL_BOOT_MAIN ∧
      awaitSync sj.rx = some rx1 ∧ receiveUntilEOS sj.g_pass_buffer1 rx1 = some (b1, rx2) ∧
      setPasswordCalls (passCalls sj sj1) = 1 ∧
      (∀ i, i < 5 → exampleAfterAlarm.g_password.getD i 0 = b1.getD i 0) ∧
      ∀ m sm sm1, j < m → m < 4 →
        control_run receiveUntilEOS m (control_boot exampleDoorAlarmRx) = some sm →
        control_main_step receiveUntilEOS sm = some sm1 →
        setPasswordCalls (passCalls sm sm1) = 0 ∧ sm1.g_password = sm.g_password :=
  password_is_last_enrollment receiveUntilEOS exampleDoorAlarmRx 4 exampleAfterAlarm
    (by decide) (by decide)

/-! ## The frame and the replies of bounded authentication -/

/-- C29: for every target mode `t`, every state (stored password included) and every input,
a returning `confirmPasswordAttempts(t)` leaves `g_password` and `g_pass_buffer2` as they
were, and its calls are `UART_sendByte` calls only: no `EEPROM_writeString` is issued (on
every bus the replay of its calls performs no write), whether it returns `TRUE` or ends in
`Alarm`. -/
theorem confirmPasswordAttempts_frame (recvStr : ReceiveString) (t : Nat) (s : Control)
    (ok : Bool) (s1 : Control)
    (h : confirmPasswordAttempts recvStr t s = some (ok, s1)) :
    s1.g_password = s.g_password ∧ s1.g_pass_buffer2 = s.g_pass_buffer2 ∧
    s1.HMI_status = (if ok = true then t else MODE_ALARM_MODE) ∧
    ∃ l, s1.trace = s.trace ++ l ∧ (∀ e, e ∈ l → ∃ d, e = Event.UART_sendByte d) ∧
      setPasswordCalls l = 0 ∧ ∀ b, replayEeprom l b = ([], b) := by
  obtain ⟨hg, hb, l, hl, hsend⟩ := confirm_changes recvStr t s ok s1 h
  exact ⟨hg, hb, (confirm_frame recvStr t s ok s1 h).2.2, l, hl, hsend,
    setPasswordCalls_sends_only l hsend, replayEeprom_sends_only l hsend⟩

/-- Witness of C29: password `"12345"`, three wrong attempts, the routine ends in `Alarm`. -/
theorem confirmPasswordAttempts_frame_witness :
    ({ exampleControlWrong with
        g_pass_buffer1 := [48, 48, 48, 48, 48, 35, 0], HMI_status := MODE_ALARM_MODE,
        rx := [],
        trace := [Event.UART_sendByte 0, Event.UART_sendByte 0, Event.UART_sendByte 0,
          Event.UART_sendByte 0, Event.UART_sendByte 0, Event.UART_sendByte 3]
        } : Control).g_password = exampleControlWrong.g_password ∧
    ({ exampleControlWrong with
        g_pass_buffer1 := [48, 48, 48, 48, 48, 35, 0], HMI_status := MODE_ALARM_MODE,
        rx := [],
        trace := [Event.UART_sendByte 0, Event.UART_sendByte 0, Event.UART_sendByte 0,
          Event.UART_sendByte 0, Event.UART_sendByte 0, Event.UART_sendByte 3]
        } : Control).g_pass_buffer2 = exampleControlWrong.g_pass_buffer2 ∧
    ({ exampleControlWrong with
        g_pass_buffer1 := [48, 48, 48, 48, 48, 35, 0], HMI_status := MODE_ALARM_MODE,
        rx := [],
        trace := [Event.UART_sendByte 0, Event.UART_sendByte 0, Event.UART_sendByte 0,
          Event.UART_sendByte 0, Event.UART_sendByte 0, Event.UART_sendByte 3]
        } : Control).HMI_status =
      (if false = true then MODE_FIRST_BOOT else MODE_ALARM_MODE) ∧
    ∃ l, ({ exampleControlWrong with
        g_pass_buffer1 := [48, 48, 48, 48, 48, 35, 0], HMI_status := MODE_ALARM_MODE,
        rx := [],
        trace := [Event.UART_sendByte 0, Event.UART_sendByte 0, Event.UART_sendByte 0,
          Event.UART_sendByte 0, Event.UART_sendByte 0, Event.UART_sendByte 3]
        } : Control).trace = exampleControlWrong.trace ++ l ∧
      (∀ e, e ∈ l → ∃ d, e = Event.UART_sendByte d) ∧
      setPasswordCalls l = 0 ∧ ∀ b, replayEeprom l b = ([], b) :=
  confirmPasswordAttempts_frame receiveUntilEOS MODE_FIRST_BOOT exampleControlWrong false
    { exampleControlWrong with
        g_pass_buffer1 := [48, 48, 48, 48, 48, 35, 0], HMI_status := MODE_ALARM_MODE,
        rx := [],
        trace := [Event.UART_sendByte 0, Event.UART_sendByte 0, Event.UART_sendByte 0,
          Event.UART_sendByte 0, Event.UART_sendByte 0, Event.UART_sendByte 3] }
    (by decide)

/-- C30: the replies of bounded authentication depend only on the index of the first
matching attempt. For every state `s` (stored password included), every target `t` and any
two input streams `rxA`, `rxB` whose attempts have the same index `r` of the first match
with `g_password` (or both no match in three), `confirmPasswordAttempts(t)` returns on
both, with the same result, the same calls (the replies `confirmReplies t r`: `ERROR`,
`Locked` for each wrong attempt before the match, whatever its content) and the same final
mode. -/
theorem replies_reveal_first_match_only (recvStr : ReceiveString) (t : Nat) (s : Control)
    (rxA rxB : List Nat) (r : Option Nat)
    (hA : firstMatch recvStr s.g_password 3 s.g_pass_buffer1 rxA = some r)
    (hB : firstMatch recvStr s.g_password 3 s.g_pass_buffer1 rxB = some r) :
    ∃ cA cB, confirmPasswordAttempts recvStr t { s with rx := rxA } = some (r.isSome, cA) ∧
      confirmPasswordAttempts recvStr t { s with rx := rxB } = some (r.isSome, cB) ∧
      passCalls s cA = confirmReplies t r ∧ passCalls s cB = confirmReplies t r ∧
      txBytes (passCalls s cA) = txBytes (passCalls s cB) ∧
      cA.HMI_status = cB.HMI_status ∧
      cA.HMI_status = (if r.isSome = true then t else MODE_ALARM_MODE) := by
  obtain ⟨cA, hcA, hmA, htA⟩ := confirm_of_firstMatch recvStr t { s with rx := rxA } r hA
  obtain ⟨cB, hcB, hmB, htB⟩ := confirm_of_firstMatch recvStr t { s with rx := rxB } r hB
  have eA : passCalls s cA = confirmReplies t r := passCalls_of_append s cA _ htA
  have eB : passCalls s cB = confirmReplies t r := passCalls_of_append s cB _ htB
  exact ⟨cA, cB, hcA, hcB, eA, eB, by rw [eA, eB], by rw [hmA, hmB], hmA⟩

/-- Witness of C30: password `"12345"`; the streams `"99999#"`, `"12345#"` and `"12346#"`,
`"12345#"` (a wrong attempt with no and with four correct characters) both match at the
second attempt. -/
theorem replies_reveal_first_match_only_witness :
    ∃ cA cB, confirmPasswordAttempts receiveUntilEOS MODE_NORMAL_BOOT_MAIN
        { exampleControl with
          rx := [0xED, 57, 57, 57, 57, 57, 35, 0xED, 49, 50, 51, 52, 53, 35] } =
        some ((some 1 : Option Nat).isSome, cA) ∧
      confirmPasswordAttempts receiveUntilEOS MODE_NORMAL_BOOT_MAIN
        { exampleControl with
          rx := [0xED, 49, 50, 51, 52, 54, 35, 0xED, 49, 50, 51, 52, 53, 35] } =
        some ((some 1 : Option Nat).isSome, cB) ∧
      passCalls exampleControl cA = confirmReplies MODE_NORMAL_BOOT_MAIN (some 1) ∧
      passCalls exampleControl cB = confirmReplies MODE_NORMAL_BOOT_MAIN (some 1) ∧
      txBytes (passCalls exampleControl cA) = txBytes (passCalls exampleControl cB) ∧
      cA.HMI_status = cB.HMI_status ∧
      cA.HMI_status =
        (if (some 1 : Option Nat).isSome = true then MODE_NORMAL_BOOT_MAIN
          else MODE_ALARM_MODE) :=
  replies_reveal_first_match_only receiveUntilEOS MODE_NORMAL_BOOT_MAIN exampleControl
    [0xED, 57, 57, 57, 57, 57, 35, 0xED, 49, 50, 51, 52, 53, 35]
    [0xED, 49, 50, 51, 52, 54, 35, 0xED, 49, 50, 51, 52, 53, 35] (some 1)
    (by decide) (by decide)

end SecuritySystem
